import Mathlib

/-!
# commhistory-daemon: notification groups and the notification manager

A shallow embedding of `src/notificationgroup.cpp` and
`src/notificationmanager.cpp`, followed by theorems about it.

Conventions of the embedding:

* a `PersonalNotification *` is a `Ptr` (a natural number) into a `Heap`, so that
  identity (`QList::contains`, `QList::removeOne`) and aliasing are kept;
* Qt objects owned elsewhere (the published platform records, the records that were
  closed, the member objects that were released) are logs in `World`;
* `emit changed()` is connected to `updateGroupLater`, which starts the zero-delay
  single-shot `updateTimer`: it is the flag `updateTimerActive`;
* everything declared in headers that are not part of the sources (localised
  strings, D-Bus constants, recipient matching, the locale join, the absent
  methods of `PersonalNotification`) is a field of `Env`, and so is the character
  class `QChar::isSpace` of the Qt library;
* the length of a `QString` is its number of UTF-16 code units (`qLength`).
-/

namespace RTComLogger

/-! ## Qt and library data -/

abbrev QString := String

/-- A `PersonalNotification *`. -/
abbrev Ptr := Nat

/-- A `QDateTime`: `none` is the null date-time, `some t` a valid one. -/
abbrev QDateTime := Option Int

/-- Modelled from the spec: the comparison `a > b` of two `QDateTime`s (the Qt
operator is not part of the sources). "A timestamp comparison treats an absent
timestamp as strictly older than any present timestamp." -/
def timestampGt : QDateTime → QDateTime → Bool
  | some a, some b => decide (b < a)
  | some _, none => true
  | none, _ => false

/-- The values of `QVariant` that the daemon stores. -/
inductive QVariant where
  | null : QVariant
  | bool : Bool → QVariant
  | string : QString → QVariant
  | uint : Nat → QVariant
  deriving DecidableEq, Repr

def QVariant.isNull : QVariant → Bool
  | QVariant.null => true
  | _ => false

/-- The enumeration `PersonalNotification::EventCollection`. -/
inductive EventCollection where
  | Messaging : EventCollection
  | Voicemail : EventCollection
  | Voice : EventCollection
  deriving DecidableEq, Repr

/-- The enumeration `CommHistory::Group::ChatType`. -/
inductive ChatType where
  | ChatTypeP2P : ChatType
  | ChatTypeUnnamed : ChatType
  | ChatTypeRoom : ChatType
  deriving DecidableEq, Repr

/-- The enumeration `CommHistory::Event::EventType`. -/
inductive EventType where
  | UnknownType : EventType
  | IMEvent : EventType
  | SMSEvent : EventType
  | CallEvent : EventType
  | VoicemailEvent : EventType
  | StatusMessageEvent : EventType
  | MMSEvent : EventType
  | ClassZeroSMSEvent : EventType
  deriving DecidableEq, Repr

/-- The integer value of an event type, as stored by `PersonalNotification::eventType()`
and listed in `QList<int>` filters. -/
def EventType.toInt : EventType → Int
  | EventType.UnknownType => 0
  | EventType.IMEvent => 1
  | EventType.SMSEvent => 2
  | EventType.CallEvent => 3
  | EventType.VoicemailEvent => 4
  | EventType.StatusMessageEvent => 5
  | EventType.MMSEvent => 6
  | EventType.ClassZeroSMSEvent => 7

/-- The enumeration `CommHistory::Event::EventDirection`. -/
inductive EventDirection where
  | UnknownDirection : EventDirection
  | Inbound : EventDirection
  | Outbound : EventDirection
  deriving DecidableEq, Repr

/-- A `CommHistory::Recipient`: an account, a remote party and the state of its contact
resolution. -/
structure Recipient where
  localUid : QString
  remoteUid : QString
  contactResolved : Bool
  deriving DecidableEq, Repr

def Recipient.isContactResolved (r : Recipient) : Bool := r.contactResolved

/-- One remote action of a platform notification (`Notification::remoteAction`). -/
structure RemoteAction where
  name : QString
  displayName : QString
  service : QString
  path : QString
  iface : QString
  method : QString
  arguments : List QVariant
  deriving DecidableEq, Repr

/-- A platform notification record (nemo `Notification`). -/
structure Notification where
  appName : QString
  category : QString
  summary : QString
  body : QString
  previewSummary : QString
  previewBody : QString
  itemCount : Nat
  timestamp : QDateTime
  hints : List (QString × QVariant)
  remoteActions : List RemoteAction
  replacesId : Nat
  deriving DecidableEq, Repr

/-- A freshly constructed `Notification`. -/
def Notification.new : Notification :=
  { appName := "", category := "", summary := "", body := "", previewSummary := "",
    previewBody := "", itemCount := 0, timestamp := none, hints := [],
    remoteActions := [], replacesId := 0 }

/-- The value of a hint, the null variant when the hint is absent. -/
def Notification.hintValue (n : Notification) (key : QString) : QVariant :=
  match n.hints.find? (fun kv => kv.1 == key) with
  | some kv => kv.2
  | none => QVariant.null

def Notification.setHintValue (n : Notification) (key : QString) (v : QVariant) :
    Notification :=
  { n with hints := (n.hints.filter (fun kv => !(kv.1 == key))) ++ [(key, v)] }

/-- Modelled from the spec: the member notification record `PersonalNotification`
(personalnotification.h/.cpp are not part of the sources). Its attributes are the ones
read through the accessors used in the two source files. -/
structure PersonalNotification where
  remoteUid : QString
  account : QString
  eventType : Int
  targetId : QString
  chatType : ChatType
  collection : EventCollection
  notificationText : QString
  notificationName : QString
  smsReplaceNumber : QString
  chatName : QString
  eventToken : QString
  recipient : Recipient
  timestamp : QDateTime
  hidden : Bool
  restored : Bool
  hasPendingEvents : Bool
  deriving DecidableEq, Repr

/-- Modelled from the spec: the setter of the hidden flag of a member. -/
def PersonalNotification.setHidden (pn : PersonalNotification) (hide : Bool) :
    PersonalNotification :=
  { pn with hidden := hide }

/-- Modelled from the spec: the setter of the display text of a member. -/
def PersonalNotification.setNotificationText (pn : PersonalNotification) (text : QString) :
    PersonalNotification :=
  { pn with notificationText := text }

/-- Modelled from the spec: the setter of the SMS replace number of a member. -/
def PersonalNotification.setSmsReplaceNumber (pn : PersonalNotification) (number : QString) :
    PersonalNotification :=
  { pn with smsReplaceNumber := number }

/-- Modelled from the spec: the setter of the manually assigned display name (the chat
name of a group chat) of a member. -/
def PersonalNotification.setChatName (pn : PersonalNotification) (chatName : QString) :
    PersonalNotification :=
  { pn with chatName := chatName }

/-- Modelled from the spec: the setter of the event token of a member. -/
def PersonalNotification.setEventToken (pn : PersonalNotification) (token : QString) :
    PersonalNotification :=
  { pn with eventToken := token }

/-- The localised strings of `locstrings.h`. -/
structure LocStrings where
  txt_qtn_msg_voicemail_group : QString
  txt_qtn_msg_missed_calls_group : QString
  txt_qtn_msg_notifications_group : QString
  txt_qtn_msg_notification_new_message : Nat → QString
  txt_qtn_call_missed : Nat → QString
  txt_qtn_msg_group_chat : QString
  txt_qtn_msg_notification_new_vcard : QString → QString
  txt_qtn_mms_notification_manual_download : QString
  txt_qtn_mms_notification_download_failed : QString
  txt_qtn_mms_notification_send_failed : QString
  txt_qtn_mms_notification_with_text : Nat → QString → QString
  txt_qtn_mms_notification_attachment : Nat → QString
  txt_qtn_msg_notification_show_messages : QString
  txt_qtn_msg_notification_reply : QString
  txt_qtn_call_notification_show_call_history : QString
  txt_qtn_voicemail_notification_show_voicemail : QString

/-- The constants of `constants.h` and of the libcommhistory headers. -/
structure Constants where
  MESSAGING_SERVICE_NAME : QString
  OBJECT_PATH : QString
  MESSAGING_INTERFACE : QString
  SHOW_INBOX_METHOD : QString
  START_CONVERSATION_METHOD : QString
  CALL_HISTORY_SERVICE_NAME : QString
  CALL_HISTORY_OBJECT_PATH : QString
  CALL_HISTORY_INTERFACE : QString
  CALL_HISTORY_METHOD : QString
  CALL_HISTORY_PARAMETER : QString
  VOICEMAIL_OBJECT_PATH : QString
  VOICEMAIL_INTERFACE : QString
  VOICEMAIL_METHOD : QString
  REPLACE_TYPE : QString
  VOICEMAIL_SMS_EVENT_TYPE : Int
  ManualNotificationStatus : Int
  TemporarilyFailedStatus : Int

/-- What the two source files use and do not define. -/
structure Env where
  loc : LocStrings
  consts : Constants
  /-- The relation `CommHistory::Recipient::matches`. -/
  recipientMatches : Recipient → Recipient → Bool
  /-- The constructor `CommHistory::Recipient(localUid, remoteUid)`. -/
  mkRecipient : QString → QString → Recipient
  /-- The locale join `MLocale::joinStringList`. -/
  joinStringList : List QString → QString
  /-- The static classifier `PersonalNotification::collection(eventType)`. -/
  collectionOf : Int → EventCollection
  /-- The effect of `PersonalNotification::publishNotification()` on the member. -/
  publishNotification : PersonalNotification → PersonalNotification
  /-- The effect of `PersonalNotification::updateRecipientData()` on the member. -/
  updateRecipientData : PersonalNotification → PersonalNotification
  /-- The member read back by `PersonalNotification::restore(n)`, `none` when it fails. -/
  restore : Notification → Option PersonalNotification
  /-- The event id returned by `Ngf::Client::play`. -/
  ngfPlay : QString → Nat
  /-- The member built by the constructor
  `PersonalNotification(remoteUid, account, eventType, channelTargetId, chatType)`. -/
  newPersonalNotification : QString → QString → Int → QString → ChatType → PersonalNotification
  /-- The class of characters `QChar::isSpace`, which `QString::trimmed()` strips; its
  table of separator characters is that of the Unicode data of the Qt library in use. -/
  isSpace : Char → Bool

/-! ## The object store -/

abbrev Heap := Ptr → PersonalNotification

/-- The store with the object at `p` replaced. -/
def Heap.set (h : Heap) (p : Ptr) (pn : PersonalNotification) : Heap :=
  fun q => if q = p then pn else h q

/-- The objects a group points to and the platform side effects so far. -/
structure World where
  heap : Heap
  /-- The records handed to `Notification::publish()`, oldest first. -/
  published : List Notification
  /-- The records on which `Notification::close()` was called, oldest first. -/
  closed : List Notification
  /-- The members on which `removeNotification()` and `deleteLater()` were called. -/
  released : List Ptr

/-! ## NotificationGroup -/

structure NotificationGroup where
  m_collection : EventCollection
  m_localUid : QString
  m_remoteUid : QString
  mGroup : Option Notification
  mNotifications : List Ptr
  /-- Whether the single-shot `updateTimer` is running. -/
  updateTimerActive : Bool
  deriving DecidableEq, Repr

/-- The constructor `NotificationGroup::NotificationGroup`. -/
def NotificationGroup.new (collection : EventCollection) (localUid remoteUid : QString) :
    NotificationGroup :=
  { m_collection := collection, m_localUid := localUid, m_remoteUid := remoteUid,
    mGroup := none, mNotifications := [], updateTimerActive := false }

def NotificationGroup.groupName (L : LocStrings) : EventCollection → QString
  | EventCollection.Voicemail => L.txt_qtn_msg_voicemail_group
  | EventCollection.Voice => L.txt_qtn_msg_missed_calls_group
  | EventCollection.Messaging => L.txt_qtn_msg_notifications_group

def NotificationGroup.groupCategory : EventCollection → QString
  | EventCollection.Voicemail => "x-nemo.messaging.voicemail.group"
  | EventCollection.Voice => "x-nemo.call.missed.group"
  | EventCollection.Messaging => "x-nemo.messaging.group"

/-- The slot `updateGroupLater`, connected to the signal `changed()`. -/
def NotificationGroup.updateGroupLater (g : NotificationGroup) : NotificationGroup :=
  { g with updateTimerActive := true }

/-- The call `QString::length()`: the number of UTF-16 code units of the string, two for
every character outside the Basic Multilingual Plane and one for any other. -/
def qLength (s : QString) : Nat :=
  s.data.foldl (fun count c => if c.toNat < 65536 then count + 1 else count + 2) 0

/-- One iteration of the outer loop of `contactNames`: the inner loop over `details`
that stops at the first entry whose recipient matches, followed by the append when the
end was reached. -/
def mergeDetail (recipientMatches : Recipient → Recipient → Bool) (recipient : Recipient)
    (name : QString) : List (Recipient × QString) → List (Recipient × QString)
  | [] => [(recipient, name)]
  | (r, n) :: rest =>
    if recipientMatches recipient r then
      (if qLength name > qLength n then (r, name) :: rest else (r, n) :: rest)
    else (r, n) :: mergeDetail recipientMatches recipient name rest

/-- The list `details` of `contactNames` after its first loop. -/
def NotificationGroup.contactDetails (env : Env) (g : NotificationGroup) (h : Heap) :
    List (Recipient × QString) :=
  g.mNotifications.foldl
    (fun details pn =>
      mergeDetail env.recipientMatches (h pn).recipient (h pn).notificationName details)
    []

def NotificationGroup.contactNames (env : Env) (g : NotificationGroup) (h : Heap) :
    List QString :=
  (g.contactDetails env h).reverse.map Prod.snd

def NotificationGroup.countConversations (g : NotificationGroup) (h : Heap) : Nat :=
  ((g.mNotifications.map (fun pn => ((h pn).account, (h pn).remoteUid))).dedup).length

def NotificationGroup.notificationGroupText (env : Env) (g : NotificationGroup) (h : Heap) :
    QString :=
  match g.mNotifications with
  | [] => ""
  | first :: _ =>
    match g.m_collection with
    | EventCollection.Messaging =>
      if g.mNotifications.length > 1 then
        env.loc.txt_qtn_msg_notification_new_message g.mNotifications.length
      else (h first).notificationText
    | EventCollection.Voice => env.loc.txt_qtn_call_missed g.mNotifications.length
    | EventCollection.Voicemail => (h first).notificationText

/-- The result of `NotificationGroup::removeNotification`: the new group and world, the
returned flag and the caller's reference (`none` once it was cleared). -/
structure RemoveResult where
  group : NotificationGroup
  world : World
  removed : Bool
  reference : Option Ptr

def NotificationGroup.removeNotification (g : NotificationGroup) (w : World)
    (notification : Ptr) : RemoveResult :=
  if g.mNotifications.contains notification then
    let rest := g.mNotifications.erase notification
    let w1 : World := { w with released := w.released ++ [notification] }
    let w2 : World :=
      if g.m_collection = EventCollection.Voice ∨ g.m_collection = EventCollection.Voicemail then
        if rest.length = 1 then
          match rest with
          | [] => w1
          | first :: _ => { w1 with heap := w1.heap.set first ((w1.heap first).setHidden false) }
        else w1
      else w1
    { group := ({ g with mNotifications := rest }).updateGroupLater, world := w2,
      removed := true, reference := none }
  else
    { group := g, world := w, removed := false, reference := some notification }

/-- The loop `while (!mNotifications.isEmpty()) removeNotification(mNotifications.first())`
of `removeGroup`, run for at most `fuel` iterations. -/
def NotificationGroup.removeGroupLoop : Nat → NotificationGroup → World →
    NotificationGroup × World
  | 0, g, w => (g, w)
  | fuel + 1, g, w =>
    match g.mNotifications with
    | [] => (g, w)
    | first :: _ =>
      let r := g.removeNotification w first
      NotificationGroup.removeGroupLoop fuel r.group r.world

def NotificationGroup.removeGroup (g : NotificationGroup) (w : World) :
    NotificationGroup × World :=
  let gw : NotificationGroup × World :=
    match g.mGroup with
    | some n => ({ g with mGroup := none }, { w with closed := w.closed ++ [n] })
    | none => (g, w)
  NotificationGroup.removeGroupLoop gw.1.mNotifications.length gw.1 gw.2

def NotificationGroup.addNotification (g : NotificationGroup) (w : World)
    (notification : Ptr) : NotificationGroup × World :=
  if g.mNotifications.contains notification then (g, w)
  else
    let members := g.mNotifications ++ [notification]
    let w1 : World :=
      if g.m_collection = EventCollection.Voice ∨ g.m_collection = EventCollection.Voicemail then
        if members.length > 1 then
          let h1 := w.heap.set notification ((w.heap notification).setHidden true)
          match members with
          | [] => { w with heap := h1 }
          | first :: _ => { w with heap := h1.set first ((h1 first).setHidden true) }
        else
          { w with heap := w.heap.set notification ((w.heap notification).setHidden false) }
      else w
    (({ g with mNotifications := members }).updateGroupLater, w1)

/-- The helper `dbusAction` of notificationmanager.cpp. -/
def dbusAction (name displayName service path iface method : QString)
    (arguments : List QVariant) : RemoteAction :=
  { name := name, displayName := displayName, service := service, path := path,
    iface := iface, method := method, arguments := arguments }

/-- The numeric value of a chat type (`static_cast<uint>(pn->chatType())`). -/
def ChatType.toUInt : ChatType → Nat
  | ChatType.ChatTypeP2P => 0
  | ChatType.ChatTypeUnnamed => 1
  | ChatType.ChatTypeRoom => 2

/-- The method `NotificationManager::setNotificationProperties`. -/
def setNotificationProperties (env : Env) (notification : Notification)
    (pn : PersonalNotification) (grouped : Bool) : Notification :=
  let L := env.loc
  let K := env.consts
  let remoteActions : List RemoteAction :=
    match pn.collection with
    | EventCollection.Messaging =>
      (if pn.eventType ≠ K.VOICEMAIL_SMS_EVENT_TYPE ∧ grouped = true then
        [dbusAction "default" L.txt_qtn_msg_notification_show_messages
          K.MESSAGING_SERVICE_NAME K.OBJECT_PATH K.MESSAGING_INTERFACE K.SHOW_INBOX_METHOD []]
      else
        [dbusAction "default" L.txt_qtn_msg_notification_reply
          K.MESSAGING_SERVICE_NAME K.OBJECT_PATH K.MESSAGING_INTERFACE
          K.START_CONVERSATION_METHOD
          [QVariant.string pn.account, QVariant.string pn.targetId,
            QVariant.uint pn.chatType.toUInt]])
      ++ [dbusAction "app" "" K.MESSAGING_SERVICE_NAME K.OBJECT_PATH K.MESSAGING_INTERFACE
            K.SHOW_INBOX_METHOD []]
    | EventCollection.Voice =>
      [dbusAction "default" L.txt_qtn_call_notification_show_call_history
          K.CALL_HISTORY_SERVICE_NAME K.CALL_HISTORY_OBJECT_PATH K.CALL_HISTORY_INTERFACE
          K.CALL_HISTORY_METHOD [QVariant.string K.CALL_HISTORY_PARAMETER],
        dbusAction "app" "" K.CALL_HISTORY_SERVICE_NAME K.CALL_HISTORY_OBJECT_PATH
          K.CALL_HISTORY_INTERFACE K.CALL_HISTORY_METHOD
          [QVariant.string K.CALL_HISTORY_PARAMETER]]
    | EventCollection.Voicemail =>
      [dbusAction "default" L.txt_qtn_voicemail_notification_show_voicemail
          K.CALL_HISTORY_SERVICE_NAME K.VOICEMAIL_OBJECT_PATH K.VOICEMAIL_INTERFACE
          K.VOICEMAIL_METHOD [],
        dbusAction "app" "" K.CALL_HISTORY_SERVICE_NAME K.VOICEMAIL_OBJECT_PATH
          K.VOICEMAIL_INTERFACE K.VOICEMAIL_METHOD []]
  { notification with remoteActions := remoteActions }

/-- The state of the `foreach` loop of `updateGroup` over the members. -/
structure TimestampScan where
  heap : Heap
  groupTimestamp : QDateTime
  allRestored : Bool

/-- One iteration of the `foreach` loop of `updateGroup`. -/
def scanMember (env : Env) (st : TimestampScan) (pn : Ptr) : TimestampScan :=
  let allRestored := st.allRestored && (st.heap pn).restored
  let heap1 : Heap :=
    if (st.heap pn).hasPendingEvents = true then
      st.heap.set pn (env.publishNotification (st.heap pn))
    else st.heap
  let timestamp := (heap1 pn).timestamp
  let groupTimestamp :=
    if st.groupTimestamp.isNone = true ∨ timestampGt timestamp st.groupTimestamp = true then
      timestamp
    else st.groupTimestamp
  { heap := heap1, groupTimestamp := groupTimestamp, allRestored := allRestored }

/-- The whole `foreach` loop of `updateGroup`, from a null `groupTimestamp`. -/
def scanMembers (env : Env) (h : Heap) (members : List Ptr) : TimestampScan :=
  members.foldl (scanMember env) { heap := h, groupTimestamp := none, allRestored := true }

def NotificationGroup.updateGroup (env : Env) (g : NotificationGroup) (w : World) :
    NotificationGroup × World :=
  match g.mNotifications with
  | [] => g.removeGroup w
  | first :: _ =>
    let mGroup0 : Notification :=
      match g.mGroup with
      | some n => n
      | none => Notification.new
    let body := g.notificationGroupText env w.heap
    let mGroup1 : Notification :=
      { mGroup0 with
        appName := NotificationGroup.groupName env.loc g.m_collection,
        category := NotificationGroup.groupCategory g.m_collection,
        summary := env.joinStringList (g.contactNames env w.heap) }
    let mGroup2 : Notification :=
      if g.m_collection ≠ EventCollection.Voice ∧ g.m_collection ≠ EventCollection.Voicemail
      then { mGroup1 with body := body } else mGroup1
    let mGroup3 : Notification := { mGroup2 with itemCount := g.mNotifications.length }
    let membersHidden : Bool := (w.heap first).hidden
    let mGroup4 := mGroup3.setHintValue "x-nemo-hidden" (QVariant.bool (!membersHidden))
    let grouped : Bool := decide (g.countConversations w.heap > 1)
    let mGroup5 := setNotificationProperties env mGroup4 (w.heap first) grouped
    let scan := scanMembers env w.heap g.mNotifications
    let mGroup6 : Notification := { mGroup5 with timestamp := scan.groupTimestamp }
    let previews : List Notification :=
      if g.m_collection ≠ EventCollection.Voice ∧ membersHidden = true
          ∧ scan.allRestored = false then
        let preview : Notification :=
          { Notification.new with
            appName := mGroup6.appName,
            category := mGroup6.category ++ ".preview",
            previewSummary := mGroup6.summary,
            previewBody := body }
        [setNotificationProperties env preview (scan.heap first) grouped]
      else []
    ({ g with mGroup := some mGroup6 },
     { w with heap := scan.heap, published := w.published ++ previews ++ [mGroup6] })

/-- The timeout of the single-shot `updateTimer`, connected to `updateGroup`. -/
def NotificationGroup.updateTimerTimeout (env : Env) (g : NotificationGroup) (w : World) :
    NotificationGroup × World :=
  NotificationGroup.updateGroup env { g with updateTimerActive := false } w

/-- The accessor `NotificationGroup::notification()`: the group after the call, the
world after the call and the returned handle. -/
def NotificationGroup.notification (env : Env) (g : NotificationGroup) (w : World) :
    NotificationGroup × World × Option Notification :=
  if g.mGroup.isNone = true ∧ g.mNotifications.isEmpty = false then
    let r := g.updateGroup env w
    (r.1, r.2, r.1.mGroup)
  else (g, w, g.mGroup)

def NotificationGroup.notifications (g : NotificationGroup) : List Ptr := g.mNotifications

def NotificationGroup.onNotificationClosed (g : NotificationGroup) (w : World)
    (notification : Ptr) : NotificationGroup × World :=
  let r := g.removeNotification w notification
  (r.group, r.world)

/-- The slot `onClosed(uint reason)`. -/
def NotificationGroup.onClosed (g : NotificationGroup) (w : World) (_reason : Nat) :
    NotificationGroup × World :=
  g.removeGroup w

/-! ### Sequences of operations on one group -/

/-- The operations that the rest of the daemon and the event loop perform on a group. -/
inductive GroupOp where
  | add : Ptr → GroupOp
  | remove : Ptr → GroupOp
  | update : GroupOp
  deriving DecidableEq, Repr

def GroupOp.apply (env : Env) (op : GroupOp) (s : NotificationGroup × World) :
    NotificationGroup × World :=
  match op with
  | GroupOp.add p => s.1.addNotification s.2 p
  | GroupOp.remove p => ((s.1.removeNotification s.2 p).group, (s.1.removeNotification s.2 p).world)
  | GroupOp.update => s.1.updateTimerTimeout env s.2

/-- The operations of `ops` performed one after the other, the first one first. -/
def runGroupOps (env : Env) (ops : List GroupOp) (s : NotificationGroup × World) :
    NotificationGroup × World :=
  ops.foldl (fun st op => op.apply env st) s

/-- Whether an operation is `addNotification` or `removeNotification`. -/
def GroupOp.isAddRemove : GroupOp → Bool
  | GroupOp.add _ => true
  | GroupOp.remove _ => true
  | GroupOp.update => false

/-! ## Predicates used in the statements -/

/-- The visibility rule of Voice and Voicemail groups. -/
def HiddenInv (g : NotificationGroup) (w : World) : Prop :=
  (1 < g.mNotifications.length → ∀ p ∈ g.mNotifications, (w.heap p).hidden = true) ∧
  (∀ p, g.mNotifications = [p] → (w.heap p).hidden = false)

/-- What the list `details` of `contactNames` satisfies after the members `l` have been
processed: its recipients pairwise do not match, every member's recipient matches one of
them, and the name of every entry is the name of a member matching the entry that is
strictly longer than the names of the matching members before it and at least as long as
the names of the matching members after it, lengths being those of `QString::length()`
(`qLength`, in UTF-16 code units). -/
def DetailsInv (mt : Recipient → Recipient → Bool) (h : Heap) (l : List Ptr)
    (D : List (Recipient × QString)) : Prop :=
  D.Pairwise (fun a b => mt a.1 b.1 = false)
  ∧ (∀ p ∈ l, ∃ e ∈ D, mt (h p).recipient e.1 = true)
  ∧ (∀ e ∈ D, ∃ l1 p l2, l = l1 ++ p :: l2
      ∧ e.2 = (h p).notificationName
      ∧ mt (h p).recipient e.1 = true
      ∧ (∀ x ∈ l1, mt (h x).recipient e.1 = true →
          qLength (h x).notificationName < qLength e.2)
      ∧ (∀ x ∈ l2, mt (h x).recipient e.1 = true →
          qLength (h x).notificationName ≤ qLength e.2))

/-- What the loop of `updateGroup` over the members has established once the members
`done` have been visited: no visited member has a timestamp newer than `groupTimestamp`,
and `groupTimestamp` is the timestamp of a visited member (null before the first one). -/
def ScanInv (st : TimestampScan) (done : List Ptr) : Prop :=
  (∀ q ∈ done, timestampGt (st.heap q).timestamp st.groupTimestamp = false)
  ∧ ((done = [] ∧ st.groupTimestamp = none)
      ∨ ∃ q ∈ done, (st.heap q).timestamp = st.groupTimestamp)

/-! ## NotificationManager -/

/-- A `CommHistory::MessagePart`. -/
structure MessagePart where
  contentType : QString
  deriving DecidableEq, Repr

/-- A `CommHistory::Event`, with the attributes that the manager reads. -/
structure Event where
  id : Int
  type : EventType
  status : Int
  direction : EventDirection
  subject : QString
  freeText : QString
  fromVCardLabel : QString
  messageParts : List MessagePart
  messageToken : QString
  recipients : List Recipient
  localUid : QString
  isValid : Bool
  groupId : Int
  headers : List (QString × QString)
  deriving DecidableEq, Repr

/-- A default-constructed `CommHistory::Recipient`. -/
def Recipient.null : Recipient := { localUid := "", remoteUid := "", contactResolved := false }

/-- The call `recipients().value(0)`: the first recipient, a default-constructed one when
the list is empty. -/
def Event.firstRecipient (event : Event) : Recipient :=
  match event.recipients with
  | [] => Recipient.null
  | r :: _ => r

/-- The call `headers().value(key)`. -/
def Event.header (event : Event) (key : QString) : QString :=
  match event.headers.find? (fun kv => kv.1 == key) with
  | some kv => kv.2
  | none => ""

/-- A `CommHistory::Group` (a conversation of the group model). -/
structure Group where
  isValid : Bool
  id : Int
  chatName : QString
  chatType : ChatType
  recipients : List Recipient
  deriving DecidableEq, Repr

/-- What the manager reads from the singleton `CommHistoryService`. -/
structure CommHistoryService where
  inboxObserved : Bool
  /-- The observed conversations, each a `QPair<Recipient, int>`. -/
  observedConversations : List (Recipient × Nat)
  inboxFilterAccount : QString

/-- Modelled from the spec: the key `EventGroupProperties` of the group map, declared in
notificationmanager.h, which is not part of the sources. "Notification group key:
(collection, account identifier, remote-party identifier). Keys are compared with
recipient-matching semantics". -/
structure EventGroupProperties where
  collection : EventCollection
  recipient : Recipient
  deriving DecidableEq, Repr

/-- Modelled from the spec: the helper `eventGroup(collection, recipient)`, which builds
the key of the group of a collection and a recipient. -/
def eventGroup (collection : EventCollection) (recipient : Recipient) : EventGroupProperties :=
  { collection := collection, recipient := recipient }

/-- Modelled from the spec: equality of two keys of the group map, "compared with
recipient-matching semantics". -/
def EventGroupProperties.same (env : Env) (a b : EventGroupProperties) : Bool :=
  decide (a.collection = b.collection) && env.recipientMatches a.recipient b.recipient

structure NotificationManager where
  /-- The map `m_Groups`, in the order in which `foreach` visits it. -/
  m_Groups : List (EventGroupProperties × NotificationGroup)
  m_unresolvedNotifications : List Ptr
  /-- The rows of `m_GroupModel`, `none` for a null model. -/
  m_GroupModel : Option (List Group)
  /-- The audio cue in flight, 0 for none. -/
  m_ngfEvent : Nat
  /-- Whether `m_ngfClient` is connected. -/
  ngfConnected : Bool
  /-- The cues requested through `m_ngfClient->play`, oldest first. -/
  ngfRequests : List QString
  /-- The recipients handed to `m_contactResolver->add`, oldest first. -/
  resolverQueue : List Recipient
  /-- The members destroyed with `delete`. -/
  deleted : List Ptr
  world : World
  /-- The address that the next `new PersonalNotification` returns. -/
  nextPtr : Nat

/-- The manager after its construction and before `syncNotifications`. -/
def NotificationManager.new (w : World) (nextPtr : Nat) : NotificationManager :=
  { m_Groups := [], m_unresolvedNotifications := [], m_GroupModel := none, m_ngfEvent := 0,
    ngfConnected := false, ngfRequests := [], resolverQueue := [], deleted := [], world := w,
    nextPtr := nextPtr }

def NgfdEventSms : QString := "sms"

def NgfdEventChat : QString := "chat"

/-- The call `m_Groups.value(groupProperties)`: the group stored under a key equal to
`groupProperties`, `none` for the null pointer. -/
def groupsValue (env : Env) (groups : List (EventGroupProperties × NotificationGroup))
    (groupProperties : EventGroupProperties) : Option NotificationGroup :=
  match groups.find? (fun e => e.1.same env groupProperties) with
  | some e => some e.2
  | none => none

/-- The lines of `NotificationManager::addNotification` after the key is built: the group
stored under the key is looked up, a new group is inserted when there is none, and the
member is added to that group. -/
def addToGroups (env : Env) (groupProperties : EventGroupProperties)
    (account remoteUid : QString) (notification : Ptr) :
    List (EventGroupProperties × NotificationGroup) → World →
      List (EventGroupProperties × NotificationGroup) × World
  | [], w =>
    let group := NotificationGroup.new groupProperties.collection account remoteUid
    let r := group.addNotification w notification
    ([(groupProperties, r.1)], r.2)
  | (k, group) :: rest, w =>
    if k.same env groupProperties then
      let r := group.addNotification w notification
      ((k, r.1) :: rest, r.2)
    else
      let r := addToGroups env groupProperties account remoteUid notification rest w
      ((k, group) :: r.1, r.2)

def NotificationManager.addNotification (env : Env) (m : NotificationManager)
    (notification : Ptr) : NotificationManager :=
  let pn := m.world.heap notification
  let groupProperties := eventGroup pn.collection (env.mkRecipient pn.account pn.remoteUid)
  let r := addToGroups env groupProperties pn.account pn.remoteUid notification
    m.m_Groups m.world
  { m with m_Groups := r.1, world := r.2 }

def NotificationManager.resolveNotification (env : Env) (m : NotificationManager)
    (pn : Ptr) : NotificationManager :=
  if (m.world.heap pn).remoteUid = "<hidden>"
      ∨ (m.world.heap pn).chatName ≠ ""
      ∨ (m.world.heap pn).recipient.isContactResolved = true then
    m.addNotification env pn
  else
    { m with
      m_unresolvedNotifications := m.m_unresolvedNotifications ++ [pn],
      resolverQueue := m.resolverQueue ++ [(m.world.heap pn).recipient] }

/-- The first loop of `syncNotifications`: the state of the loop is the manager (its
store, its allocation address and the closed records) and the list `pnList`. -/
def syncRecord (env : Env) (st : NotificationManager × List Ptr) (n : Notification) :
    NotificationManager × List Ptr :=
  let m := st.1
  if (n.hintValue "x-commhistoryd-data").isNull = true then
    ({ m with world := { m.world with closed := m.world.closed ++ [n] } }, st.2)
  else
    match env.restore n with
    | none => ({ m with world := { m.world with closed := m.world.closed ++ [n] } }, st.2)
    | some restored =>
      ({ m with
          world := { m.world with heap := m.world.heap.set m.nextPtr restored },
          nextPtr := m.nextPtr + 1 },
        st.2 ++ [m.nextPtr])

/-- The method `syncNotifications`; `notifications` is the list returned by
`Notification::notifications()`. The map `typeCounts` of the source is filled and never
read, it is left out. -/
def NotificationManager.syncNotifications (env : Env) (m : NotificationManager)
    (notifications : List Notification) : NotificationManager :=
  let st := notifications.foldl (syncRecord env) (m, [])
  st.2.foldl (fun m1 pn => m1.resolveNotification env pn) st.1

/-- The store with the text of the member at `p` replaced. -/
def setTextAt (w : World) (p : Ptr) (text : QString) : World :=
  { w with heap := w.heap.set p ((w.heap p).setNotificationText text) }

def NotificationManager.updateEditedEvent (env : Env) (m : NotificationManager)
    (event : Event) (text : QString) : NotificationManager × Bool :=
  if event.messageToken = "" then (m, false)
  else
    match m.m_unresolvedNotifications.find?
        (fun notification => (m.world.heap notification).eventToken == event.messageToken) with
    | some notification => ({ m with world := setTextAt m.world notification text }, true)
    | none =>
      let groupProperties :=
        eventGroup (env.collectionOf event.type.toInt) event.firstRecipient
      match groupsValue env m.m_Groups groupProperties with
      | none => (m, false)
      | some eventGroup =>
        match eventGroup.notifications.find?
            (fun pn => (m.world.heap pn).eventToken == event.messageToken) with
        | some pn => ({ m with world := setTextAt m.world pn text }, true)
        | none => (m, false)

def NotificationManager.isCurrentlyObservedByUI (env : Env) (svc : CommHistoryService)
    (event : Event) (channelTargetId : QString) (chatType : ChatType) : Bool :=
  if event.type ≠ EventType.IMEvent ∧ event.type ≠ EventType.SMSEvent
      ∧ event.type ≠ EventType.MMSEvent then false
  else
    let remoteMatch : QString :=
      if chatType = ChatType.ChatTypeP2P then event.firstRecipient.remoteUid
      else channelTargetId
    let messageRecipient := env.mkRecipient event.localUid remoteMatch
    svc.observedConversations.any
      (fun conversation =>
        env.recipientMatches conversation.1 messageRecipient
          && decide (conversation.2 = chatType.toUInt))

/-- The characters for which `QChar::isSpace` of Qt 5 returns true: the space, the
controls U+0009 to U+000D (tab, line feed, vertical tab, form feed, carriage return),
U+0085, U+00A0, and the characters of the Unicode categories Zs, Zl and Zp: U+1680,
U+2000 to U+200A, U+2028, U+2029, U+202F, U+205F and U+3000. -/
def qIsSpace (c : Char) : Bool :=
  c.toNat == 0x20 || (0x09 ≤ c.toNat && c.toNat ≤ 0x0D) || c.toNat == 0x85
    || c.toNat == 0xA0 || c.toNat == 0x1680 || (0x2000 ≤ c.toNat && c.toNat ≤ 0x200A)
    || c.toNat == 0x2028 || c.toNat == 0x2029 || c.toNat == 0x202F || c.toNat == 0x205F
    || c.toNat == 0x3000

/-- The call `QString::trimmed()`: the characters of the class `isSpace`
(`QChar::isSpace`) removed from both ends. -/
def qTrimmed (isSpace : Char → Bool) (s : QString) : QString :=
  String.mk ((s.data.dropWhile isSpace).reverse.dropWhile isSpace).reverse

/-- The call `QString::startsWith(start)`. -/
def qStartsWith (s start : QString) : Bool := start.data.isPrefixOf s.data

/-- The number of message parts of an MMS that are attachments: the loop over
`event.messageParts()` of `notificationText`. -/
def attachmentCount (parts : List MessagePart) : Nat :=
  parts.foldl
    (fun count part =>
      if !qStartsWith part.contentType "text/plain"
          && !qStartsWith part.contentType "application/smil" then count + 1
      else count)
    0

def NotificationManager.notificationText (env : Env) (event : Event) (details : QString) :
    QString :=
  match event.type with
  | EventType.IMEvent | EventType.SMSEvent =>
    if event.fromVCardLabel = "" then event.freeText
    else env.loc.txt_qtn_msg_notification_new_vcard event.fromVCardLabel
  | EventType.MMSEvent =>
    if event.status = env.consts.ManualNotificationStatus then
      env.loc.txt_qtn_mms_notification_manual_download
    else if event.status ≥ env.consts.TemporarilyFailedStatus then
      let trimmedDetails := qTrimmed env.isSpace details
      if trimmedDetails = "" then
        if event.direction = EventDirection.Inbound then
          env.loc.txt_qtn_mms_notification_download_failed
        else env.loc.txt_qtn_mms_notification_send_failed
      else trimmedDetails
    else
      let text : QString := if event.subject ≠ "" then event.subject else event.freeText
      let attachments := attachmentCount event.messageParts
      if attachments > 0 then
        if text ≠ "" then env.loc.txt_qtn_mms_notification_with_text attachments text
        else env.loc.txt_qtn_mms_notification_attachment attachments
      else text
  | EventType.CallEvent => env.loc.txt_qtn_call_missed 1
  | EventType.VoicemailEvent => event.freeText
  | _ => ""

/-- The loop of `showNotification` over the rows of the group model: the chat name of the
first valid group with the id of the event's group, the generic group-chat name when that
name is empty, and the empty string when there is no such group. -/
def mucChatName (env : Env) (rows : List Group) (event : Event) : QString :=
  match rows.find? (fun group => group.isValid && decide (group.id = event.groupId)) with
  | some group =>
    if group.chatName = "" then env.loc.txt_qtn_msg_group_chat else group.chatName
  | none => ""

def NotificationManager.showNotification (env : Env) (svc : CommHistoryService)
    (m : NotificationManager) (event : Event) (channelTargetId : QString)
    (chatType : ChatType) (details : QString) : NotificationManager :=
  if (event.type = EventType.SMSEvent ∨ event.type = EventType.MMSEvent
        ∨ event.type = EventType.IMEvent)
      ∧ (svc.inboxObserved = true
        ∨ NotificationManager.isCurrentlyObservedByUI env svc event channelTargetId chatType
            = true) then
    let m1 : NotificationManager :=
      if m.ngfConnected = false then { m with ngfConnected := true } else m
    if m1.m_ngfEvent = 0 then
      let ngfEvent : QString :=
        if event.type = EventType.SMSEvent ∨ event.type = EventType.MMSEvent then NgfdEventSms
        else NgfdEventChat
      { m1 with m_ngfEvent := env.ngfPlay ngfEvent, ngfRequests := m1.ngfRequests ++ [ngfEvent] }
    else m1
  else
    let text := NotificationManager.notificationText env event details
    let edited : NotificationManager × Bool :=
      if event.isValid = true then m.updateEditedEvent env event text else (m, false)
    if edited.2 = true then edited.1
    else
      let m2 := edited.1
      let chatName : QString :=
        match m2.m_GroupModel with
        | some rows =>
          if chatType = ChatType.ChatTypeUnnamed ∨ chatType = ChatType.ChatTypeRoom then
            mucChatName env rows event
          else ""
        | none => ""
      let notification0 := env.newPersonalNotification event.firstRecipient.remoteUid
        event.localUid event.type.toInt channelTargetId chatType
      let notification1 := notification0.setNotificationText text
      let notification2 := notification1.setSmsReplaceNumber
        (event.header env.consts.REPLACE_TYPE)
      let notification3 :=
        if chatName ≠ "" then notification2.setChatName chatName else notification2
      let notification4 := notification3.setEventToken event.messageToken
      let m3 : NotificationManager :=
        { m2 with
          world := { m2.world with heap := m2.world.heap.set m2.nextPtr notification4 },
          nextPtr := m2.nextPtr + 1 }
      m3.resolveNotification env m2.nextPtr

/-- The inner `foreach` of the removal methods: every member of the list `members` (a
copy of the member list) whose record satisfies `selected` is removed from the group. -/
def removeSelected (selected : PersonalNotification → Bool) (members : List Ptr)
    (g : NotificationGroup) (w : World) : NotificationGroup × World :=
  members.foldl
    (fun (st : NotificationGroup × World) notification =>
      if selected (st.2.heap notification) = true then
        ((st.1.removeNotification st.2 notification).group,
          (st.1.removeNotification st.2 notification).world)
      else st)
    (g, w)

/-- The outer `foreach` of the removal methods over the groups of `m_Groups`: the groups
that satisfy `visited` have their selected members removed. -/
def removeFromGroups (visited : NotificationGroup → Bool)
    (selected : PersonalNotification → Bool) :
    List (EventGroupProperties × NotificationGroup) → World →
      List (EventGroupProperties × NotificationGroup) × World
  | [], w => ([], w)
  | (k, group) :: rest, w =>
    let r : NotificationGroup × World :=
      if visited group = true then removeSelected selected group.notifications group w
      else (group, w)
    let r2 := removeFromGroups visited selected rest r.2
    ((k, r.1) :: r2.1, r2.2)

def NotificationManager.removeNotifications (m : NotificationManager)
    (accountPath : QString) (removeTypes : List Int) : NotificationManager :=
  let r := removeFromGroups (fun group => decide (group.m_localUid = accountPath))
    (fun notification => removeTypes.isEmpty || removeTypes.contains notification.eventType)
    m.m_Groups m.world
  { m with
    m_Groups := r.1,
    world := r.2,
    deleted := m.deleted
      ++ m.m_unresolvedNotifications.filter (fun p => decide ((r.2.heap p).account = accountPath)),
    m_unresolvedNotifications :=
      m.m_unresolvedNotifications.filter
        (fun p => !decide ((r.2.heap p).account = accountPath)) }

def NotificationManager.removeConversationNotifications (env : Env) (m : NotificationManager)
    (recipient : Recipient) (chatType : ChatType) : NotificationManager :=
  let r := removeFromGroups (fun _ => true)
    (fun notification =>
      if notification.collection ≠ EventCollection.Messaging
          ∨ notification.chatType ≠ chatType then false
      else if chatType = ChatType.ChatTypeP2P then
        env.recipientMatches recipient notification.recipient
      else
        env.recipientMatches recipient
          (env.mkRecipient notification.account notification.targetId))
    m.m_Groups m.world
  { m with m_Groups := r.1, world := r.2 }

def NotificationManager.removeNotificationTypes (m : NotificationManager) (types : List Int) :
    NotificationManager :=
  let r := removeFromGroups (fun _ => true)
    (fun notification => types.contains notification.eventType) m.m_Groups m.world
  { m with m_Groups := r.1, world := r.2 }

def NotificationManager.slotContactResolveFinished (env : Env) (m : NotificationManager) :
    NotificationManager :=
  let m1 := m.m_unresolvedNotifications.foldl
    (fun (st : NotificationManager) notification =>
      NotificationManager.addNotification env
        { st with
          world := { st.world with
            heap := st.world.heap.set notification
              (env.updateRecipientData (st.world.heap notification)) } }
        notification)
    m
  { m1 with m_unresolvedNotifications := [] }

def NotificationManager.pendingEventCount (m : NotificationManager) : Nat :=
  m.m_unresolvedNotifications.length

/-- The cast `static_cast<CommHistory::Group::ChatType>(n)` of the integer of an observed
conversation, `none` when the integer is the value of no chat type. -/
def ChatType.ofUInt : Nat → Option ChatType
  | 0 => some ChatType.ChatTypeP2P
  | 1 => some ChatType.ChatTypeUnnamed
  | 2 => some ChatType.ChatTypeRoom
  | _ => none

/-- The slot `slotObservedConversationsChanged`. A conversation whose integer is the
value of no chat type matches the chat type of no member and removes nothing. -/
def NotificationManager.slotObservedConversationsChanged (env : Env) (m : NotificationManager)
    (conversations : List (Recipient × Nat)) : NotificationManager :=
  conversations.foldl
    (fun (st : NotificationManager) conversation =>
      match ChatType.ofUInt conversation.2 with
      | some chatType => st.removeConversationNotifications env conversation.1 chatType
      | none => st)
    m

def NotificationManager.isFilteredInbox (svc : CommHistoryService) : Bool :=
  decide (svc.inboxFilterAccount ≠ "")

def NotificationManager.filteredInboxAccountPath (svc : CommHistoryService) : QString :=
  svc.inboxFilterAccount

def NotificationManager.slotInboxObservedChanged (env : Env) (svc : CommHistoryService)
    (m : NotificationManager) : NotificationManager :=
  if svc.inboxObserved = true then
    let removeTypes : List Int :=
      [EventType.IMEvent.toInt, EventType.SMSEvent.toInt, EventType.MMSEvent.toInt,
        env.consts.VOICEMAIL_SMS_EVENT_TYPE]
    if NotificationManager.isFilteredInbox svc = false then
      m.removeNotificationTypes removeTypes
    else
      let filteredAccountPath := NotificationManager.filteredInboxAccountPath svc
      if filteredAccountPath ≠ "" then m.removeNotifications filteredAccountPath removeTypes
      else m
  else m

def NotificationManager.slotCallHistoryObservedChanged (m : NotificationManager)
    (observed : Bool) : NotificationManager :=
  if observed = true then m.removeNotificationTypes [EventType.CallEvent.toInt] else m

def NotificationManager.slotNgfEventFinished (m : NotificationManager) (id : Nat) :
    NotificationManager :=
  if id = m.m_ngfEvent then { m with m_ngfEvent := 0 } else m

/-- The members that `updateEditedEvent` inspects for an event, in the order in which it
inspects them: the pending-resolution list, then the members of the group stored under
the key of the event's collection and first recipient. -/
def editCandidates (env : Env) (m : NotificationManager) (event : Event) : List Ptr :=
  m.m_unresolvedNotifications
    ++ (match groupsValue env m.m_Groups
          (eventGroup (env.collectionOf event.type.toInt) event.firstRecipient) with
        | some eventGroup => eventGroup.notifications
        | none => [])

/-- Whether the member at `p` carries the message token of the event. -/
def carriesToken (m : NotificationManager) (event : Event) (p : Ptr) : Bool :=
  (m.world.heap p).eventToken == event.messageToken

/-- Whether `showNotification` only requests an audio cue for the event: a message event
while the inbox or the conversation of the event is observed. -/
def suppressedAsObserved (env : Env) (svc : CommHistoryService) (event : Event)
    (channelTargetId : QString) (chatType : ChatType) : Bool :=
  decide (event.type = EventType.SMSEvent ∨ event.type = EventType.MMSEvent
      ∨ event.type = EventType.IMEvent)
    && (svc.inboxObserved
      || NotificationManager.isCurrentlyObservedByUI env svc event channelTargetId chatType)

/-- The store `h2` differs from the store `h1` at most in hidden flags. -/
def HiddenOnly (h1 h2 : Heap) : Prop :=
  ∀ q, (h2 q).setHidden false = (h1 q).setHidden false

/-- Whether `syncNotifications` reconstructs a member from a stored record: the record
carries the hint `x-commhistoryd-data` and `PersonalNotification::restore` succeeds. -/
def restorable (env : Env) (n : Notification) : Bool :=
  !(n.hintValue "x-commhistoryd-data").isNull && (env.restore n).isSome

/-- All the members that the manager owns: the pending-resolution list followed by the
member lists of the groups. -/
def NotificationManager.allMembers (m : NotificationManager) : List Ptr :=
  m.m_unresolvedNotifications ++ (m.m_Groups.map (fun e => e.2.mNotifications)).flatten

/-! ## Sample objects, used to evaluate the definitions on concrete inputs -/

def sampleLoc : LocStrings :=
  { txt_qtn_msg_voicemail_group := "Voicemail",
    txt_qtn_msg_missed_calls_group := "Missed calls",
    txt_qtn_msg_notifications_group := "Messages",
    txt_qtn_msg_notification_new_message := fun n => Nat.repr n ++ " new messages",
    txt_qtn_call_missed := fun n => Nat.repr n ++ " missed calls",
    txt_qtn_msg_group_chat := "Group chat",
    txt_qtn_msg_notification_new_vcard := fun label => "Contact card " ++ label,
    txt_qtn_mms_notification_manual_download := "Tap to download",
    txt_qtn_mms_notification_download_failed := "Download failed",
    txt_qtn_mms_notification_send_failed := "Sending failed",
    txt_qtn_mms_notification_with_text := fun n text => Nat.repr n ++ " attachments, " ++ text,
    txt_qtn_mms_notification_attachment := fun n => Nat.repr n ++ " attachments",
    txt_qtn_msg_notification_show_messages := "Show messages",
    txt_qtn_msg_notification_reply := "Reply",
    txt_qtn_call_notification_show_call_history := "Show call history",
    txt_qtn_voicemail_notification_show_voicemail := "Show voicemail" }

def sampleConsts : Constants :=
  { MESSAGING_SERVICE_NAME := "org.nemomobile.qmlmessages",
    OBJECT_PATH := "/",
    MESSAGING_INTERFACE := "org.nemomobile.qmlmessages",
    SHOW_INBOX_METHOD := "showGroupsWindow",
    START_CONVERSATION_METHOD := "startConversation",
    CALL_HISTORY_SERVICE_NAME := "com.jolla.voicecall.ui",
    CALL_HISTORY_OBJECT_PATH := "/",
    CALL_HISTORY_INTERFACE := "com.jolla.voicecall.ui",
    CALL_HISTORY_METHOD := "openUrl",
    CALL_HISTORY_PARAMETER := "",
    VOICEMAIL_OBJECT_PATH := "/",
    VOICEMAIL_INTERFACE := "com.jolla.voicecall.ui",
    VOICEMAIL_METHOD := "showVoicemail",
    REPLACE_TYPE := "x-replace-type",
    VOICEMAIL_SMS_EVENT_TYPE := 100,
    ManualNotificationStatus := 10,
    TemporarilyFailedStatus := 5 }

/-- A member record with the given account, remote party, name, text, token and
timestamp; a call event, not hidden, not restored, nothing pending. -/
def sampleMember (account remoteUid name text token : QString) (timestamp : QDateTime) :
    PersonalNotification :=
  { remoteUid := remoteUid, account := account, eventType := 3, targetId := "",
    chatType := ChatType.ChatTypeP2P, collection := EventCollection.Voice,
    notificationText := text, notificationName := name, smsReplaceNumber := "",
    chatName := "", eventToken := token,
    recipient := { localUid := account, remoteUid := remoteUid, contactResolved := true },
    timestamp := timestamp, hidden := false, restored := false, hasPendingEvents := false }

def sampleEnv : Env :=
  { loc := sampleLoc,
    consts := sampleConsts,
    recipientMatches := fun a b => a.localUid == b.localUid && a.remoteUid == b.remoteUid,
    mkRecipient := fun l r => { localUid := l, remoteUid := r, contactResolved := false },
    joinStringList := fun names => String.intercalate ", " names,
    collectionOf := fun t =>
      if t = 3 then EventCollection.Voice
      else if t = 4 then EventCollection.Voicemail else EventCollection.Messaging,
    publishNotification := fun pn => { pn with hasPendingEvents := false },
    updateRecipientData := fun pn => pn,
    restore := fun n =>
      match n.hintValue "x-commhistoryd-data" with
      | QVariant.string s => some (sampleMember "acc" s s n.body "" n.timestamp)
      | _ => none,
    ngfPlay := fun _ => 1,
    newPersonalNotification := fun remoteUid account eventType targetId chatType =>
      { remoteUid := remoteUid, account := account, eventType := eventType,
        targetId := targetId, chatType := chatType,
        collection :=
          if eventType = 3 then EventCollection.Voice
          else if eventType = 4 then EventCollection.Voicemail else EventCollection.Messaging,
        notificationText := "", notificationName := remoteUid, smsReplaceNumber := "",
        chatName := "", eventToken := "",
        recipient := { localUid := account, remoteUid := remoteUid, contactResolved := false },
        timestamp := none, hidden := false, restored := false, hasPendingEvents := true },
    isSpace := qIsSpace }

/-- A store whose object at address `p` is the member of `members` at index `p`. -/
def sampleHeap (members : List PersonalNotification) : Heap :=
  fun p => members.getD p (sampleMember "" "" "" "" "" none)

def sampleWorld (members : List PersonalNotification) : World :=
  { heap := sampleHeap members, published := [], closed := [], released := [] }

/-- An SMS event from the remote party `remoteUid` on the account `account`. -/
def sampleSms (account remoteUid token text : QString) : Event :=
  { id := 1, type := EventType.SMSEvent, status := 0, direction := EventDirection.Inbound,
    subject := "", freeText := text, fromVCardLabel := "", messageParts := [],
    messageToken := token,
    recipients := [{ localUid := account, remoteUid := remoteUid, contactResolved := false }],
    localUid := account, isValid := true, groupId := 1, headers := [] }

/-- A service state in which nothing is observed. -/
def sampleService : CommHistoryService :=
  { inboxObserved := false, observedConversations := [], inboxFilterAccount := "" }

/-- The manager after the message with token "t1" from "555" on account "acc" was shown:
its member, at address 0, waits for the resolution of its contact. -/
def samplePendingManager : NotificationManager :=
  (NotificationManager.new (sampleWorld []) 0).showNotification sampleEnv sampleService
    (sampleSms "acc" "555" "t1" "hello") "" ChatType.ChatTypeP2P ""

/-- The manager `samplePendingManager` after the contacts were resolved: the member is
in the Messaging group of "acc" and "555". -/
def sampleGroupedManager : NotificationManager :=
  samplePendingManager.slotContactResolveFinished sampleEnv

/-- A manager with the groups of ("acc", "555"), ("acc", "666") and ("other", "777"),
holding the members 0, 1 and 2, and with the pending members 3 of "acc" and 4 of
"other". -/
def sampleBusyManager : NotificationManager :=
  let m0 := NotificationManager.new (sampleWorld []) 0
  let m1 := m0.showNotification sampleEnv sampleService
    (sampleSms "acc" "555" "t1" "one") "" ChatType.ChatTypeP2P ""
  let m2 := m1.showNotification sampleEnv sampleService
    (sampleSms "acc" "666" "t2" "two") "" ChatType.ChatTypeP2P ""
  let m3 := m2.showNotification sampleEnv sampleService
    (sampleSms "other" "777" "t3" "three") "" ChatType.ChatTypeP2P ""
  let m4 := m3.slotContactResolveFinished sampleEnv
  let m5 := m4.showNotification sampleEnv sampleService
    (sampleSms "acc" "888" "t4" "four") "" ChatType.ChatTypeP2P ""
  m5.showNotification sampleEnv sampleService
    (sampleSms "other" "999" "t5" "five") "" ChatType.ChatTypeP2P ""

/-- A stored platform record of a member: it carries the hint `x-commhistoryd-data`. -/
def sampleMemberRecord : Notification :=
  ({ Notification.new with body := "hello" }).setHintValue "x-commhistoryd-data"
    (QVariant.string "555")

/-- A stored platform record of an aggregate: it carries no data. -/
def sampleAggregateRecord : Notification :=
  { Notification.new with summary := "Alice", itemCount := 1 }

/-- The delivery of the signal `closed(reason)` of the aggregate of the group at position
`i` of the group map to the slot `onClosed` of that group (the connection made in
`updateGroup`). The manager takes no part in it. -/
def NotificationManager.groupClosed (m : NotificationManager) (i : Nat) (reason : Nat) :
    NotificationManager :=
  match m.m_Groups[i]? with
  | some e =>
    { m with
      m_Groups := m.m_Groups.set i (e.1, (e.2.onClosed m.world reason).1),
      world := (e.2.onClosed m.world reason).2 }
  | none => m

/-- The calls that reach a group: the two mutators, `updateGroup` called directly, the
timeout of the update timer, the accessor `notification()` and the slot `onClosed`. -/
inductive GroupCall where
  | add : Ptr → GroupCall
  | remove : Ptr → GroupCall
  | updateGroup : GroupCall
  | timeout : GroupCall
  | readout : GroupCall
  | closed : Nat → GroupCall
  deriving DecidableEq, Repr

def GroupCall.apply (env : Env) (call : GroupCall) (s : NotificationGroup × World) :
    NotificationGroup × World :=
  match call with
  | GroupCall.add p => s.1.addNotification s.2 p
  | GroupCall.remove p =>
    ((s.1.removeNotification s.2 p).group, (s.1.removeNotification s.2 p).world)
  | GroupCall.updateGroup => s.1.updateGroup env s.2
  | GroupCall.timeout => s.1.updateTimerTimeout env s.2
  | GroupCall.readout => ((s.1.notification env s.2).1, (s.1.notification env s.2).2.1)
  | GroupCall.closed reason => s.1.onClosed s.2 reason

/-- The calls of `calls` made one after the other, the first one first. -/
def runGroupCalls (env : Env) (calls : List GroupCall) (s : NotificationGroup × World) :
    NotificationGroup × World :=
  calls.foldl (fun st call => call.apply env st) s

/-- An empty group that still has an aggregate has its recompute scheduled. -/
def StaleOnlyWhileScheduled (g : NotificationGroup) : Prop :=
  g.mNotifications = [] → g.updateTimerActive = false → g.mGroup = none

/-- The predicate `selected` does not look at the hidden flag of a member. -/
def HiddenBlind (selected : PersonalNotification → Bool) : Prop :=
  ∀ (pn : PersonalNotification) (b : Bool), selected (pn.setHidden b) = selected pn

/-- The members of a conversation, in the words of the specification: a Messaging member
with the chat type of the conversation whose identity matches the recipient of the
conversation, the identity being the recipient of the member for a peer-to-peer chat and
the recipient made of its account and target id otherwise. -/
def inConversation (env : Env) (recipient : Recipient) (chatType : ChatType)
    (pn : PersonalNotification) : Bool :=
  decide (pn.collection = EventCollection.Messaging)
    && decide (pn.chatType = chatType)
    && (if chatType = ChatType.ChatTypeP2P then env.recipientMatches recipient pn.recipient
        else env.recipientMatches recipient (env.mkRecipient pn.account pn.targetId))

/-- A missed call from the remote party `remoteUid` on the account `account`. -/
def sampleCall (account remoteUid : QString) : Event :=
  { id := 2, type := EventType.CallEvent, status := 0, direction := EventDirection.Inbound,
    subject := "", freeText := "", fromVCardLabel := "", messageParts := [],
    messageToken := "",
    recipients := [{ localUid := account, remoteUid := remoteUid, contactResolved := false }],
    localUid := account, isValid := true, groupId := 0, headers := [] }

/-- The manager after a missed call from "555" on account "acc" was shown: its member, at
address 0, waits for the resolution of its contact. -/
def samplePendingCallManager : NotificationManager :=
  (NotificationManager.new (sampleWorld []) 0).showNotification sampleEnv sampleService
    (sampleCall "acc" "555") "" ChatType.ChatTypeP2P ""

/-- A service state in which the inbox is observed with the filter account "acc". -/
def sampleFilteredInboxService : CommHistoryService :=
  { inboxObserved := true, observedConversations := [], inboxFilterAccount := "acc" }

/-! ### Sequences of operations on the manager -/

/-- The operations on the registry: an event is shown, the stored records are read back
at start-up, a newly built member is passed to `resolveNotification`, the contact
resolver finishes, and the three removal operations. -/
inductive ManagerOp where
  | showEvent : CommHistoryService → Event → QString → ChatType → QString → ManagerOp
  | sync : List Notification → ManagerOp
  | resolveNew : PersonalNotification → ManagerOp
  | resolveFinished : ManagerOp
  | removeAccount : QString → List Int → ManagerOp
  | removeConversation : Recipient → ChatType → ManagerOp
  | removeTypes : List Int → ManagerOp

/-- A new member object holding `data` is allocated and passed to `resolveNotification`,
as `showNotification` and `syncNotifications` do with the members they build. -/
def NotificationManager.resolveNew (env : Env) (m : NotificationManager)
    (data : PersonalNotification) : NotificationManager :=
  NotificationManager.resolveNotification env
    { m with
      world := { m.world with heap := m.world.heap.set m.nextPtr data },
      nextPtr := m.nextPtr + 1 }
    m.nextPtr

def ManagerOp.apply (env : Env) (op : ManagerOp) (m : NotificationManager) :
    NotificationManager :=
  match op with
  | ManagerOp.showEvent svc event channelTargetId chatType details =>
    m.showNotification env svc event channelTargetId chatType details
  | ManagerOp.sync notifications => m.syncNotifications env notifications
  | ManagerOp.resolveNew data => m.resolveNew env data
  | ManagerOp.resolveFinished => m.slotContactResolveFinished env
  | ManagerOp.removeAccount accountPath typeFilter =>
    m.removeNotifications accountPath typeFilter
  | ManagerOp.removeConversation recipient chatType =>
    m.removeConversationNotifications env recipient chatType
  | ManagerOp.removeTypes types => m.removeNotificationTypes types

/-- The operations of `ops` performed one after the other, the first one first. -/
def runManagerOps (env : Env) (ops : List ManagerOp) (m : NotificationManager) :
    NotificationManager :=
  ops.foldl (fun st op => op.apply env st) m

/-- Every member that the manager owns is owned once, and was allocated. -/
def OwnedOnce (m : NotificationManager) : Prop :=
  m.allMembers.Nodup ∧ ∀ p ∈ m.allMembers, p < m.nextPtr

/-- The members of all the groups of a group map. -/
def groupedMembers (groups : List (EventGroupProperties × NotificationGroup)) : List Ptr :=
  (groups.map (fun e => e.2.mNotifications)).flatten

@[simp]
theorem Heap.set_same (h : Heap) (p : Ptr) (v : PersonalNotification) : (h.set p v) p = v := by
  simp [Heap.set]

@[simp]
theorem Heap.set_other (h : Heap) (p q : Ptr) (v : PersonalNotification) (hq : q ≠ p) :
    (h.set p v) q = h q := by
  simp [Heap.set, hq]

theorem Heap.set_hidden_true (h : Heap) (p q : Ptr) (hq : (h q).hidden = true) :
    ((h.set p ((h p).setHidden true)) q).hidden = true := by
  by_cases hqp : q = p
  · subst hqp; simp [PersonalNotification.setHidden]
  · simpa [Heap.set, hqp] using hq

theorem addNotification_members (g : NotificationGroup) (w : World) (p : Ptr) :
    (g.addNotification w p).1.mNotifications
      = if p ∈ g.mNotifications then g.mNotifications else g.mNotifications ++ [p] := by
  unfold NotificationGroup.addNotification
  by_cases hp : p ∈ g.mNotifications
  · simp [hp]
  · simp [hp, NotificationGroup.updateGroupLater]

theorem addNotification_collection (g : NotificationGroup) (w : World) (p : Ptr) :
    (g.addNotification w p).1.m_collection = g.m_collection := by
  unfold NotificationGroup.addNotification
  by_cases hp : p ∈ g.mNotifications
  · simp [hp]
  · simp [hp, NotificationGroup.updateGroupLater]

theorem removeNotification_members (g : NotificationGroup) (w : World) (p : Ptr) :
    (g.removeNotification w p).group.mNotifications = g.mNotifications.erase p := by
  unfold NotificationGroup.removeNotification
  by_cases hp : p ∈ g.mNotifications
  · simp [hp, NotificationGroup.updateGroupLater]
  · simp [hp, List.erase_of_not_mem hp]

theorem removeNotification_collection (g : NotificationGroup) (w : World) (p : Ptr) :
    (g.removeNotification w p).group.m_collection = g.m_collection := by
  unfold NotificationGroup.removeNotification
  by_cases hp : p ∈ g.mNotifications
  · simp [hp, NotificationGroup.updateGroupLater]
  · simp [hp]

theorem addNotification_of_mem (g : NotificationGroup) (w : World) (p : Ptr)
    (hp : p ∈ g.mNotifications) : g.addNotification w p = (g, w) := by
  simp [NotificationGroup.addNotification, hp]

theorem addNotification_heap_first (g : NotificationGroup) (w : World) (p : Ptr)
    (hc : g.m_collection = EventCollection.Voice ∨ g.m_collection = EventCollection.Voicemail)
    (hl : g.mNotifications = []) :
    (g.addNotification w p).2.heap = w.heap.set p ((w.heap p).setHidden false) := by
  simp [NotificationGroup.addNotification, hl, hc]

theorem addNotification_heap_more (g : NotificationGroup) (w : World) (p q : Ptr) (l : List Ptr)
    (hc : g.m_collection = EventCollection.Voice ∨ g.m_collection = EventCollection.Voicemail)
    (hl : g.mNotifications = q :: l) (hp : p ∉ g.mNotifications) :
    (g.addNotification w p).2.heap
      = (w.heap.set p ((w.heap p).setHidden true)).set q
          (((w.heap.set p ((w.heap p).setHidden true)) q).setHidden true) := by
  rw [hl] at hp
  simp [NotificationGroup.addNotification, hl, hc, hp]

theorem addNotification_heap_messaging (g : NotificationGroup) (w : World) (p : Ptr)
    (hc : ¬ (g.m_collection = EventCollection.Voice ∨ g.m_collection = EventCollection.Voicemail)) :
    (g.addNotification w p).2.heap = w.heap := by
  unfold NotificationGroup.addNotification
  by_cases hp : p ∈ g.mNotifications
  · simp [hp]
  · simp [hp, hc]

theorem removeNotification_of_not_mem (g : NotificationGroup) (w : World) (p : Ptr)
    (hp : p ∉ g.mNotifications) :
    g.removeNotification w p
      = { group := g, world := w, removed := false, reference := some p } := by
  simp [NotificationGroup.removeNotification, hp]

theorem removeNotification_heap_single (g : NotificationGroup) (w : World) (p f : Ptr)
    (hc : g.m_collection = EventCollection.Voice ∨ g.m_collection = EventCollection.Voicemail)
    (hp : p ∈ g.mNotifications) (hr : g.mNotifications.erase p = [f]) :
    (g.removeNotification w p).world.heap = w.heap.set f ((w.heap f).setHidden false) := by
  simp [NotificationGroup.removeNotification, hp, hc, hr]

theorem removeNotification_heap_other (g : NotificationGroup) (w : World) (p : Ptr)
    (h : ¬ (p ∈ g.mNotifications
      ∧ (g.m_collection = EventCollection.Voice ∨ g.m_collection = EventCollection.Voicemail)
      ∧ (g.mNotifications.erase p).length = 1)) :
    (g.removeNotification w p).world.heap = w.heap := by
  unfold NotificationGroup.removeNotification
  by_cases hp : p ∈ g.mNotifications
  · by_cases hc : g.m_collection = EventCollection.Voice
        ∨ g.m_collection = EventCollection.Voicemail
    · have hlen : ¬ (g.mNotifications.erase p).length = 1 := fun hlen => h ⟨hp, hc, hlen⟩
      simp only [List.elem_eq_mem, hp, decide_True, if_true, hc, hlen, if_false]
    · simp [hp, hc]
  · simp [hp]

theorem addNotification_hiddenInv (g : NotificationGroup) (w : World) (p : Ptr)
    (hc : g.m_collection = EventCollection.Voice ∨ g.m_collection = EventCollection.Voicemail)
    (hinv : HiddenInv g w) :
    HiddenInv (g.addNotification w p).1 (g.addNotification w p).2 := by
  by_cases hp : p ∈ g.mNotifications
  · rw [addNotification_of_mem g w p hp]; exact hinv
  · obtain ⟨hmany, hone⟩ := hinv
    unfold HiddenInv
    rw [addNotification_members, if_neg hp]
    cases hl : g.mNotifications with
    | nil =>
      rw [addNotification_heap_first g w p hc hl]
      simp [PersonalNotification.setHidden]
    | cons q l =>
      rw [addNotification_heap_more g w p q l hc hl hp]
      rw [hl] at hmany
      have hold : ∀ x ∈ l, (w.heap x).hidden = true := by
        intro x hx
        cases l with
        | nil => simp at hx
        | cons y l2 => exact hmany (by simp) x (List.mem_cons_of_mem _ hx)
      constructor
      · intro _ x hx
        rcases List.mem_append.1 hx with hx | hx
        · rcases List.mem_cons.1 hx with rfl | hx
          · simp [PersonalNotification.setHidden]
          · exact Heap.set_hidden_true _ _ _ (Heap.set_hidden_true _ _ _ (hold x hx))
        · have hxp : x = p := by simpa using hx
          subst hxp
          exact Heap.set_hidden_true _ _ _ (by simp [PersonalNotification.setHidden])
      · intro x hx
        simp at hx

theorem removeNotification_hiddenInv (g : NotificationGroup) (w : World) (p : Ptr)
    (hc : g.m_collection = EventCollection.Voice ∨ g.m_collection = EventCollection.Voicemail)
    (hinv : HiddenInv g w) :
    HiddenInv (g.removeNotification w p).group (g.removeNotification w p).world := by
  by_cases hp : p ∈ g.mNotifications
  · obtain ⟨hmany, _⟩ := hinv
    unfold HiddenInv
    rw [removeNotification_members]
    cases hr : g.mNotifications.erase p with
    | nil => simp
    | cons f rest =>
      cases rest with
      | nil =>
        rw [removeNotification_heap_single g w p f hc hp hr]
        simp [PersonalNotification.setHidden]
      | cons f2 rest2 =>
        rw [removeNotification_heap_other g w p (by simp [hr])]
        have hlen : 1 < g.mNotifications.length := by
          have := List.length_erase_of_mem hp
          rw [hr] at this
          simp at this
          omega
        constructor
        · intro _ x hx
          have hx2 : x ∈ g.mNotifications := by
            have hx3 : x ∈ g.mNotifications.erase p := by rw [hr]; exact hx
            exact List.mem_of_mem_erase hx3
          exact hmany hlen x hx2
        · intro x hx
          simp at hx
  · rw [removeNotification_of_not_mem g w p hp]; exact hinv

/-! ## C1: the visibility rule of Voice and Voicemail groups -/

theorem runGroupOps_cons (env : Env) (op : GroupOp) (ops : List GroupOp)
    (s : NotificationGroup × World) :
    runGroupOps env (op :: ops) s = runGroupOps env ops (op.apply env s) := rfl

theorem runGroupOps_append (env : Env) (ops1 ops2 : List GroupOp)
    (s : NotificationGroup × World) :
    runGroupOps env (ops1 ++ ops2) s = runGroupOps env ops2 (runGroupOps env ops1 s) := by
  simp [runGroupOps, List.foldl_append]

theorem runGroupOps_hiddenInv (env : Env) (c : EventCollection)
    (hc : c = EventCollection.Voice ∨ c = EventCollection.Voicemail) (ops : List GroupOp) :
    ∀ s : NotificationGroup × World, (∀ op ∈ ops, op.isAddRemove = true) →
      s.1.m_collection = c → HiddenInv s.1 s.2 →
      (runGroupOps env ops s).1.m_collection = c
        ∧ HiddenInv (runGroupOps env ops s).1 (runGroupOps env ops s).2 := by
  induction ops with
  | nil => intro s _ hcol hinv; exact ⟨hcol, hinv⟩
  | cons op ops ih =>
    intro s hops hcol hinv
    rw [runGroupOps_cons]
    have hop := hops op (List.mem_cons_self _ _)
    have hrest : ∀ o ∈ ops, o.isAddRemove = true :=
      fun o ho => hops o (List.mem_cons_of_mem _ ho)
    have hcs : s.1.m_collection = EventCollection.Voice
        ∨ s.1.m_collection = EventCollection.Voicemail := by rw [hcol]; exact hc
    cases op with
    | add p =>
      exact ih _ hrest (by simp [GroupOp.apply, addNotification_collection, hcol])
        (addNotification_hiddenInv s.1 s.2 p hcs hinv)
    | remove p =>
      exact ih _ hrest (by simp [GroupOp.apply, removeNotification_collection, hcol])
        (removeNotification_hiddenInv s.1 s.2 p hcs hinv)
    | update => simp [GroupOp.isAddRemove] at hop

/-- C1: in a Voice or Voicemail group, in every state reached from the empty group by
`addNotification` and `removeNotification`, every member is hidden when there is more
than one member and the sole member is not hidden when there is exactly one; adding a
second member leaves the original and the new member hidden, and a removal that leaves
one member leaves it not hidden. -/
theorem C1_voice_members_hidden_iff_several (env : Env) (c : EventCollection)
    (localUid remoteUid : QString) (w0 : World) (ops : List GroupOp)
    (hc : c = EventCollection.Voice ∨ c = EventCollection.Voicemail)
    (hops : ∀ op ∈ ops, op.isAddRemove = true) :
    (1 < (runGroupOps env ops (NotificationGroup.new c localUid remoteUid, w0)).1.mNotifications.length →
      ∀ p ∈ (runGroupOps env ops (NotificationGroup.new c localUid remoteUid, w0)).1.mNotifications,
        ((runGroupOps env ops (NotificationGroup.new c localUid remoteUid, w0)).2.heap p).hidden
          = true)
    ∧ (∀ p, (runGroupOps env ops (NotificationGroup.new c localUid remoteUid, w0)).1.mNotifications
          = [p] →
        ((runGroupOps env ops (NotificationGroup.new c localUid remoteUid, w0)).2.heap p).hidden
          = false)
    ∧ (∀ q p, (runGroupOps env ops (NotificationGroup.new c localUid remoteUid, w0)).1.mNotifications
          = [q] → p ≠ q →
        (runGroupOps env (ops ++ [GroupOp.add p])
            (NotificationGroup.new c localUid remoteUid, w0)).1.mNotifications = [q, p]
        ∧ ((runGroupOps env (ops ++ [GroupOp.add p])
            (NotificationGroup.new c localUid remoteUid, w0)).2.heap q).hidden = true
        ∧ ((runGroupOps env (ops ++ [GroupOp.add p])
            (NotificationGroup.new c localUid remoteUid, w0)).2.heap p).hidden = true)
    ∧ (∀ p q, (runGroupOps env (ops ++ [GroupOp.remove p])
            (NotificationGroup.new c localUid remoteUid, w0)).1.mNotifications = [q] →
        ((runGroupOps env (ops ++ [GroupOp.remove p])
            (NotificationGroup.new c localUid remoteUid, w0)).2.heap q).hidden = false) := by
  have hinit : HiddenInv (NotificationGroup.new c localUid remoteUid) w0 := by
    simp [HiddenInv, NotificationGroup.new]
  have key : ∀ ops2 : List GroupOp, (∀ op ∈ ops2, op.isAddRemove = true) →
      HiddenInv (runGroupOps env ops2 (NotificationGroup.new c localUid remoteUid, w0)).1
        (runGroupOps env ops2 (NotificationGroup.new c localUid remoteUid, w0)).2 :=
    fun ops2 h2 => (runGroupOps_hiddenInv env c hc ops2 _ h2 rfl hinit).2
  refine ⟨(key ops hops).1, (key ops hops).2, ?_, ?_⟩
  · intro q p hq hpq
    have hadd : ∀ op ∈ ops ++ [GroupOp.add p], op.isAddRemove = true := by
      intro op hop
      rcases List.mem_append.1 hop with h | h
      · exact hops op h
      · have : op = GroupOp.add p := by simpa using h
        subst this; rfl
    have hmem : (runGroupOps env (ops ++ [GroupOp.add p])
        (NotificationGroup.new c localUid remoteUid, w0)).1.mNotifications = [q, p] := by
      rw [runGroupOps_append]
      have h1 : runGroupOps env [GroupOp.add p]
          (runGroupOps env ops (NotificationGroup.new c localUid remoteUid, w0))
          = (runGroupOps env ops (NotificationGroup.new c localUid remoteUid, w0)).1.addNotification
              (runGroupOps env ops (NotificationGroup.new c localUid remoteUid, w0)).2 p := rfl
      rw [h1, addNotification_members, hq]
      simp [hpq]
    have hall := (key _ hadd).1 (by rw [hmem]; simp)
    rw [hmem] at hall
    exact ⟨hmem, hall q (by simp), hall p (by simp)⟩
  · intro p q hq
    have hrem : ∀ op ∈ ops ++ [GroupOp.remove p], op.isAddRemove = true := by
      intro op hop
      rcases List.mem_append.1 hop with h | h
      · exact hops op h
      · have : op = GroupOp.remove p := by simpa using h
        subst this; rfl
    exact (key _ hrem).2 q hq

/-- Witness for C1: a missed-call group after two additions and after a further removal. -/
theorem C1_voice_members_hidden_iff_several_witness :
    (EventCollection.Voice = EventCollection.Voice
        ∨ EventCollection.Voice = EventCollection.Voicemail)
    ∧ (∀ op ∈ [GroupOp.add 1, GroupOp.add 2], op.isAddRemove = true)
    ∧ (runGroupOps sampleEnv [GroupOp.add 1, GroupOp.add 2]
        (NotificationGroup.new EventCollection.Voice "acc" "555", sampleWorld [])).1.mNotifications
          = [1, 2]
    ∧ ((runGroupOps sampleEnv [GroupOp.add 1, GroupOp.add 2]
        (NotificationGroup.new EventCollection.Voice "acc" "555", sampleWorld [])).2.heap 1).hidden
          = true
    ∧ ((runGroupOps sampleEnv [GroupOp.add 1, GroupOp.add 2]
        (NotificationGroup.new EventCollection.Voice "acc" "555", sampleWorld [])).2.heap 2).hidden
          = true
    ∧ ((runGroupOps sampleEnv ([GroupOp.add 1, GroupOp.add 2] ++ [GroupOp.remove 1])
        (NotificationGroup.new EventCollection.Voice "acc" "555", sampleWorld [])).2.heap 2).hidden
          = false :=
  have h := C1_voice_members_hidden_iff_several sampleEnv EventCollection.Voice "acc" "555"
    (sampleWorld []) [GroupOp.add 1, GroupOp.add 2] (Or.inl rfl) (by decide)
  ⟨Or.inl rfl, by decide, by decide, h.1 (by decide) 1 (by decide), h.1 (by decide) 2 (by decide),
    h.2.2.2 1 2 (by decide)⟩

/-! ## C2: the aggregate exists exactly when there are members -/

theorem removeGroup_of_nil (g : NotificationGroup) (w : World) (hl : g.mNotifications = []) :
    (g.removeGroup w).1.mNotifications = [] ∧ (g.removeGroup w).1.mGroup = none := by
  unfold NotificationGroup.removeGroup
  cases hg : g.mGroup with
  | none => simp [hl, NotificationGroup.removeGroupLoop, hg]
  | some n => simp [hl, NotificationGroup.removeGroupLoop]

theorem updateGroup_members (env : Env) (g : NotificationGroup) (w : World) :
    (g.updateGroup env w).1.mNotifications = g.mNotifications := by
  unfold NotificationGroup.updateGroup
  cases hl : g.mNotifications with
  | nil => simpa [hl] using (removeGroup_of_nil g w hl).1
  | cons first rest => simp [hl]

theorem updateGroup_mGroup (env : Env) (g : NotificationGroup) (w : World) :
    ((g.updateGroup env w).1.mGroup.isSome = true ↔ g.mNotifications ≠ []) := by
  unfold NotificationGroup.updateGroup
  cases hl : g.mNotifications with
  | nil => simp [(removeGroup_of_nil g w hl).2]
  | cons first rest => simp

theorem updateTimerTimeout_members (env : Env) (g : NotificationGroup) (w : World) :
    (NotificationGroup.updateTimerTimeout env g w).1.mNotifications = g.mNotifications := by
  unfold NotificationGroup.updateTimerTimeout
  rw [updateGroup_members]

theorem updateTimerTimeout_mGroup (env : Env) (g : NotificationGroup) (w : World) :
    ((NotificationGroup.updateTimerTimeout env g w).1.mGroup.isSome = true
      ↔ g.mNotifications ≠ []) := by
  unfold NotificationGroup.updateTimerTimeout
  rw [updateGroup_mGroup]

/-- C2: after any sequence of operations on a group, the recompute `updateGroup` run by
the timer leaves the member list as it was and leaves an aggregate exactly when that
list is non-empty; every addition of a new member and every removal of a member
schedules the recompute; and from a state without members, adding a member, removing it
again and recomputing leaves no member and no aggregate. -/
theorem C2_aggregate_iff_members (env : Env) (g0 : NotificationGroup) (w0 : World)
    (ops : List GroupOp) :
    ((runGroupOps env (ops ++ [GroupOp.update]) (g0, w0)).1.mNotifications
        = (runGroupOps env ops (g0, w0)).1.mNotifications)
    ∧ ((runGroupOps env (ops ++ [GroupOp.update]) (g0, w0)).1.mGroup.isSome = true
        ↔ (runGroupOps env (ops ++ [GroupOp.update]) (g0, w0)).1.mNotifications ≠ [])
    ∧ (∀ p, p ∉ (runGroupOps env ops (g0, w0)).1.mNotifications →
        (runGroupOps env (ops ++ [GroupOp.add p]) (g0, w0)).1.updateTimerActive = true)
    ∧ (∀ p, p ∈ (runGroupOps env ops (g0, w0)).1.mNotifications →
        (runGroupOps env (ops ++ [GroupOp.remove p]) (g0, w0)).1.updateTimerActive = true)
    ∧ (∀ p, (runGroupOps env ops (g0, w0)).1.mNotifications = [] →
        (runGroupOps env (ops ++ [GroupOp.add p, GroupOp.remove p, GroupOp.update])
            (g0, w0)).1.mNotifications = []
        ∧ (runGroupOps env (ops ++ [GroupOp.add p, GroupOp.remove p, GroupOp.update])
            (g0, w0)).1.mGroup = none) := by
  have hupd : ∀ s : NotificationGroup × World,
      runGroupOps env [GroupOp.update] s = NotificationGroup.updateTimerTimeout env s.1 s.2 :=
    fun _ => rfl
  have hmem : (runGroupOps env (ops ++ [GroupOp.update]) (g0, w0)).1.mNotifications
      = (runGroupOps env ops (g0, w0)).1.mNotifications := by
    rw [runGroupOps_append, hupd, updateTimerTimeout_members]
  refine ⟨hmem, ?_, ?_, ?_, ?_⟩
  · rw [hmem, runGroupOps_append, hupd, updateTimerTimeout_mGroup]
  · intro p hp
    rw [runGroupOps_append]
    show ((runGroupOps env ops (g0, w0)).1.addNotification _ p).1.updateTimerActive = true
    simp [NotificationGroup.addNotification, hp, NotificationGroup.updateGroupLater]
  · intro p hp
    rw [runGroupOps_append]
    show ((runGroupOps env ops (g0, w0)).1.removeNotification _ p).group.updateTimerActive = true
    simp [NotificationGroup.removeNotification, hp, NotificationGroup.updateGroupLater]
  · intro p hnil
    have hsplit : ops ++ [GroupOp.add p, GroupOp.remove p, GroupOp.update]
        = (ops ++ [GroupOp.add p, GroupOp.remove p]) ++ [GroupOp.update] := by simp
    have hmem2 : (runGroupOps env (ops ++ [GroupOp.add p, GroupOp.remove p])
        (g0, w0)).1.mNotifications = [] := by
      rw [runGroupOps_append]
      show (((runGroupOps env ops (g0, w0)).1.addNotification _ p).1.removeNotification _
        p).group.mNotifications = []
      rw [removeNotification_members, addNotification_members, hnil]
      simp
    rw [hsplit, runGroupOps_append, hupd]
    refine ⟨by rw [updateTimerTimeout_members]; exact hmem2, ?_⟩
    have h := updateTimerTimeout_mGroup env
      (runGroupOps env (ops ++ [GroupOp.add p, GroupOp.remove p]) (g0, w0)).1
      (runGroupOps env (ops ++ [GroupOp.add p, GroupOp.remove p]) (g0, w0)).2
    rw [hmem2] at h
    cases hg : (NotificationGroup.updateTimerTimeout env
      (runGroupOps env (ops ++ [GroupOp.add p, GroupOp.remove p]) (g0, w0)).1
      (runGroupOps env (ops ++ [GroupOp.add p, GroupOp.remove p]) (g0, w0)).2).1.mGroup with
    | none => rfl
    | some n => rw [hg] at h; simp at h

/-- Witness for C2: add member 1 to the empty group, remove it, recompute. -/
theorem C2_aggregate_iff_members_witness :
    (runGroupOps sampleEnv ([] ++ [GroupOp.add 1, GroupOp.remove 1, GroupOp.update])
        (NotificationGroup.new EventCollection.Messaging "acc" "555",
          sampleWorld [])).1.mNotifications = []
    ∧ (runGroupOps sampleEnv ([] ++ [GroupOp.add 1, GroupOp.remove 1, GroupOp.update])
        (NotificationGroup.new EventCollection.Messaging "acc" "555",
          sampleWorld [])).1.mGroup = none :=
  (C2_aggregate_iff_members sampleEnv (NotificationGroup.new EventCollection.Messaging "acc" "555")
    (sampleWorld []) []).2.2.2.2 1 rfl

/-! ## C3: the text of a group -/

/-- C3: `notificationGroupText` of a group with `n` members is the empty string when
`n = 0`, whatever the collection and the store; for Messaging the sole member's text when
`n = 1` and the new-messages phrase for `n` when `n > 1`; for Voice the missed-calls
phrase for `n` for every `n ≥ 1`; for Voicemail the text of the first member. -/
theorem C3_notificationGroupText_cases (env : Env) (g : NotificationGroup) (h : Heap) :
    (g.mNotifications = [] → ∀ h2 : Heap, g.notificationGroupText env h2 = "")
    ∧ (g.m_collection = EventCollection.Messaging → ∀ p, g.mNotifications = [p] →
        g.notificationGroupText env h = (h p).notificationText)
    ∧ (g.m_collection = EventCollection.Messaging → 1 < g.mNotifications.length →
        g.notificationGroupText env h
          = env.loc.txt_qtn_msg_notification_new_message g.mNotifications.length)
    ∧ (g.m_collection = EventCollection.Voice → 1 ≤ g.mNotifications.length →
        g.notificationGroupText env h = env.loc.txt_qtn_call_missed g.mNotifications.length)
    ∧ (g.m_collection = EventCollection.Voicemail → ∀ first rest,
        g.mNotifications = first :: rest →
        g.notificationGroupText env h = (h first).notificationText) := by
  refine ⟨?_, ?_, ?_, ?_, ?_⟩
  · intro hl h2
    simp [NotificationGroup.notificationGroupText, hl]
  · intro hc p hl
    simp [NotificationGroup.notificationGroupText, hl, hc]
  · intro hc hlen
    cases hl : g.mNotifications with
    | nil => rw [hl] at hlen; simp at hlen
    | cons first rest =>
      rw [hl] at hlen
      simp only [NotificationGroup.notificationGroupText, hl, hc]
      rw [if_pos hlen]
  · intro hc hlen
    cases hl : g.mNotifications with
    | nil => rw [hl] at hlen; simp at hlen
    | cons first rest => simp [NotificationGroup.notificationGroupText, hl, hc]
  · intro hc first rest hl
    simp [NotificationGroup.notificationGroupText, hl, hc]

/-- Witness for C3: three messages give the count phrase, one missed call gives the
count phrase too, one message gives the text of the message. -/
theorem C3_notificationGroupText_cases_witness :
    NotificationGroup.notificationGroupText sampleEnv
        { NotificationGroup.new EventCollection.Messaging "acc" "555" with
          mNotifications := [0, 1, 2] }
        (sampleHeap []) = "3 new messages"
    ∧ NotificationGroup.notificationGroupText sampleEnv
        { NotificationGroup.new EventCollection.Voice "acc" "555" with mNotifications := [0] }
        (sampleHeap [sampleMember "acc" "555" "Alice" "Missed call" "" none])
          = "1 missed calls"
    ∧ NotificationGroup.notificationGroupText sampleEnv
        { NotificationGroup.new EventCollection.Messaging "acc" "555" with
          mNotifications := [0] }
        (sampleHeap [sampleMember "acc" "555" "Alice" "hello" "" none]) = "hello" :=
  ⟨(C3_notificationGroupText_cases sampleEnv
      { NotificationGroup.new EventCollection.Messaging "acc" "555" with
        mNotifications := [0, 1, 2] } (sampleHeap [])).2.2.1 rfl (by decide),
   (C3_notificationGroupText_cases sampleEnv
      { NotificationGroup.new EventCollection.Voice "acc" "555" with mNotifications := [0] }
      (sampleHeap [sampleMember "acc" "555" "Alice" "Missed call" "" none])).2.2.2.1 rfl
      (by decide),
   (C3_notificationGroupText_cases sampleEnv
      { NotificationGroup.new EventCollection.Messaging "acc" "555" with
        mNotifications := [0] }
      (sampleHeap [sampleMember "acc" "555" "Alice" "hello" "" none])).2.1 rfl 0 rfl⟩

/-! ## C4: one name per recipient, the longest one -/

theorem mergeDetail_cases (mt : Recipient → Recipient → Bool) (r : Recipient) (n : QString)
    (D : List (Recipient × QString)) :
    ((∀ e ∈ D, mt r e.1 = false) ∧ mergeDetail mt r n D = D ++ [(r, n)])
    ∨ (∃ D1 r0 n0 D2, D = D1 ++ (r0, n0) :: D2 ∧ (∀ e ∈ D1, mt r e.1 = false)
        ∧ mt r r0 = true
        ∧ mergeDetail mt r n D
            = D1 ++ (r0, if qLength n > qLength n0 then n else n0) :: D2) := by
  induction D with
  | nil => left; simp [mergeDetail]
  | cons e D ih =>
    obtain ⟨r1, n1⟩ := e
    by_cases hm : mt r r1 = true
    · right
      refine ⟨[], r1, n1, D, rfl, by simp, hm, ?_⟩
      by_cases hlen : qLength n > qLength n1 <;> simp [mergeDetail, hm, hlen]
    · have hm2 : mt r r1 = false := by simpa using hm
      rcases ih with ⟨hnone, heq⟩ | ⟨D1, r0, n0, D2, hD, hnone, hr0, heq⟩
      · left
        refine ⟨?_, by simp [mergeDetail, hm2, heq]⟩
        intro e he
        rcases List.mem_cons.1 he with rfl | he
        · exact hm2
        · exact hnone e he
      · right
        refine ⟨(r1, n1) :: D1, r0, n0, D2, by simp [hD], ?_, hr0, by simp [mergeDetail, hm2, heq]⟩
        intro e he
        rcases List.mem_cons.1 he with rfl | he
        · exact hm2
        · exact hnone e he

theorem matches_false_symm (mt : Recipient → Recipient → Bool)
    (hsymm : ∀ a b, mt a b = true → mt b a = true) (a b : Recipient)
    (hab : mt a b = false) : mt b a = false := by
  cases hba : mt b a with
  | false => rfl
  | true => rw [hsymm b a hba] at hab; exact absurd hab (by simp)

theorem detailsInv_step (mt : Recipient → Recipient → Bool)
    (hrefl : ∀ a, mt a a = true)
    (hsymm : ∀ a b, mt a b = true → mt b a = true)
    (htrans : ∀ a b c, mt a b = true → mt b c = true → mt a c = true)
    (h : Heap) (l : List Ptr) (D : List (Recipient × QString)) (p : Ptr)
    (hinv : DetailsInv mt h l D) :
    DetailsInv mt h (l ++ [p])
      (mergeDetail mt (h p).recipient (h p).notificationName D) := by
  obtain ⟨hpw, hcov, hname⟩ := hinv
  rcases mergeDetail_cases mt (h p).recipient (h p).notificationName D with
    ⟨hnone, heq⟩ | ⟨D1, r0, n0, D2, hD, hnone, hr0, heq⟩
  · -- no entry matches: a new entry is appended
    rw [heq]
    refine ⟨?_, ?_, ?_⟩
    · rw [List.pairwise_append]
      refine ⟨hpw, List.pairwise_singleton _ _, ?_⟩
      intro a ha b hb
      have hb2 : b = ((h p).recipient, (h p).notificationName) := by simpa using hb
      subst hb2
      exact matches_false_symm mt hsymm _ _ (hnone a ha)
    · intro x hx
      rcases List.mem_append.1 hx with hx | hx
      · obtain ⟨e, he, hm⟩ := hcov x hx
        exact ⟨e, List.mem_append_left _ he, hm⟩
      · have hxp : x = p := by simpa using hx
        subst hxp
        exact ⟨((h x).recipient, (h x).notificationName), by simp, hrefl _⟩
    · intro e hmem
      rcases List.mem_append.1 hmem with he | he
      · obtain ⟨l1, q, l2, hl, hn, hm, hbefore, hafter⟩ := hname e he
        refine ⟨l1, q, l2 ++ [p], by simp [hl], hn, hm, hbefore, ?_⟩
        intro x hx hxm
        rcases List.mem_append.1 hx with hx | hx
        · exact hafter x hx hxm
        · have hxp : x = p := by simpa using hx
          rw [hxp, hnone e he] at hxm
          exact absurd hxm (by simp)
      · have he2 : e = ((h p).recipient, (h p).notificationName) := by simpa using he
        subst he2
        refine ⟨l, p, [], rfl, rfl, hrefl _, ?_, by simp⟩
        intro x hx hxm
        obtain ⟨e2, he2, hm⟩ := hcov x hx
        have h1 : mt (h p).recipient e2.1 = true :=
          htrans _ _ _ (hsymm _ _ hxm) hm
        rw [hnone e2 he2] at h1
        exact absurd h1 (by simp)
  · -- the first matching entry keeps its recipient and takes the longer name
    rw [heq]
    subst hD
    rw [List.pairwise_append] at hpw
    obtain ⟨hpw1, hpw2, hpw12⟩ := hpw
    rw [List.pairwise_cons] at hpw2
    obtain ⟨hpw0, hpw2⟩ := hpw2
    refine ⟨?_, ?_, ?_⟩
    · rw [List.pairwise_append]
      refine ⟨hpw1, ?_, ?_⟩
      · rw [List.pairwise_cons]
        exact ⟨fun b hb => hpw0 b hb, hpw2⟩
      · intro a ha b hb
        rcases List.mem_cons.1 hb with rfl | hb
        · exact hpw12 a ha (r0, n0) (List.mem_cons_self _ _)
        · exact hpw12 a ha b (List.mem_cons_of_mem _ hb)
    · intro x hx
      rcases List.mem_append.1 hx with hx | hx
      · obtain ⟨e, he, hm⟩ := hcov x hx
        rcases List.mem_append.1 he with he | he
        · exact ⟨e, List.mem_append_left _ he, hm⟩
        · rcases List.mem_cons.1 he with rfl | he
          · exact ⟨_, List.mem_append_right _ (List.mem_cons_self _ _), hm⟩
          · exact ⟨e, List.mem_append_right _ (List.mem_cons_of_mem _ he), hm⟩
      · have hxp : x = p := by simpa using hx
        subst hxp
        exact ⟨_, List.mem_append_right _ (List.mem_cons_self _ _), hr0⟩
    · -- an entry other than the matching one is not matched by the new member
      have hothers : ∀ e, e ∈ D1 ∨ e ∈ D2 → mt (h p).recipient e.1 = false := by
        intro e he
        rcases he with he | he
        · exact hnone e he
        · cases hpe : mt (h p).recipient e.1 with
          | false => rfl
          | true =>
            have h1 : mt r0 e.1 = true := htrans _ _ _ (hsymm _ _ hr0) hpe
            have h2 := hpw0 e he
            simp only at h2
            rw [h2] at h1
            exact absurd h1 (by simp)
      have hkeep : ∀ e, e ∈ D1 ∨ e ∈ D2 → e ∈ D1 ++ (r0, n0) :: D2 := by
        intro e he
        rcases he with he | he
        · exact List.mem_append_left _ he
        · exact List.mem_append_right _ (List.mem_cons_of_mem _ he)
      have hold : ∀ e, e ∈ D1 ∨ e ∈ D2 → ∃ l1 q l2, l ++ [p] = l1 ++ q :: l2
          ∧ e.2 = (h q).notificationName
          ∧ mt (h q).recipient e.1 = true
          ∧ (∀ x ∈ l1, mt (h x).recipient e.1 = true →
              qLength (h x).notificationName < qLength e.2)
          ∧ (∀ x ∈ l2, mt (h x).recipient e.1 = true →
              qLength (h x).notificationName ≤ qLength e.2) := by
        intro e he
        obtain ⟨l1, q, l2, hl, hn, hm, hbefore, hafter⟩ := hname e (hkeep e he)
        refine ⟨l1, q, l2 ++ [p], by simp [hl], hn, hm, hbefore, ?_⟩
        intro x hx hxm
        rcases List.mem_append.1 hx with hx | hx
        · exact hafter x hx hxm
        · have hxp : x = p := by simpa using hx
          rw [hxp, hothers e he] at hxm
          exact absurd hxm (by simp)
      intro e hmem
      rcases List.mem_append.1 hmem with he | he
      · exact hold e (Or.inl he)
      · rcases List.mem_cons.1 he with rfl | he
        · obtain ⟨l1, q, l2, hl, hn, hm, hbefore, hafter⟩ :=
            hname (r0, n0) (List.mem_append_right _ (List.mem_cons_self _ _))
          simp only at hn hm hbefore hafter
          by_cases hlen : qLength (h p).notificationName > qLength n0
          · simp only [hlen, if_true]
            refine ⟨l, p, [], rfl, rfl, hr0, ?_, by simp⟩
            intro x hx hxm
            rw [hl] at hx
            rcases List.mem_append.1 hx with hx | hx
            · exact lt_trans (hbefore x hx hxm) hlen
            · rcases List.mem_cons.1 hx with rfl | hx
              · rw [← hn]; exact hlen
              · exact lt_of_le_of_lt (hafter x hx hxm) hlen
          · simp only [hlen, if_false]
            refine ⟨l1, q, l2 ++ [p], by simp [hl], hn, hm, hbefore, ?_⟩
            intro x hx hxm
            rcases List.mem_append.1 hx with hx | hx
            · exact hafter x hx hxm
            · have hxp : x = p := by simpa using hx
              rw [hxp]
              exact Nat.le_of_not_lt hlen
        · exact hold e (Or.inr he)

theorem detailsInv_foldl (mt : Recipient → Recipient → Bool)
    (hrefl : ∀ a, mt a a = true)
    (hsymm : ∀ a b, mt a b = true → mt b a = true)
    (htrans : ∀ a b c, mt a b = true → mt b c = true → mt a c = true)
    (h : Heap) (l2 : List Ptr) :
    ∀ (l : List Ptr) (D : List (Recipient × QString)), DetailsInv mt h l D →
      DetailsInv mt h (l ++ l2)
        (l2.foldl (fun details pn =>
          mergeDetail mt (h pn).recipient (h pn).notificationName details) D) := by
  induction l2 with
  | nil => intro l D hinv; simpa using hinv
  | cons p l2 ih =>
    intro l D hinv
    have hstep := detailsInv_step mt hrefl hsymm htrans h l D p hinv
    have := ih (l ++ [p]) _ hstep
    simpa using this

theorem contactDetails_inv (env : Env) (g : NotificationGroup) (h : Heap)
    (hrefl : ∀ a, env.recipientMatches a a = true)
    (hsymm : ∀ a b, env.recipientMatches a b = true → env.recipientMatches b a = true)
    (htrans : ∀ a b c, env.recipientMatches a b = true → env.recipientMatches b c = true →
      env.recipientMatches a c = true) :
    DetailsInv env.recipientMatches h g.mNotifications (g.contactDetails env h) := by
  have hinit : DetailsInv env.recipientMatches h [] [] := by
    refine ⟨List.Pairwise.nil, by simp, by simp⟩
  have := detailsInv_foldl env.recipientMatches hrefl hsymm htrans h g.mNotifications [] [] hinit
  simpa [NotificationGroup.contactDetails] using this

/-- C4: when recipient matching is an equivalence relation, `contactNames` is the list
of the notification names of a list `reps` of members with one member for each class of
matching recipients (no two of them match, every member matches one of them), and each
of these members carries a longest name of its class, the first such in the member list:
the matching members before it have strictly shorter names, those after it names that
are not longer. The length of a name is that of `QString::length()`, the number of its
UTF-16 code units (`qLength`). -/
theorem C4_contactNames_longest_name_per_recipient (env : Env) (g : NotificationGroup)
    (h : Heap)
    (hrefl : ∀ a, env.recipientMatches a a = true)
    (hsymm : ∀ a b, env.recipientMatches a b = true → env.recipientMatches b a = true)
    (htrans : ∀ a b c, env.recipientMatches a b = true → env.recipientMatches b c = true →
      env.recipientMatches a c = true) :
    ∃ reps : List Ptr,
      g.contactNames env h = reps.map (fun q => (h q).notificationName)
      ∧ reps.Pairwise
          (fun a b => env.recipientMatches (h a).recipient (h b).recipient = false)
      ∧ (∀ p ∈ g.mNotifications, ∃ q ∈ reps,
          env.recipientMatches (h p).recipient (h q).recipient = true)
      ∧ (∀ q ∈ reps, ∃ l1 l2, g.mNotifications = l1 ++ q :: l2
          ∧ (∀ x ∈ l1, env.recipientMatches (h x).recipient (h q).recipient = true →
              qLength (h x).notificationName < qLength (h q).notificationName)
          ∧ (∀ x ∈ l2, env.recipientMatches (h x).recipient (h q).recipient = true →
              qLength (h x).notificationName ≤ qLength (h q).notificationName)) := by
  obtain ⟨hpw, hcov, hname⟩ := contactDetails_inv env g h hrefl hsymm htrans
  have hex : ∀ e : Recipient × QString, ∃ q : Ptr, e ∈ g.contactDetails env h →
      ∃ l1 l2, g.mNotifications = l1 ++ q :: l2
        ∧ e.2 = (h q).notificationName
        ∧ env.recipientMatches (h q).recipient e.1 = true
        ∧ (∀ x ∈ l1, env.recipientMatches (h x).recipient e.1 = true →
            qLength (h x).notificationName < qLength e.2)
        ∧ (∀ x ∈ l2, env.recipientMatches (h x).recipient e.1 = true →
            qLength (h x).notificationName ≤ qLength e.2) := by
    intro e
    by_cases he : e ∈ g.contactDetails env h
    · obtain ⟨l1, q, l2, hl, hrest⟩ := hname e he
      exact ⟨q, fun _ => ⟨l1, l2, hl, hrest⟩⟩
    · exact ⟨0, fun he2 => absurd he2 he⟩
  choose f hf using hex
  refine ⟨((g.contactDetails env h).map f).reverse, ?_, ?_, ?_, ?_⟩
  · unfold NotificationGroup.contactNames
    rw [← List.map_reverse, List.map_map]
    apply List.map_congr_left
    intro e he
    obtain ⟨l1, l2, _, hn, _⟩ := hf e (List.mem_reverse.1 he)
    simpa using hn
  · rw [List.pairwise_reverse, List.pairwise_map]
    refine List.Pairwise.imp_of_mem ?_ hpw
    intro a b ha hb hab
    obtain ⟨_, _, _, _, hma, _⟩ := hf a ha
    obtain ⟨_, _, _, _, hmb, _⟩ := hf b hb
    cases hm : env.recipientMatches (h (f b)).recipient (h (f a)).recipient with
    | false => rfl
    | true =>
      have h1 : env.recipientMatches a.1 b.1 = true :=
        htrans _ _ _ (hsymm _ _ hma) (htrans _ _ _ (hsymm _ _ hm) hmb)
      rw [hab] at h1
      exact absurd h1 (by simp)
  · intro p hp
    obtain ⟨e, he, hm⟩ := hcov p hp
    obtain ⟨_, _, _, _, hme, _⟩ := hf e he
    exact ⟨f e, List.mem_reverse.2 (List.mem_map.2 ⟨e, he, rfl⟩),
      htrans _ _ _ hm (hsymm _ _ hme)⟩
  · intro q hq
    obtain ⟨e, he, hfe⟩ := List.mem_map.1 (List.mem_reverse.1 hq)
    subst hfe
    obtain ⟨l1, l2, hl, hn, hme, hbefore, hafter⟩ := hf e he
    refine ⟨l1, l2, hl, ?_, ?_⟩
    · intro x hx hxm
      rw [← hn]
      exact hbefore x hx (htrans _ _ _ hxm hme)
    · intro x hx hxm
      rw [← hn]
      exact hafter x hx (htrans _ _ _ hxm hme)

theorem sampleEnv_matches_refl (a : Recipient) : sampleEnv.recipientMatches a a = true := by
  simp [sampleEnv]

theorem sampleEnv_matches_symm (a b : Recipient)
    (hab : sampleEnv.recipientMatches a b = true) : sampleEnv.recipientMatches b a = true := by
  simp only [sampleEnv, Bool.and_eq_true, beq_iff_eq] at hab ⊢
  exact ⟨hab.1.symm, hab.2.symm⟩

theorem sampleEnv_matches_trans (a b c : Recipient)
    (hab : sampleEnv.recipientMatches a b = true)
    (hbc : sampleEnv.recipientMatches b c = true) : sampleEnv.recipientMatches a c = true := by
  simp only [sampleEnv, Bool.and_eq_true, beq_iff_eq] at hab hbc ⊢
  exact ⟨hab.1.trans hbc.1, hab.2.trans hbc.2⟩

/-- Witness for C4: three members, the first and the third with the same recipient; and
two members with the same recipient whose second name has two characters of two UTF-16
code units each, which is longer than the three letters of the first name. -/
theorem C4_contactNames_longest_name_per_recipient_witness :
    NotificationGroup.contactNames sampleEnv
        { NotificationGroup.new EventCollection.Voice "acc" "555" with
          mNotifications := [0, 1, 2] }
        (sampleHeap [sampleMember "acc" "555" "555" "" "" none,
          sampleMember "acc" "777" "Bob" "" "" none,
          sampleMember "acc" "555" "Alice Smith" "" "" none])
      = ["Bob", "Alice Smith"]
    ∧ NotificationGroup.contactNames sampleEnv
        { NotificationGroup.new EventCollection.Voice "acc" "555" with
          mNotifications := [0, 1] }
        (sampleHeap [sampleMember "acc" "555" "abc" "" "" none,
          sampleMember "acc" "555" "😀😀" "" "" none])
      = ["😀😀"]
    ∧ ∃ reps : List Ptr,
      NotificationGroup.contactNames sampleEnv
        { NotificationGroup.new EventCollection.Voice "acc" "555" with
          mNotifications := [0, 1, 2] }
        (sampleHeap [sampleMember "acc" "555" "555" "" "" none,
          sampleMember "acc" "777" "Bob" "" "" none,
          sampleMember "acc" "555" "Alice Smith" "" "" none])
      = reps.map (fun q => ((sampleHeap [sampleMember "acc" "555" "555" "" "" none,
          sampleMember "acc" "777" "Bob" "" "" none,
          sampleMember "acc" "555" "Alice Smith" "" "" none]) q).notificationName) :=
  ⟨by decide, by decide,
   (C4_contactNames_longest_name_per_recipient sampleEnv
      { NotificationGroup.new EventCollection.Voice "acc" "555" with
        mNotifications := [0, 1, 2] }
      (sampleHeap [sampleMember "acc" "555" "555" "" "" none,
        sampleMember "acc" "777" "Bob" "" "" none,
        sampleMember "acc" "555" "Alice Smith" "" "" none])
      sampleEnv_matches_refl sampleEnv_matches_symm sampleEnv_matches_trans).imp
    (fun _ hreps => hreps.1)⟩

/-! ## C5: the name kept for a recipient does not depend on the order of arrival -/

/-- C5, as stated, fails: two members with the same recipient and the names "555-1234"
and "Alice" give a list of contact names without "Alice", in both orders of arrival. -/
theorem C5_contactNames_alice_counterexample :
    "Alice" ∉ NotificationGroup.contactNames sampleEnv
        { NotificationGroup.new EventCollection.Messaging "acc" "555" with
          mNotifications := [0, 1] }
        (sampleHeap [sampleMember "acc" "555" "555-1234" "" "" none,
          sampleMember "acc" "555" "Alice" "" "" none])
    ∧ "Alice" ∉ NotificationGroup.contactNames sampleEnv
        { NotificationGroup.new EventCollection.Messaging "acc" "555" with
          mNotifications := [0, 1] }
        (sampleHeap [sampleMember "acc" "555" "Alice" "" "" none,
          sampleMember "acc" "555" "555-1234" "" "" none])
    ∧ sampleEnv.recipientMatches
        (sampleMember "acc" "555" "555-1234" "" "" none).recipient
        (sampleMember "acc" "555" "Alice" "" "" none).recipient = true := by
  decide

/-- C5, amended: for a group whose two members have matching recipients and the names
"555-1234" and "Alice", `contactNames` is the one-element list of the longer name,
"555-1234", whichever of the two members comes first. -/
theorem C5_contactNames_longer_name_either_order (env : Env) (g : NotificationGroup)
    (h : Heap) (p q : Ptr)
    (hpq : env.recipientMatches (h p).recipient (h q).recipient = true)
    (hqp : env.recipientMatches (h q).recipient (h p).recipient = true)
    (hp : (h p).notificationName = "555-1234") (hq : (h q).notificationName = "Alice") :
    NotificationGroup.contactNames env { g with mNotifications := [p, q] } h = ["555-1234"]
    ∧ NotificationGroup.contactNames env { g with mNotifications := [q, p] } h
        = ["555-1234"] := by
  have h1 : ¬ (qLength "Alice" > qLength "555-1234") := by decide
  have h2 : qLength "555-1234" > qLength "Alice" := by decide
  constructor
  · simp only [NotificationGroup.contactNames, NotificationGroup.contactDetails,
      List.foldl_cons, List.foldl_nil, mergeDetail, hqp, hp, hq, if_true, h1, if_false,
      List.reverse_singleton, List.map_cons, List.map_nil]
  · simp only [NotificationGroup.contactNames, NotificationGroup.contactDetails,
      List.foldl_cons, List.foldl_nil, mergeDetail, hpq, hp, hq, if_true, h2,
      List.reverse_singleton, List.map_cons, List.map_nil]

/-- Witness for the amended C5. -/
theorem C5_contactNames_longer_name_either_order_witness :
    NotificationGroup.contactNames sampleEnv
        { NotificationGroup.new EventCollection.Messaging "acc" "555" with
          mNotifications := [0, 1] }
        (sampleHeap [sampleMember "acc" "555" "555-1234" "" "" none,
          sampleMember "acc" "555" "Alice" "" "" none]) = ["555-1234"]
    ∧ NotificationGroup.contactNames sampleEnv
        { NotificationGroup.new EventCollection.Messaging "acc" "555" with
          mNotifications := [1, 0] }
        (sampleHeap [sampleMember "acc" "555" "555-1234" "" "" none,
          sampleMember "acc" "555" "Alice" "" "" none]) = ["555-1234"] :=
  C5_contactNames_longer_name_either_order sampleEnv
    (NotificationGroup.new EventCollection.Messaging "acc" "555")
    (sampleHeap [sampleMember "acc" "555" "555-1234" "" "" none,
      sampleMember "acc" "555" "Alice" "" "" none]) 0 1
    (by decide) (by decide) (by decide) (by decide)

/-! ## C6: the timestamp of the aggregate -/

theorem timestampGt_irrefl (a : QDateTime) : timestampGt a a = false := by
  cases a <;> simp [timestampGt]

theorem timestampGt_none_right (a : QDateTime) (h : timestampGt a none = false) : a = none := by
  cases a with
  | none => rfl
  | some t => simp [timestampGt] at h

theorem timestampGt_not_of_le_of_gt (q p g : QDateTime) (hq : timestampGt q g = false)
    (hp : timestampGt p g = true) : timestampGt q p = false := by
  cases q <;> cases p <;> cases g <;> simp [timestampGt] at hq hp ⊢
  omega

theorem scanMember_heap_other (env : Env) (st : TimestampScan) (p q : Ptr) (hq : q ≠ p) :
    (scanMember env st p).heap q = st.heap q := by
  unfold scanMember
  by_cases hpend : (st.heap p).hasPendingEvents = true
  · simp [hpend, Heap.set, hq]
  · simp [hpend]

theorem scanMember_groupTimestamp (env : Env) (st : TimestampScan) (p : Ptr) :
    (scanMember env st p).groupTimestamp
      = if st.groupTimestamp.isNone = true
            ∨ timestampGt ((scanMember env st p).heap p).timestamp st.groupTimestamp = true
        then ((scanMember env st p).heap p).timestamp else st.groupTimestamp := by
  unfold scanMember
  by_cases hpend : (st.heap p).hasPendingEvents = true <;> simp [hpend]

theorem scanInv_step (env : Env) (st : TimestampScan) (done : List Ptr) (p : Ptr)
    (hinv : ScanInv st done) (hp : p ∉ done) :
    ScanInv (scanMember env st p) (done ++ [p]) := by
  obtain ⟨hub, hatt⟩ := hinv
  have hheap : ∀ q ∈ done, (scanMember env st p).heap q = st.heap q := by
    intro q hq
    exact scanMember_heap_other env st p q (fun hqp => hp (hqp ▸ hq))
  rw [ScanInv, scanMember_groupTimestamp]
  by_cases hnew : st.groupTimestamp.isNone = true
      ∨ timestampGt ((scanMember env st p).heap p).timestamp st.groupTimestamp = true
  · rw [if_pos hnew]
    refine ⟨?_, Or.inr ⟨p, by simp, rfl⟩⟩
    intro q hq
    rcases List.mem_append.1 hq with hq | hq
    · rw [hheap q hq]
      rcases hnew with hnone | hgt
      · have hg : st.groupTimestamp = none := by simpa using hnone
        have := hub q hq
        rw [hg] at this
        rw [timestampGt_none_right _ this]
        simp [timestampGt]
      · exact timestampGt_not_of_le_of_gt _ _ _ (hub q hq) hgt
    · have hqp : q = p := by simpa using hq
      rw [hqp]
      exact timestampGt_irrefl _
  · rw [if_neg hnew]
    have hnew2 : st.groupTimestamp.isNone ≠ true
        ∧ timestampGt ((scanMember env st p).heap p).timestamp st.groupTimestamp ≠ true :=
      not_or.1 hnew
    refine ⟨?_, ?_⟩
    · intro q hq
      rcases List.mem_append.1 hq with hq | hq
      · rw [hheap q hq]; exact hub q hq
      · have hqp : q = p := by simpa using hq
        rw [hqp]
        simpa using hnew2.2
    · rcases hatt with ⟨_, hnone⟩ | ⟨q, hq, hqt⟩
      · rw [hnone] at hnew2; simp at hnew2
      · exact Or.inr ⟨q, List.mem_append_left _ hq, by rw [hheap q hq]; exact hqt⟩

theorem scanInv_foldl (env : Env) (rest : List Ptr) :
    ∀ (done : List Ptr) (st : TimestampScan), ScanInv st done → (done ++ rest).Nodup →
      ScanInv (rest.foldl (scanMember env) st) (done ++ rest) := by
  induction rest with
  | nil => intro done st hinv _; simpa using hinv
  | cons p rest ih =>
    intro done st hinv hnd
    have hp : p ∉ done := by
      intro hp
      have := List.nodup_append.1 hnd
      exact this.2.2 hp (List.mem_cons_self _ _)
    have hnd2 : ((done ++ [p]) ++ rest).Nodup := by simpa using hnd
    have := ih (done ++ [p]) _ (scanInv_step env st done p hinv hp) hnd2
    simpa using this

theorem scanMembers_inv (env : Env) (h : Heap) (l : List Ptr) (hnd : l.Nodup) :
    ScanInv (scanMembers env h l) l := by
  have hinit : ScanInv { heap := h, groupTimestamp := none, allRestored := true } [] := by
    refine ⟨by simp, Or.inl ⟨rfl, rfl⟩⟩
  have := scanInv_foldl env l [] _ hinit (by simpa using hnd)
  simpa [scanMembers] using this

theorem updateGroup_of_cons (env : Env) (g : NotificationGroup) (w : World) (first : Ptr)
    (rest : List Ptr) (hl : g.mNotifications = first :: rest) :
    ∃ n : Notification, (g.updateGroup env w).1.mGroup = some n
      ∧ n.timestamp = (scanMembers env w.heap g.mNotifications).groupTimestamp
      ∧ (g.updateGroup env w).2.heap = (scanMembers env w.heap g.mNotifications).heap
      ∧ (g.updateGroup env w).2.published.getLast? = some n := by
  unfold NotificationGroup.updateGroup
  rw [hl]
  exact ⟨_, rfl, rfl, rfl, by simp⟩

theorem runGroupOps_nodup (env : Env) (ops : List GroupOp) :
    ∀ s : NotificationGroup × World, s.1.mNotifications.Nodup →
      (runGroupOps env ops s).1.mNotifications.Nodup := by
  induction ops with
  | nil => intro s hs; exact hs
  | cons op ops ih =>
    intro s hs
    rw [runGroupOps_cons]
    apply ih
    cases op with
    | add p =>
      show (s.1.addNotification s.2 p).1.mNotifications.Nodup
      rw [addNotification_members]
      by_cases hp : p ∈ s.1.mNotifications
      · rw [if_pos hp]; exact hs
      · rw [if_neg hp]
        exact List.Nodup.append hs (List.nodup_singleton p) (by simpa using hp)
    | remove p =>
      show (s.1.removeNotification s.2 p).group.mNotifications.Nodup
      rw [removeNotification_members]
      exact hs.erase p
    | update =>
      show (NotificationGroup.updateTimerTimeout env s.1 s.2).1.mNotifications.Nodup
      rw [updateTimerTimeout_members]
      exact hs

/-- C6: in every state of a group reached from the new group by additions, removals and
recomputes, `updateGroup` on a non-empty member list gives (and publishes) an aggregate
whose timestamp is the maximum of the timestamps that the members have after the
recompute, a null timestamp being older than every valid one: no member has a newer
timestamp, some member has exactly this timestamp, it is null only if every member's
timestamp is null, and it is at least every valid timestamp of a member. -/
theorem C6_aggregate_timestamp_is_latest (env : Env) (c : EventCollection)
    (localUid remoteUid : QString) (w0 : World) (ops : List GroupOp)
    (s : NotificationGroup × World)
    (hs : s = runGroupOps env ops (NotificationGroup.new c localUid remoteUid, w0))
    (hne : s.1.mNotifications ≠ []) :
    ∃ n : Notification, (s.1.updateGroup env s.2).1.mGroup = some n
      ∧ (s.1.updateGroup env s.2).2.published.getLast? = some n
      ∧ (∀ p ∈ s.1.mNotifications,
          timestampGt ((s.1.updateGroup env s.2).2.heap p).timestamp n.timestamp = false)
      ∧ (∃ p ∈ s.1.mNotifications,
          ((s.1.updateGroup env s.2).2.heap p).timestamp = n.timestamp)
      ∧ (n.timestamp = none ↔
          ∀ p ∈ s.1.mNotifications, ((s.1.updateGroup env s.2).2.heap p).timestamp = none)
      ∧ (∀ p ∈ s.1.mNotifications, ∀ t : Int,
          ((s.1.updateGroup env s.2).2.heap p).timestamp = some t →
          ∃ T : Int, n.timestamp = some T ∧ t ≤ T) := by
  have hnd : s.1.mNotifications.Nodup := by
    rw [hs]
    exact runGroupOps_nodup env ops _ (by simp [NotificationGroup.new])
  cases hl : s.1.mNotifications with
  | nil => exact absurd hl hne
  | cons first rest =>
    obtain ⟨n, hn, hts, hheap, hpub⟩ := updateGroup_of_cons env s.1 s.2 first rest hl
    obtain ⟨hub, hatt⟩ := scanMembers_inv env s.2.heap s.1.mNotifications hnd
    rw [← hts, ← hheap] at hub hatt
    rw [← hl]
    have hatt2 : ∃ p ∈ s.1.mNotifications,
        ((s.1.updateGroup env s.2).2.heap p).timestamp = n.timestamp := by
      rcases hatt with ⟨hnil, _⟩ | hex
      · exact absurd hnil hne
      · exact hex
    refine ⟨n, hn, hpub, hub, hatt2, ?_, ?_⟩
    · constructor
      · intro hnone p hp
        have := hub p hp
        rw [hnone] at this
        exact timestampGt_none_right _ this
      · intro hall
        obtain ⟨p, hp, hpt⟩ := hatt2
        rw [← hpt]
        exact hall p hp
    · intro p hp t hpt
      have := hub p hp
      rw [hpt] at this
      cases hT : n.timestamp with
      | none => rw [hT] at this; simp [timestampGt] at this
      | some T =>
        rw [hT] at this
        refine ⟨T, rfl, ?_⟩
        simpa [timestampGt] using this

/-- Witness for C6: three missed calls with the timestamps null, 50 and 20. -/
theorem C6_aggregate_timestamp_is_latest_witness :
    ∃ n : Notification,
      ((runGroupOps sampleEnv [GroupOp.add 0, GroupOp.add 1, GroupOp.add 2]
        (NotificationGroup.new EventCollection.Voice "acc" "555",
          sampleWorld [sampleMember "acc" "555" "A" "" "" none,
            sampleMember "acc" "555" "B" "" "" (some 50),
            sampleMember "acc" "555" "C" "" "" (some 20)])).1.updateGroup sampleEnv
        (runGroupOps sampleEnv [GroupOp.add 0, GroupOp.add 1, GroupOp.add 2]
        (NotificationGroup.new EventCollection.Voice "acc" "555",
          sampleWorld [sampleMember "acc" "555" "A" "" "" none,
            sampleMember "acc" "555" "B" "" "" (some 50),
            sampleMember "acc" "555" "C" "" "" (some 20)])).2).1.mGroup = some n
      ∧ n.timestamp = some 50 :=
  (C6_aggregate_timestamp_is_latest sampleEnv EventCollection.Voice "acc" "555"
    (sampleWorld [sampleMember "acc" "555" "A" "" "" none,
      sampleMember "acc" "555" "B" "" "" (some 50),
      sampleMember "acc" "555" "C" "" "" (some 20)])
    [GroupOp.add 0, GroupOp.add 1, GroupOp.add 2] _ rfl (by decide)).imp
    (fun n hn => ⟨hn.1, by
      have h1 := hn.1
      have h2 : ((runGroupOps sampleEnv [GroupOp.add 0, GroupOp.add 1, GroupOp.add 2]
        (NotificationGroup.new EventCollection.Voice "acc" "555",
          sampleWorld [sampleMember "acc" "555" "A" "" "" none,
            sampleMember "acc" "555" "B" "" "" (some 50),
            sampleMember "acc" "555" "C" "" "" (some 20)])).1.updateGroup sampleEnv
        (runGroupOps sampleEnv [GroupOp.add 0, GroupOp.add 1, GroupOp.add 2]
        (NotificationGroup.new EventCollection.Voice "acc" "555",
          sampleWorld [sampleMember "acc" "555" "A" "" "" none,
            sampleMember "acc" "555" "B" "" "" (some 50),
            sampleMember "acc" "555" "C" "" "" (some 20)])).2).1.mGroup.map
          (fun m => m.timestamp) = some (some 50) := by decide
      rw [h1] at h2
      simpa using h2⟩)

/-! ## C10: adding a member twice -/

theorem addNotification_mem (g : NotificationGroup) (w : World) (p : Ptr) :
    p ∈ (g.addNotification w p).1.mNotifications := by
  rw [addNotification_members]
  by_cases hp : p ∈ g.mNotifications
  · rw [if_pos hp]; exact hp
  · rw [if_neg hp]; simp

/-- C10: `addNotification` of a member that is already in the member list returns the
group and the world unchanged (member list, hidden flags, timer, everything); adding a
member a second time gives the state reached by adding it once; and in every state
reached from the new group no member occurs twice in the member list. -/
theorem C10_addNotification_idempotent (env : Env) (g : NotificationGroup) (w : World)
    (p : Ptr) (c : EventCollection) (localUid remoteUid : QString) (w0 : World)
    (ops : List GroupOp) :
    (p ∈ g.mNotifications → g.addNotification w p = (g, w))
    ∧ (g.addNotification w p).1.addNotification (g.addNotification w p).2 p
        = g.addNotification w p
    ∧ (runGroupOps env ops
        (NotificationGroup.new c localUid remoteUid, w0)).1.mNotifications.Nodup := by
  refine ⟨addNotification_of_mem g w p, ?_, ?_⟩
  · exact addNotification_of_mem _ _ p (addNotification_mem g w p)
  · exact runGroupOps_nodup env ops _ (by simp [NotificationGroup.new])

/-- Witness for C10: member 1 is added to a missed-call group that holds 1 and 2. -/
theorem C10_addNotification_idempotent_witness :
    (1 ∈ (runGroupOps sampleEnv [GroupOp.add 1, GroupOp.add 2]
        (NotificationGroup.new EventCollection.Voice "acc" "555",
          sampleWorld [])).1.mNotifications)
    ∧ (runGroupOps sampleEnv [GroupOp.add 1, GroupOp.add 2]
        (NotificationGroup.new EventCollection.Voice "acc" "555",
          sampleWorld [])).1.addNotification
        (runGroupOps sampleEnv [GroupOp.add 1, GroupOp.add 2]
        (NotificationGroup.new EventCollection.Voice "acc" "555", sampleWorld [])).2 1
      = ((runGroupOps sampleEnv [GroupOp.add 1, GroupOp.add 2]
        (NotificationGroup.new EventCollection.Voice "acc" "555", sampleWorld [])).1,
        (runGroupOps sampleEnv [GroupOp.add 1, GroupOp.add 2]
        (NotificationGroup.new EventCollection.Voice "acc" "555", sampleWorld [])).2) :=
  ⟨by decide,
   (C10_addNotification_idempotent sampleEnv
      (runGroupOps sampleEnv [GroupOp.add 1, GroupOp.add 2]
        (NotificationGroup.new EventCollection.Voice "acc" "555", sampleWorld [])).1
      (runGroupOps sampleEnv [GroupOp.add 1, GroupOp.add 2]
        (NotificationGroup.new EventCollection.Voice "acc" "555", sampleWorld [])).2
      1 EventCollection.Voice "acc" "555" (sampleWorld []) []).1 (by decide)⟩

/-! ## C7: an edited event updates its member in place -/

theorem updateEditedEvent_of_carrier (env : Env) (m : NotificationManager) (event : Event)
    (text : QString) (htok : event.messageToken ≠ "") (p : Ptr)
    (hp : (editCandidates env m event).find? (carriesToken m event) = some p) :
    m.updateEditedEvent env event text
      = ({ m with world := setTextAt m.world p text }, true) := by
  unfold NotificationManager.updateEditedEvent
  rw [if_neg htok]
  unfold editCandidates at hp
  rw [List.find?_append] at hp
  cases hpend : m.m_unresolvedNotifications.find? (carriesToken m event) with
  | some q =>
    rw [hpend] at hp
    have hqp : q = p := by simpa using hp
    subst hqp
    have hpend2 : m.m_unresolvedNotifications.find?
        (fun notification => (m.world.heap notification).eventToken == event.messageToken)
          = some q := hpend
    rw [hpend2]
  | none =>
    rw [hpend] at hp
    have hpend2 : m.m_unresolvedNotifications.find?
        (fun notification => (m.world.heap notification).eventToken == event.messageToken)
          = none := hpend
    rw [hpend2]
    simp only [Option.none_or] at hp
    cases hg : groupsValue env m.m_Groups
        (eventGroup (env.collectionOf event.type.toInt) event.firstRecipient) with
    | none => rw [hg] at hp; simp at hp
    | some eventGroup =>
      rw [hg] at hp
      have hp2 : eventGroup.notifications.find?
          (fun pn => (m.world.heap pn).eventToken == event.messageToken) = some p := hp
      simp only [hg, hp2]

theorem updateEditedEvent_of_no_carrier (env : Env) (m : NotificationManager) (event : Event)
    (text : QString)
    (hno : event.messageToken = ""
      ∨ ∀ p ∈ editCandidates env m event, carriesToken m event p = false) :
    m.updateEditedEvent env event text = (m, false) := by
  unfold NotificationManager.updateEditedEvent
  by_cases htok : event.messageToken = ""
  · rw [if_pos htok]
  · rw [if_neg htok]
    have hall : ∀ p ∈ editCandidates env m event, carriesToken m event p = false := by
      rcases hno with h | h
      · exact absurd h htok
      · exact h
    have hpend : m.m_unresolvedNotifications.find?
        (fun notification => (m.world.heap notification).eventToken == event.messageToken)
          = none := by
      rw [List.find?_eq_none]
      intro q hq
      have := hall q (by unfold editCandidates; exact List.mem_append_left _ hq)
      simpa [carriesToken] using this
    rw [hpend]
    cases hg : groupsValue env m.m_Groups
        (eventGroup (env.collectionOf event.type.toInt) event.firstRecipient) with
    | none => simp only [hg]
    | some eventGroup =>
      have hgrp : eventGroup.notifications.find?
          (fun pn => (m.world.heap pn).eventToken == event.messageToken) = none := by
        rw [List.find?_eq_none]
        intro q hq
        have := hall q (by
          unfold editCandidates
          rw [hg]
          exact List.mem_append_right _ hq)
        simpa [carriesToken] using this
      simp only [hg, hgrp]

theorem showNotification_of_carrier (env : Env) (svc : CommHistoryService)
    (m : NotificationManager) (event : Event) (channelTargetId : QString)
    (chatType : ChatType) (details : QString)
    (hvalid : event.isValid = true) (htok : event.messageToken ≠ "")
    (hsup : suppressedAsObserved env svc event channelTargetId chatType = false) (p : Ptr)
    (hp : (editCandidates env m event).find? (carriesToken m event) = some p) :
    m.showNotification env svc event channelTargetId chatType details
      = { m with
          world := setTextAt m.world p (NotificationManager.notificationText env event details) } := by
  have hcond : ¬ ((event.type = EventType.SMSEvent ∨ event.type = EventType.MMSEvent
        ∨ event.type = EventType.IMEvent)
      ∧ (svc.inboxObserved = true
        ∨ NotificationManager.isCurrentlyObservedByUI env svc event channelTargetId chatType
            = true)) := by
    intro hc
    have : suppressedAsObserved env svc event channelTargetId chatType = true := by
      simp only [suppressedAsObserved, Bool.and_eq_true, decide_eq_true_eq, Bool.or_eq_true]
      exact hc
    rw [hsup] at this
    exact absurd this (by simp)
  unfold NotificationManager.showNotification
  rw [if_neg hcond]
  simp only [hvalid, if_true,
    updateEditedEvent_of_carrier env m event _ htok p hp]

/-- C7: for a valid event with a non-empty message token that is not suppressed as
observed, if a pending member or a member of the group stored under the key of the event
carries the token, `showNotification` replaces the text of the first such member (the
pending ones first) by the text computed for the event and changes nothing else: the
other members, the group map, the pending list and the allocation address are as before,
so no member is created. And `updateEditedEvent` returns false and leaves the manager
unchanged when the token is empty or none of these members carries it. -/
theorem C7_edited_event_updates_member_in_place (env : Env) (svc : CommHistoryService)
    (m : NotificationManager) (event : Event) (channelTargetId : QString)
    (chatType : ChatType) (details : QString) :
    (event.isValid = true → event.messageToken ≠ "" →
      suppressedAsObserved env svc event channelTargetId chatType = false →
      (∃ q ∈ editCandidates env m event, carriesToken m event q = true) →
      ∃ p, (editCandidates env m event).find? (carriesToken m event) = some p
        ∧ p ∈ editCandidates env m event
        ∧ carriesToken m event p = true
        ∧ ((∃ q ∈ m.m_unresolvedNotifications, carriesToken m event q = true) →
            p ∈ m.m_unresolvedNotifications)
        ∧ ((m.showNotification env svc event channelTargetId chatType details).world.heap p
            = (m.world.heap p).setNotificationText
                (NotificationManager.notificationText env event details))
        ∧ ((m.showNotification env svc event channelTargetId chatType
              details).world.heap p).notificationText
            = NotificationManager.notificationText env event details
        ∧ (∀ q, q ≠ p →
            (m.showNotification env svc event channelTargetId chatType details).world.heap q
              = m.world.heap q)
        ∧ (m.showNotification env svc event channelTargetId chatType details).m_Groups
            = m.m_Groups
        ∧ (m.showNotification env svc event channelTargetId chatType
              details).m_unresolvedNotifications = m.m_unresolvedNotifications
        ∧ (m.showNotification env svc event channelTargetId chatType details).nextPtr
            = m.nextPtr)
    ∧ (∀ text : QString,
        (event.messageToken = ""
          ∨ ∀ p ∈ editCandidates env m event, carriesToken m event p = false) →
        m.updateEditedEvent env event text = (m, false)) := by
  refine ⟨?_, fun text hno => updateEditedEvent_of_no_carrier env m event text hno⟩
  intro hvalid htok hsup hex
  obtain ⟨q, hq, hqc⟩ := hex
  cases hfind : (editCandidates env m event).find? (carriesToken m event) with
  | none =>
    rw [List.find?_eq_none] at hfind
    exact absurd hqc (hfind q hq)
  | some p =>
    have hshow := showNotification_of_carrier env svc m event channelTargetId chatType
      details hvalid htok hsup p hfind
    rw [hshow]
    refine ⟨p, rfl, List.mem_of_find?_eq_some hfind, List.find?_some hfind, ?_, ?_, ?_, ?_,
      rfl, rfl, rfl⟩
    · rintro ⟨q2, hq2, hq2c⟩
      unfold editCandidates at hfind
      rw [List.find?_append] at hfind
      cases hpend : m.m_unresolvedNotifications.find? (carriesToken m event) with
      | none =>
        rw [List.find?_eq_none] at hpend
        exact absurd hq2c (hpend q2 hq2)
      | some p2 =>
        rw [hpend] at hfind
        have : p2 = p := by simpa using hfind
        rw [← this]
        exact List.mem_of_find?_eq_some hpend
    · simp [setTextAt]
    · simp [setTextAt, PersonalNotification.setNotificationText]
    · intro q2 hq2
      simp [setTextAt, Heap.set, hq2]

/-- Witness for C7: the member with token "t1" of account "acc" and remote party "555"
is in its group; an edit event for "t1" with the text "updated" arrives. -/
theorem C7_edited_event_updates_member_in_place_witness :
    (sampleGroupedManager.m_Groups.map (fun e => e.2.mNotifications) = [[0]])
    ∧ ∃ p, (editCandidates sampleEnv sampleGroupedManager
              (sampleSms "acc" "555" "t1" "updated")).find?
            (carriesToken sampleGroupedManager (sampleSms "acc" "555" "t1" "updated")) = some p
        ∧ p = 0
        ∧ ((sampleGroupedManager.showNotification sampleEnv sampleService
              (sampleSms "acc" "555" "t1" "updated") "" ChatType.ChatTypeP2P
              "").world.heap p).notificationText = "updated"
        ∧ (sampleGroupedManager.showNotification sampleEnv sampleService
              (sampleSms "acc" "555" "t1" "updated") "" ChatType.ChatTypeP2P "").m_Groups
            = sampleGroupedManager.m_Groups :=
  ⟨by decide,
   ((C7_edited_event_updates_member_in_place sampleEnv sampleService sampleGroupedManager
      (sampleSms "acc" "555" "t1" "updated") "" ChatType.ChatTypeP2P "").1
      (by decide) (by decide) (by decide) (by decide)).imp
    (fun p hp => ⟨hp.1,
      Option.some.inj (hp.1.symm.trans (by decide)),
      hp.2.2.2.2.2.1, hp.2.2.2.2.2.2.2.1⟩)⟩

/-! ## C8: removing the notifications of an account -/

theorem HiddenOnly.refl (h : Heap) : HiddenOnly h h := fun _ => rfl

theorem HiddenOnly.trans {h1 h2 h3 : Heap} (h12 : HiddenOnly h1 h2) (h23 : HiddenOnly h2 h3) :
    HiddenOnly h1 h3 := fun q => (h23 q).trans (h12 q)

theorem HiddenOnly.account {h1 h2 : Heap} (hh : HiddenOnly h1 h2) (q : Ptr) :
    (h2 q).account = (h1 q).account := by
  have := congrArg PersonalNotification.account (hh q)
  simpa [PersonalNotification.setHidden] using this

theorem HiddenOnly.eventType {h1 h2 : Heap} (hh : HiddenOnly h1 h2) (q : Ptr) :
    (h2 q).eventType = (h1 q).eventType := by
  have := congrArg PersonalNotification.eventType (hh q)
  simpa [PersonalNotification.setHidden] using this

theorem hiddenOnly_set (h : Heap) (p : Ptr) (b : Bool) :
    HiddenOnly h (h.set p ((h p).setHidden b)) := by
  intro q
  by_cases hq : q = p
  · subst hq; simp [PersonalNotification.setHidden]
  · simp [Heap.set, hq]

theorem removeNotification_hiddenOnly (g : NotificationGroup) (w : World) (p : Ptr) :
    HiddenOnly w.heap (g.removeNotification w p).world.heap := by
  by_cases hcase : p ∈ g.mNotifications
      ∧ (g.m_collection = EventCollection.Voice ∨ g.m_collection = EventCollection.Voicemail)
      ∧ (g.mNotifications.erase p).length = 1
  · obtain ⟨hp, hc, hlen⟩ := hcase
    obtain ⟨f, hf⟩ := List.length_eq_one.1 hlen
    rw [removeNotification_heap_single g w p f hc hp hf]
    exact hiddenOnly_set _ _ _
  · rw [removeNotification_heap_other g w p hcase]
    exact HiddenOnly.refl _

theorem removeNotification_localUid (g : NotificationGroup) (w : World) (p : Ptr) :
    (g.removeNotification w p).group.m_localUid = g.m_localUid := by
  unfold NotificationGroup.removeNotification
  by_cases hp : p ∈ g.mNotifications
  · simp [hp, NotificationGroup.updateGroupLater]
  · simp [hp]

theorem removeSelected_cons (selected : PersonalNotification → Bool) (p : Ptr)
    (members : List Ptr) (g : NotificationGroup) (w : World) :
    removeSelected selected (p :: members) g w
      = if selected (w.heap p) = true then
          removeSelected selected members (g.removeNotification w p).group
            (g.removeNotification w p).world
        else removeSelected selected members g w := by
  unfold removeSelected
  by_cases hs : selected (w.heap p) = true <;> simp [hs]

theorem removeSelected_hiddenOnly (selected : PersonalNotification → Bool)
    (members : List Ptr) :
    ∀ (g : NotificationGroup) (w : World),
      HiddenOnly w.heap (removeSelected selected members g w).2.heap := by
  induction members with
  | nil => intro g w; exact HiddenOnly.refl _
  | cons p members ih =>
    intro g w
    rw [removeSelected_cons]
    by_cases hs : selected (w.heap p) = true
    · rw [if_pos hs]
      exact HiddenOnly.trans (removeNotification_hiddenOnly g w p) (ih _ _)
    · rw [if_neg hs]
      exact ih g w

theorem removeSelected_localUid (selected : PersonalNotification → Bool)
    (members : List Ptr) :
    ∀ (g : NotificationGroup) (w : World),
      (removeSelected selected members g w).1.m_localUid = g.m_localUid := by
  induction members with
  | nil => intro g w; rfl
  | cons p members ih =>
    intro g w
    rw [removeSelected_cons]
    by_cases hs : selected (w.heap p) = true
    · rw [if_pos hs, ih, removeNotification_localUid]
    · rw [if_neg hs]
      exact ih g w

theorem removeSelected_all_members (members : List Ptr) :
    ∀ (g : NotificationGroup) (w : World),
      (removeSelected (fun _ => true) members g w).1.mNotifications
        = members.foldl List.erase g.mNotifications := by
  induction members with
  | nil => intro g w; rfl
  | cons p members ih =>
    intro g w
    rw [removeSelected_cons, if_pos rfl, ih, removeNotification_members]
    rfl

theorem foldl_erase_of_subperm (l : List Ptr) :
    ∀ acc : List Ptr, acc.Subperm l → l.foldl List.erase acc = [] := by
  induction l with
  | nil => intro acc hacc; simpa using hacc
  | cons x l ih =>
    intro acc hacc
    have h1 : (acc.erase x).Subperm l := by
      have := hacc.erase x
      simpa using this
    simpa using ih _ h1

theorem removeSelected_all_empties (g : NotificationGroup) (w : World) :
    (removeSelected (fun _ => true) g.notifications g w).1.mNotifications = [] := by
  rw [removeSelected_all_members]
  exact foldl_erase_of_subperm _ _ (List.Subperm.refl _)

theorem removeFromGroups_hiddenOnly (visited : NotificationGroup → Bool)
    (selected : PersonalNotification → Bool)
    (groups : List (EventGroupProperties × NotificationGroup)) :
    ∀ w : World, HiddenOnly w.heap (removeFromGroups visited selected groups w).2.heap := by
  induction groups with
  | nil => intro w; exact HiddenOnly.refl _
  | cons e groups ih =>
    intro w
    obtain ⟨k, group⟩ := e
    simp only [removeFromGroups]
    by_cases hv : visited group = true
    · simp only [hv, if_true]
      exact HiddenOnly.trans (removeSelected_hiddenOnly selected _ group w) (ih _)
    · simp only [hv]
      exact ih w

theorem removeFromGroups_account_all (accountPath : QString)
    (groups : List (EventGroupProperties × NotificationGroup)) :
    ∀ w : World,
      (∀ e ∈ (removeFromGroups (fun group => decide (group.m_localUid = accountPath))
            (fun _ => true) groups w).1,
          e.2.m_localUid = accountPath → e.2.mNotifications = [])
      ∧ (removeFromGroups (fun group => decide (group.m_localUid = accountPath))
            (fun _ => true) groups w).1.map (fun e => (e.1, e.2.m_localUid))
          = groups.map (fun e => (e.1, e.2.m_localUid))
      ∧ (removeFromGroups (fun group => decide (group.m_localUid = accountPath))
            (fun _ => true) groups w).1.filter
            (fun e => !decide (e.2.m_localUid = accountPath))
          = groups.filter (fun e => !decide (e.2.m_localUid = accountPath)) := by
  induction groups with
  | nil => intro w; simp [removeFromGroups]
  | cons e groups ih =>
    intro w
    obtain ⟨k, group⟩ := e
    by_cases hv : group.m_localUid = accountPath
    · subst hv
      obtain ⟨h1, h2, h3⟩ := ih (removeSelected (fun _ => true) group.notifications group w).2
      simp only [removeFromGroups, decide_True, if_true]
      refine ⟨?_, ?_, ?_⟩
      · intro e he hacc
        rcases List.mem_cons.1 he with rfl | he
        · exact removeSelected_all_empties group w
        · exact h1 e he hacc
      · simp only [List.map_cons, removeSelected_localUid, h2]
      · have hloc : (removeSelected (fun _ => true) group.notifications group w).1.m_localUid
            = group.m_localUid := by rw [removeSelected_localUid]
        simp only [List.filter_cons, hloc, decide_True, Bool.not_true, Bool.false_eq_true,
          if_false, h3]
    · obtain ⟨h1, h2, h3⟩ := ih w
      simp only [removeFromGroups, hv, decide_False, Bool.false_eq_true, if_false]
      refine ⟨?_, ?_, ?_⟩
      · intro e he hacc
        rcases List.mem_cons.1 he with rfl | he
        · exact absurd hacc hv
        · exact h1 e he hacc
      · simp only [List.map_cons, h2]
      · simp only [List.filter_cons, hv, decide_False, Bool.not_false, if_true, h3]

/-- C8: after `removeNotifications(accountPath, [])` every group of the account has an
empty member list and no pending member has the account; the groups are the same groups
under the same keys, the groups of other accounts are unchanged and in the same order,
and the pending list is the old pending list without the entries of the account, the
other entries in their order. -/
theorem C8_removeNotifications_empty_filter (m : NotificationManager)
    (accountPath : QString) :
    (∀ e ∈ (m.removeNotifications accountPath []).m_Groups,
        e.2.m_localUid = accountPath → e.2.mNotifications = [])
    ∧ (∀ p ∈ (m.removeNotifications accountPath []).m_unresolvedNotifications,
        ((m.removeNotifications accountPath []).world.heap p).account ≠ accountPath)
    ∧ (m.removeNotifications accountPath []).m_Groups.map (fun e => (e.1, e.2.m_localUid))
        = m.m_Groups.map (fun e => (e.1, e.2.m_localUid))
    ∧ (m.removeNotifications accountPath []).m_Groups.filter
          (fun e => !decide (e.2.m_localUid = accountPath))
        = m.m_Groups.filter (fun e => !decide (e.2.m_localUid = accountPath))
    ∧ (m.removeNotifications accountPath []).m_unresolvedNotifications
        = m.m_unresolvedNotifications.filter
            (fun p => !decide ((m.world.heap p).account = accountPath)) := by
  have hsel : (fun notification : PersonalNotification =>
      ([] : List Int).isEmpty || ([] : List Int).contains notification.eventType)
        = fun _ => true := by
    funext notification; simp
  obtain ⟨h1, h2, h3⟩ := removeFromGroups_account_all accountPath m.m_Groups m.world
  have hacc := removeFromGroups_hiddenOnly (fun group => decide (group.m_localUid = accountPath))
    (fun _ => true) m.m_Groups m.world
  unfold NotificationManager.removeNotifications
  simp only [hsel]
  refine ⟨h1, ?_, h2, h3, ?_⟩
  · intro p hp
    have := (List.mem_filter.1 hp).2
    simpa using this
  · apply List.filter_congr
    intro p _
    rw [hacc.account p]

/-- Witness for C8: the account "acc" is removed from `sampleBusyManager`. -/
theorem C8_removeNotifications_empty_filter_witness :
    (sampleBusyManager.m_Groups.map (fun e => (e.2.m_localUid, e.2.mNotifications))
        = [("acc", [0]), ("acc", [1]), ("other", [2])])
    ∧ sampleBusyManager.m_unresolvedNotifications = [3, 4]
    ∧ ((sampleBusyManager.removeNotifications "acc" []).m_Groups.map
          (fun e => (e.2.m_localUid, e.2.mNotifications))
        = [("acc", []), ("acc", []), ("other", [2])])
    ∧ (sampleBusyManager.removeNotifications "acc" []).m_unresolvedNotifications = [4]
    ∧ (∀ e ∈ (sampleBusyManager.removeNotifications "acc" []).m_Groups,
        e.2.m_localUid = "acc" → e.2.mNotifications = []) :=
  ⟨by decide, by decide, by decide, by decide,
    (C8_removeNotifications_empty_filter sampleBusyManager "acc").1⟩

/-! ## C9: the members reconstructed at start-up -/

theorem syncRecord_fold_spec (env : Env) (notifications : List Notification) :
    ∀ (m : NotificationManager) (acc : List Ptr),
      (notifications.foldl (syncRecord env) (m, acc)).2
          = acc ++ List.range' m.nextPtr (notifications.filter (restorable env)).length
      ∧ (notifications.foldl (syncRecord env) (m, acc)).1.nextPtr
          = m.nextPtr + (notifications.filter (restorable env)).length
      ∧ (notifications.foldl (syncRecord env) (m, acc)).1.world.closed
          = m.world.closed ++ notifications.filter (fun n => !restorable env n)
      ∧ (notifications.foldl (syncRecord env) (m, acc)).1.m_Groups = m.m_Groups
      ∧ (notifications.foldl (syncRecord env) (m, acc)).1.m_unresolvedNotifications
          = m.m_unresolvedNotifications
      ∧ (∀ q : Nat, q < m.nextPtr →
          (notifications.foldl (syncRecord env) (m, acc)).1.world.heap q = m.world.heap q)
      ∧ (notifications.filter (restorable env)).map env.restore
          = (List.range' m.nextPtr (notifications.filter (restorable env)).length).map
              (fun p => some ((notifications.foldl (syncRecord env) (m, acc)).1.world.heap p)) := by
  induction notifications with
  | nil => intro m acc; simp
  | cons n rest ih =>
    intro m acc
    rw [List.foldl_cons]
    by_cases hnull : (n.hintValue "x-commhistoryd-data").isNull = true
    · have hbad : restorable env n = false := by simp [restorable, hnull]
      have hstep : syncRecord env (m, acc) n
          = ({ m with world := { m.world with closed := m.world.closed ++ [n] } }, acc) := by
        simp [syncRecord, hnull]
      obtain ⟨h1, h2, h3, h4, h5, h6, h7⟩ :=
        ih { m with world := { m.world with closed := m.world.closed ++ [n] } } acc
      rw [hstep]
      simp only [List.filter_cons, hbad, Bool.false_eq_true, if_false, Bool.not_false, if_true]
      exact ⟨h1, h2, by rw [h3]; simp, h4, h5, h6, h7⟩
    · cases hres : env.restore n with
      | none =>
        have hbad : restorable env n = false := by simp [restorable, hres]
        have hstep : syncRecord env (m, acc) n
            = ({ m with world := { m.world with closed := m.world.closed ++ [n] } }, acc) := by
          simp [syncRecord, hnull, hres]
        obtain ⟨h1, h2, h3, h4, h5, h6, h7⟩ :=
          ih { m with world := { m.world with closed := m.world.closed ++ [n] } } acc
        rw [hstep]
        simp only [List.filter_cons, hbad, Bool.false_eq_true, if_false, Bool.not_false, if_true]
        exact ⟨h1, h2, by rw [h3]; simp, h4, h5, h6, h7⟩
      | some restored =>
        have hgood : restorable env n = true := by simp [restorable, hnull, hres]
        have hstep : syncRecord env (m, acc) n
            = ({ m with
                  world := { m.world with heap := m.world.heap.set m.nextPtr restored },
                  nextPtr := m.nextPtr + 1 },
                acc ++ [m.nextPtr]) := by
          simp [syncRecord, hnull, hres]
        obtain ⟨h1, h2, h3, h4, h5, h6, h7⟩ :=
          ih { m with
                world := { m.world with heap := m.world.heap.set m.nextPtr restored },
                nextPtr := m.nextPtr + 1 } (acc ++ [m.nextPtr])
        rw [hstep]
        simp only [List.filter_cons, hgood, if_true, Bool.not_true, Bool.false_eq_true, if_false,
          List.length_cons, List.map_cons, List.range'_succ]
        simp only at h1 h2 h3 h4 h5 h6 h7
        refine ⟨by rw [h1]; simp, by rw [h2]; omega, h3, h4, h5, ?_, ?_⟩
        · intro q hq
          rw [h6 q (by omega)]
          simp [Heap.set, Nat.ne_of_lt hq]
        · rw [h6 m.nextPtr (by omega), hres, h7]
          simp [Heap.set]

theorem addNotification_closed (g : NotificationGroup) (w : World) (p : Ptr) :
    (g.addNotification w p).2.closed = w.closed := by
  unfold NotificationGroup.addNotification
  by_cases hp : p ∈ g.mNotifications
  · simp [hp]
  · by_cases hc : g.m_collection = EventCollection.Voice
        ∨ g.m_collection = EventCollection.Voicemail
    · cases hl : g.mNotifications with
      | nil => simp [hl, hc]
      | cons q l =>
        rw [hl] at hp
        simp [hl, hc, hp]
    · simp [hp, hc]

theorem addToGroups_spec (env : Env) (groupProperties : EventGroupProperties)
    (account remoteUid : QString) (p : Ptr)
    (groups : List (EventGroupProperties × NotificationGroup)) :
    ∀ w : World, p ∉ (groups.map (fun e => e.2.mNotifications)).flatten →
      List.Perm
        (((addToGroups env groupProperties account remoteUid p groups w).1.map
          (fun e => e.2.mNotifications)).flatten)
        (p :: (groups.map (fun e => e.2.mNotifications)).flatten)
      ∧ (addToGroups env groupProperties account remoteUid p groups w).2.closed = w.closed := by
  induction groups with
  | nil =>
    intro w _
    simp [addToGroups, addNotification_members, NotificationGroup.new, addNotification_closed]
  | cons e groups ih =>
    intro w hp
    obtain ⟨k, group⟩ := e
    have hpg : p ∉ group.mNotifications := by
      intro h; exact hp (by simp [h])
    have hprest : p ∉ (groups.map (fun e => e.2.mNotifications)).flatten := by
      intro h
      apply hp
      simp only [List.map_cons, List.flatten_cons, List.mem_append]
      exact Or.inr h
    by_cases hk : k.same env groupProperties = true
    · simp only [addToGroups, hk, if_true, List.map_cons, List.flatten_cons,
        addNotification_members, if_neg hpg, addNotification_closed]
      refine ⟨?_, trivial⟩
      rw [List.append_assoc]
      exact List.perm_middle
    · obtain ⟨h1, h2⟩ := ih w hprest
      simp only [addToGroups, hk, Bool.false_eq_true, if_false, List.map_cons, List.flatten_cons]
      refine ⟨?_, h2⟩
      exact (List.Perm.append_left _ h1).trans List.perm_middle

theorem resolveNotification_spec (env : Env) (m : NotificationManager) (p : Ptr)
    (hp : p ∉ m.allMembers) :
    List.Perm (m.resolveNotification env p).allMembers (p :: m.allMembers)
      ∧ (m.resolveNotification env p).world.closed = m.world.closed
      ∧ (m.resolveNotification env p).nextPtr = m.nextPtr := by
  unfold NotificationManager.allMembers at hp
  have hp1 : p ∉ m.m_unresolvedNotifications := fun h => hp (List.mem_append_left _ h)
  have hp2 : p ∉ (m.m_Groups.map (fun e => e.2.mNotifications)).flatten :=
    fun h => hp (List.mem_append_right _ h)
  unfold NotificationManager.resolveNotification
  by_cases hnow : (m.world.heap p).remoteUid = "<hidden>"
      ∨ (m.world.heap p).chatName ≠ ""
      ∨ (m.world.heap p).recipient.isContactResolved = true
  · rw [if_pos hnow]
    obtain ⟨h1, h2⟩ := addToGroups_spec env
      (eventGroup (m.world.heap p).collection
        (env.mkRecipient (m.world.heap p).account (m.world.heap p).remoteUid))
      (m.world.heap p).account (m.world.heap p).remoteUid p m.m_Groups m.world hp2
    refine ⟨?_, h2, rfl⟩
    simp only [NotificationManager.allMembers, NotificationManager.addNotification]
    exact (List.Perm.append_left _ h1).trans List.perm_middle
  · rw [if_neg hnow]
    refine ⟨?_, rfl, rfl⟩
    simp only [NotificationManager.allMembers]
    rw [List.append_assoc]
    exact List.perm_middle

theorem resolveNotification_fold_spec (env : Env) (ptrs : List Ptr) :
    ∀ m : NotificationManager, ptrs.Nodup → (∀ p ∈ ptrs, p ∉ m.allMembers) →
      List.Perm (ptrs.foldl (fun a p => a.resolveNotification env p) m).allMembers
          (m.allMembers ++ ptrs)
      ∧ (ptrs.foldl (fun a p => a.resolveNotification env p) m).world.closed = m.world.closed
      ∧ (ptrs.foldl (fun a p => a.resolveNotification env p) m).nextPtr = m.nextPtr := by
  induction ptrs with
  | nil => intro m _ _; simp
  | cons p ps ih =>
    intro m hnd hfresh
    obtain ⟨h1, h2, h3⟩ := resolveNotification_spec env m p (hfresh p (List.mem_cons_self _ _))
    have hnd2 := List.nodup_cons.1 hnd
    have hfresh2 : ∀ q ∈ ps, q ∉ (m.resolveNotification env p).allMembers := by
      intro q hq hmem
      rcases List.mem_cons.1 (h1.subset hmem) with hqp | hqm
      · exact hnd2.1 (hqp ▸ hq)
      · exact hfresh q (List.mem_cons_of_mem _ hq) hqm
    obtain ⟨i1, i2, i3⟩ := ih (m.resolveNotification env p) hnd2.2 hfresh2
    rw [List.foldl_cons]
    refine ⟨?_, i2.trans h2, i3.trans h3⟩
    exact i1.trans ((List.Perm.append_right _ h1).trans List.perm_middle.symm)

/-- C9: `syncNotifications` on the stored records `notifications`, from a manager none
of whose members is at or above the allocation address: the records without the data
hint and the records whose restore fails are closed, in their order, and no other record
is; one member object is allocated for each of the other records, holding what `restore`
returned for it; these objects, in the order of their records, are routed through
`resolveNotification`; and afterwards the members owned by the manager (pending or in a
group) are the old ones and each of the new objects exactly once. -/
theorem C9_syncNotifications_restores_records_with_data (env : Env)
    (m : NotificationManager) (notifications : List Notification)
    (hfresh : ∀ p ∈ m.allMembers, p < m.nextPtr) :
    (m.syncNotifications env notifications).world.closed
        = m.world.closed ++ notifications.filter (fun n => !restorable env n)
    ∧ (m.syncNotifications env notifications).nextPtr
        = m.nextPtr + (notifications.filter (restorable env)).length
    ∧ List.Perm (m.syncNotifications env notifications).allMembers
        (m.allMembers ++ List.range' m.nextPtr (notifications.filter (restorable env)).length)
    ∧ (∃ m1 : NotificationManager,
        m.syncNotifications env notifications
          = (List.range' m.nextPtr (notifications.filter (restorable env)).length).foldl
              (fun a p => a.resolveNotification env p) m1
        ∧ m1.m_Groups = m.m_Groups
        ∧ m1.m_unresolvedNotifications = m.m_unresolvedNotifications
        ∧ (notifications.filter (restorable env)).map env.restore
            = (List.range' m.nextPtr (notifications.filter (restorable env)).length).map
                (fun p => some (m1.world.heap p)))
    ∧ (m.allMembers = [] →
        (m.syncNotifications env notifications).allMembers.length
          = (notifications.filter (restorable env)).length) := by
  obtain ⟨h1, h2, h3, h4, h5, _, h7⟩ := syncRecord_fold_spec env notifications m []
  have hsync : m.syncNotifications env notifications
      = (List.range' m.nextPtr (notifications.filter (restorable env)).length).foldl
          (fun a p => a.resolveNotification env p)
          (notifications.foldl (syncRecord env) (m, [])).1 := by
    unfold NotificationManager.syncNotifications
    simp only [h1, List.nil_append]
  have hall : (notifications.foldl (syncRecord env) (m, [])).1.allMembers = m.allMembers := by
    simp only [NotificationManager.allMembers, h4, h5]
  have hnew : ∀ p ∈ List.range' m.nextPtr (notifications.filter (restorable env)).length,
      p ∉ (notifications.foldl (syncRecord env) (m, [])).1.allMembers := by
    intro p hp hmem
    rw [hall] at hmem
    have hlt := hfresh p hmem
    have hge := (List.mem_range'_1.1 hp).1
    exact absurd hlt (Nat.not_lt.2 hge)
  obtain ⟨r1, r2, r3⟩ := resolveNotification_fold_spec env
    (List.range' m.nextPtr (notifications.filter (restorable env)).length)
    (notifications.foldl (syncRecord env) (m, [])).1 (List.nodup_range' _ _) hnew
  rw [hall] at r1
  rw [← hsync] at r1 r2 r3
  refine ⟨r2.trans h3, r3.trans h2, r1, ⟨_, hsync, h4, h5, h7⟩, ?_⟩
  intro hnone
  rw [hnone] at r1
  simpa using r1.length_eq

/-- Witness for C9: a restart with two stored records, one of a member and one of an
aggregate: one member is reconstructed and the other record is closed. -/
theorem C9_syncNotifications_restores_records_with_data_witness :
    ((NotificationManager.new (sampleWorld []) 0).syncNotifications sampleEnv
        [sampleMemberRecord, sampleAggregateRecord]).allMembers = [0]
    ∧ ((NotificationManager.new (sampleWorld []) 0).syncNotifications sampleEnv
        [sampleMemberRecord, sampleAggregateRecord]).world.closed = [sampleAggregateRecord]
    ∧ ((NotificationManager.new (sampleWorld []) 0).syncNotifications sampleEnv
        [sampleMemberRecord, sampleAggregateRecord]).allMembers.length
          = ([sampleMemberRecord, sampleAggregateRecord].filter (restorable sampleEnv)).length
    ∧ ([sampleMemberRecord, sampleAggregateRecord].filter (restorable sampleEnv)).length = 1 :=
  ⟨by decide, by decide,
   (C9_syncNotifications_restores_records_with_data sampleEnv
      (NotificationManager.new (sampleWorld []) 0) [sampleMemberRecord, sampleAggregateRecord]
      (by decide)).2.2.2.2 (by decide),
   by decide⟩

/-! ## C11: the result of removeNotification -/

theorem removeNotification_of_mem (g : NotificationGroup) (w : World) (p : Ptr)
    (hp : p ∈ g.mNotifications) :
    (g.removeNotification w p).removed = true
      ∧ (g.removeNotification w p).reference = none
      ∧ (g.removeNotification w p).group.updateTimerActive = true
      ∧ (g.removeNotification w p).group.mGroup = g.mGroup := by
  simp [NotificationGroup.removeNotification, hp, NotificationGroup.updateGroupLater]

/-- C11: `removeNotification` returns true exactly when the member is in the member
list. Then the new list is the old one without the first (in a reachable state, the
only) occurrence of the member, the others in their order, the caller's reference is
cleared and the recompute is scheduled. Otherwise the group (member list, aggregate and
timer), the world (every hidden flag) and the caller's reference are returned as they
were. -/
theorem C11_removeNotification_returns_membership (g : NotificationGroup) (w : World)
    (p : Ptr) :
    ((g.removeNotification w p).removed = true ↔ p ∈ g.mNotifications)
    ∧ (p ∈ g.mNotifications →
        (g.removeNotification w p).group.mNotifications = g.mNotifications.erase p
        ∧ (∃ l1 l2, g.mNotifications = l1 ++ p :: l2 ∧ p ∉ l1
            ∧ (g.removeNotification w p).group.mNotifications = l1 ++ l2)
        ∧ (g.mNotifications.Nodup → p ∉ (g.removeNotification w p).group.mNotifications)
        ∧ (g.removeNotification w p).reference = none
        ∧ (g.removeNotification w p).group.updateTimerActive = true)
    ∧ (p ∉ g.mNotifications →
        (g.removeNotification w p).group = g
        ∧ (g.removeNotification w p).world = w
        ∧ (g.removeNotification w p).reference = some p) := by
  refine ⟨?_, ?_, ?_⟩
  · constructor
    · intro hr
      by_contra hp
      rw [removeNotification_of_not_mem g w p hp] at hr
      simp at hr
    · intro hp
      exact (removeNotification_of_mem g w p hp).1
  · intro hp
    obtain ⟨_, href, htimer, _⟩ := removeNotification_of_mem g w p hp
    refine ⟨removeNotification_members g w p, ?_, ?_, href, htimer⟩
    · obtain ⟨l1, l2, hnot, hl, herase⟩ := List.exists_erase_eq hp
      exact ⟨l1, l2, hl, hnot, by rw [removeNotification_members, herase]⟩
    · intro hnd
      rw [removeNotification_members]
      exact fun h => (List.Nodup.mem_erase_iff hnd).1 h |>.1 rfl
  · intro hp
    rw [removeNotification_of_not_mem g w p hp]
    exact ⟨rfl, rfl, rfl⟩

/-- Witness for C11: member 1 is removed from the missed-call group holding 1 and 2, and
member 7, which is not in the group, is not. -/
theorem C11_removeNotification_returns_membership_witness :
    (1 ∈ (runGroupOps sampleEnv [GroupOp.add 1, GroupOp.add 2]
        (NotificationGroup.new EventCollection.Voice "acc" "555",
          sampleWorld [])).1.mNotifications)
    ∧ ((runGroupOps sampleEnv [GroupOp.add 1, GroupOp.add 2]
        (NotificationGroup.new EventCollection.Voice "acc" "555",
          sampleWorld [])).1.removeNotification
        (runGroupOps sampleEnv [GroupOp.add 1, GroupOp.add 2]
        (NotificationGroup.new EventCollection.Voice "acc" "555",
          sampleWorld [])).2 1).group.mNotifications = [2]
    ∧ ((runGroupOps sampleEnv [GroupOp.add 1, GroupOp.add 2]
        (NotificationGroup.new EventCollection.Voice "acc" "555",
          sampleWorld [])).1.removeNotification
        (runGroupOps sampleEnv [GroupOp.add 1, GroupOp.add 2]
        (NotificationGroup.new EventCollection.Voice "acc" "555",
          sampleWorld [])).2 1).reference = none
    ∧ ((runGroupOps sampleEnv [GroupOp.add 1, GroupOp.add 2]
        (NotificationGroup.new EventCollection.Voice "acc" "555",
          sampleWorld [])).1.removeNotification
        (runGroupOps sampleEnv [GroupOp.add 1, GroupOp.add 2]
        (NotificationGroup.new EventCollection.Voice "acc" "555",
          sampleWorld [])).2 7).reference = some 7 :=
  ⟨by decide, by decide,
   ((C11_removeNotification_returns_membership
      (runGroupOps sampleEnv [GroupOp.add 1, GroupOp.add 2]
        (NotificationGroup.new EventCollection.Voice "acc" "555", sampleWorld [])).1
      (runGroupOps sampleEnv [GroupOp.add 1, GroupOp.add 2]
        (NotificationGroup.new EventCollection.Voice "acc" "555", sampleWorld [])).2
      1).2.1 (by decide)).2.2.2.1,
   ((C11_removeNotification_returns_membership
      (runGroupOps sampleEnv [GroupOp.add 1, GroupOp.add 2]
        (NotificationGroup.new EventCollection.Voice "acc" "555", sampleWorld [])).1
      (runGroupOps sampleEnv [GroupOp.add 1, GroupOp.add 2]
        (NotificationGroup.new EventCollection.Voice "acc" "555", sampleWorld [])).2
      7).2.2 (by decide)).2.2⟩

/-! ## C12: the platform closes the aggregate -/

theorem removeNotification_released (g : NotificationGroup) (w : World) (p : Ptr)
    (hp : p ∈ g.mNotifications) :
    (g.removeNotification w p).world.released = w.released ++ [p]
      ∧ (g.removeNotification w p).world.closed = w.closed := by
  unfold NotificationGroup.removeNotification
  simp only [List.elem_eq_mem, hp, decide_True, if_true]
  by_cases hc : g.m_collection = EventCollection.Voice
      ∨ g.m_collection = EventCollection.Voicemail
  · by_cases hlen : (g.mNotifications.erase p).length = 1
    · obtain ⟨f, hf⟩ := List.length_eq_one.1 hlen
      simp [hc, hf]
    · simp [hc, hlen]
  · simp [hc]

theorem removeGroupLoop_spec (fuel : Nat) :
    ∀ (g : NotificationGroup) (w : World), g.mNotifications.length ≤ fuel →
      (NotificationGroup.removeGroupLoop fuel g w).1.mNotifications = []
      ∧ (NotificationGroup.removeGroupLoop fuel g w).1.mGroup = g.mGroup
      ∧ (NotificationGroup.removeGroupLoop fuel g w).2.released
          = w.released ++ g.mNotifications
      ∧ (NotificationGroup.removeGroupLoop fuel g w).2.closed = w.closed := by
  induction fuel with
  | zero =>
    intro g w hlen
    have hl : g.mNotifications = [] := List.length_eq_zero.1 (Nat.le_zero.1 hlen)
    simp [NotificationGroup.removeGroupLoop, hl]
  | succ fuel ih =>
    intro g w hlen
    cases hl : g.mNotifications with
    | nil => simp [NotificationGroup.removeGroupLoop, hl]
    | cons first rest =>
      have hmem : first ∈ g.mNotifications := by rw [hl]; exact List.mem_cons_self _ _
      have hmembers : (g.removeNotification w first).group.mNotifications = rest := by
        rw [removeNotification_members, hl]; simp
      have hlen2 : (g.removeNotification w first).group.mNotifications.length ≤ fuel := by
        rw [hmembers]; rw [hl] at hlen; simpa using hlen
      obtain ⟨h1, h2, h3, h4⟩ := ih _ (g.removeNotification w first).world hlen2
      obtain ⟨r1, r2⟩ := removeNotification_released g w first hmem
      simp only [NotificationGroup.removeGroupLoop, hl]
      rw [← hl]
      refine ⟨h1, h2.trans (removeNotification_of_mem g w first hmem).2.2.2, ?_, h4.trans r2⟩
      rw [h3, r1, hmembers, hl]
      simp

theorem removeGroupLoop_fuel (fuel1 : Nat) :
    ∀ (fuel2 : Nat) (g : NotificationGroup) (w : World),
      g.mNotifications.length ≤ fuel1 → g.mNotifications.length ≤ fuel2 →
      NotificationGroup.removeGroupLoop fuel1 g w
        = NotificationGroup.removeGroupLoop fuel2 g w := by
  induction fuel1 with
  | zero =>
    intro fuel2 g w h1 _
    have hl : g.mNotifications = [] := List.length_eq_zero.1 (Nat.le_zero.1 h1)
    cases fuel2 with
    | zero => rfl
    | succ k => simp [NotificationGroup.removeGroupLoop, hl]
  | succ fuel1 ih =>
    intro fuel2 g w h1 h2
    cases hl : g.mNotifications with
    | nil =>
      cases fuel2 with
      | zero => simp [NotificationGroup.removeGroupLoop, hl]
      | succ k => simp [NotificationGroup.removeGroupLoop, hl]
    | cons first rest =>
      rw [hl] at h1 h2
      cases fuel2 with
      | zero => simp at h2
      | succ k =>
        have hmembers : (g.removeNotification w first).group.mNotifications = rest := by
          rw [removeNotification_members, hl]; simp
        simp only [NotificationGroup.removeGroupLoop, hl]
        apply ih
        · rw [hmembers]; simpa using h1
        · rw [hmembers]; simpa using h2

theorem removeGroup_spec (g : NotificationGroup) (w : World) :
    (g.removeGroup w).1.mNotifications = []
      ∧ (g.removeGroup w).1.mGroup = none
      ∧ (g.removeGroup w).2.released = w.released ++ g.mNotifications
      ∧ (g.removeGroup w).2.closed = w.closed ++ g.mGroup.toList := by
  unfold NotificationGroup.removeGroup
  cases hg : g.mGroup with
  | none =>
    obtain ⟨h1, h2, h3, h4⟩ := removeGroupLoop_spec g.mNotifications.length g w (Nat.le_refl _)
    simp only
    exact ⟨h1, h2.trans hg, h3, by simpa using h4⟩
  | some n =>
    obtain ⟨h1, h2, h3, h4⟩ := removeGroupLoop_spec g.mNotifications.length
      { g with mGroup := none } { w with closed := w.closed ++ [n] } (Nat.le_refl _)
    simp only
    exact ⟨h1, h2, h3, by simpa using h4⟩

theorem groupClosed_spec (m : NotificationManager) (i : Nat) (reason : Nat) :
    (m.groupClosed i reason).m_Groups.map Prod.fst = m.m_Groups.map Prod.fst
    ∧ (∀ e, m.m_Groups[i]? = some e →
        (m.groupClosed i reason).m_Groups[i]?
          = some (e.1, (e.2.onClosed m.world reason).1))
    ∧ (∀ j, j ≠ i → (m.groupClosed i reason).m_Groups[j]? = m.m_Groups[j]?) := by
  unfold NotificationManager.groupClosed
  cases he : m.m_Groups[i]? with
  | none => simp
  | some e =>
    have hi : i < m.m_Groups.length := by
      by_contra hge
      rw [List.getElem?_eq_none (Nat.le_of_not_lt hge)] at he
      simp at he
    have hget : m.m_Groups[i] = e := by
      rw [List.getElem?_eq_getElem hi] at he
      exact Option.some.inj he
    refine ⟨?_, ?_, ?_⟩
    · simp only
      apply List.ext_getElem?
      intro j
      by_cases hj : j = i
      · subst hj
        simp [List.getElem?_set, hi, he, hget]
      · simp [List.getElem?_set, Ne.symm hj]
    · intro e2 he2
      have : e2 = e := (Option.some.inj he2).symm
      subst this
      simp [List.getElem?_set, hi]
    · intro j hj
      simp [List.getElem?_set, Ne.symm hj]

/-- C12: the loop of `removeGroup` ends for every member list: run for at least as many
steps as there are members it stops with an empty list, and more steps change nothing.
`onClosed`, for any reason, leaves the group without members and without aggregate,
having released every member and closed the aggregate. Delivered to the group at a
position of the group map it changes that group only: the keys of the map and the other
groups are as before, so the emptied group is still stored under its key. -/
theorem C12_onClosed_empties_group_keeps_registration (g : NotificationGroup) (w : World)
    (reason fuel : Nat) (m : NotificationManager) (i : Nat) :
    (g.mNotifications.length ≤ fuel →
      (NotificationGroup.removeGroupLoop fuel g w).1.mNotifications = []
      ∧ NotificationGroup.removeGroupLoop fuel g w
          = NotificationGroup.removeGroupLoop g.mNotifications.length g w)
    ∧ (g.onClosed w reason).1.mNotifications = []
    ∧ (g.onClosed w reason).1.mGroup = none
    ∧ (g.onClosed w reason).2.released = w.released ++ g.mNotifications
    ∧ (g.onClosed w reason).2.closed = w.closed ++ g.mGroup.toList
    ∧ (m.groupClosed i reason).m_Groups.map Prod.fst = m.m_Groups.map Prod.fst
    ∧ (∀ e, m.m_Groups[i]? = some e →
        (m.groupClosed i reason).m_Groups[i]?
            = some (e.1, (e.2.onClosed m.world reason).1)
        ∧ (e.2.onClosed m.world reason).1.mNotifications = []
        ∧ (e.2.onClosed m.world reason).1.mGroup = none)
    ∧ (∀ j, j ≠ i → (m.groupClosed i reason).m_Groups[j]? = m.m_Groups[j]?) := by
  obtain ⟨h1, h2, h3, h4⟩ := removeGroup_spec g w
  obtain ⟨m1, m2, m3⟩ := groupClosed_spec m i reason
  refine ⟨?_, h1, h2, h3, h4, m1, ?_, m3⟩
  · intro hfuel
    exact ⟨(removeGroupLoop_spec fuel g w hfuel).1,
      removeGroupLoop_fuel fuel _ g w hfuel (Nat.le_refl _)⟩
  · intro e he
    exact ⟨m2 e he, (removeGroup_spec e.2 m.world).1, (removeGroup_spec e.2 m.world).2.1⟩

/-- Witness for C12: the aggregate of the first group of `sampleBusyManager` is closed. -/
theorem C12_onClosed_empties_group_keeps_registration_witness :
    (sampleBusyManager.m_Groups.map (fun e => e.2.mNotifications) = [[0], [1], [2]])
    ∧ ((sampleBusyManager.groupClosed 0 1).m_Groups.map (fun e => e.2.mNotifications)
        = [[], [1], [2]])
    ∧ (sampleBusyManager.groupClosed 0 1).m_Groups.map Prod.fst
        = sampleBusyManager.m_Groups.map Prod.fst
    ∧ (NotificationGroup.removeGroupLoop 5
        { NotificationGroup.new EventCollection.Voice "acc" "555" with
          mNotifications := [0, 1, 2] } (sampleWorld [])).1.mNotifications = [] :=
  ⟨by decide, by decide,
   (C12_onClosed_empties_group_keeps_registration
      { NotificationGroup.new EventCollection.Voice "acc" "555" with
        mNotifications := [0, 1, 2] } (sampleWorld []) 1 5 sampleBusyManager 0).2.2.2.2.2.1,
   ((C12_onClosed_empties_group_keeps_registration
      { NotificationGroup.new EventCollection.Voice "acc" "555" with
        mNotifications := [0, 1, 2] } (sampleWorld []) 1 5 sampleBusyManager 0).1
      (by decide)).1⟩

/-! ## C13: a group without members and its aggregate -/

theorem notification_of_nil (env : Env) (g : NotificationGroup) (w : World)
    (hl : g.mNotifications = []) : g.notification env w = (g, w, g.mGroup) := by
  simp [NotificationGroup.notification, hl]

theorem updateGroup_staleOnly (env : Env) (g : NotificationGroup) (w : World) :
    StaleOnlyWhileScheduled (g.updateGroup env w).1 := by
  intro hl _
  rw [updateGroup_members] at hl
  have h := updateGroup_mGroup env g w
  cases hg : (g.updateGroup env w).1.mGroup with
  | none => rfl
  | some n =>
    rw [hg] at h
    exact absurd hl (h.1 rfl)

theorem groupCall_staleOnly (env : Env) (call : GroupCall) (s : NotificationGroup × World)
    (hinv : StaleOnlyWhileScheduled s.1) : StaleOnlyWhileScheduled (call.apply env s).1 := by
  cases call with
  | add p =>
    show StaleOnlyWhileScheduled (s.1.addNotification s.2 p).1
    by_cases hp : p ∈ s.1.mNotifications
    · rw [addNotification_of_mem s.1 s.2 p hp]; exact hinv
    · intro hl _
      rw [addNotification_members, if_neg hp] at hl
      simp at hl
  | remove p =>
    show StaleOnlyWhileScheduled (s.1.removeNotification s.2 p).group
    by_cases hp : p ∈ s.1.mNotifications
    · intro _ htimer
      rw [(removeNotification_of_mem s.1 s.2 p hp).2.2.1] at htimer
      exact absurd htimer (by simp)
    · rw [removeNotification_of_not_mem s.1 s.2 p hp]; exact hinv
  | updateGroup => exact updateGroup_staleOnly env s.1 s.2
  | timeout => exact updateGroup_staleOnly env _ s.2
  | readout =>
    show StaleOnlyWhileScheduled (s.1.notification env s.2).1
    unfold NotificationGroup.notification
    by_cases hc : s.1.mGroup.isNone = true ∧ s.1.mNotifications.isEmpty = false
    · rw [if_pos hc]; exact updateGroup_staleOnly env s.1 s.2
    · rw [if_neg hc]; exact hinv
  | closed reason =>
    intro _ _
    exact (removeGroup_spec s.1 s.2).2.1

theorem runGroupCalls_staleOnly (env : Env) (calls : List GroupCall) :
    ∀ s : NotificationGroup × World, StaleOnlyWhileScheduled s.1 →
      StaleOnlyWhileScheduled (runGroupCalls env calls s).1 := by
  induction calls with
  | nil => intro s hs; exact hs
  | cons call calls ih =>
    intro s hs
    exact ih _ (groupCall_staleOnly env call s hs)

/-- C13, as stated, fails: after a member was added, the group recomputed and the member
removed again, the member list is empty and `notification()` still returns the
aggregate. -/
theorem C13_empty_group_stale_aggregate_counterexample :
    (runGroupCalls sampleEnv [GroupCall.add 1, GroupCall.updateGroup, GroupCall.remove 1]
        (NotificationGroup.new EventCollection.Voice "acc" "555",
          sampleWorld [])).1.mNotifications = []
    ∧ ((runGroupCalls sampleEnv [GroupCall.add 1, GroupCall.updateGroup, GroupCall.remove 1]
        (NotificationGroup.new EventCollection.Voice "acc" "555",
          sampleWorld [])).1.notification sampleEnv
        (runGroupCalls sampleEnv [GroupCall.add 1, GroupCall.updateGroup, GroupCall.remove 1]
        (NotificationGroup.new EventCollection.Voice "acc" "555",
          sampleWorld [])).2).2.2.isSome = true := by
  decide

/-- C13, amended: in every state reached from a new group by any interleaving of
`addNotification`, `removeNotification`, `updateGroup` (called directly or by the update
timer), `notification()` and `onClosed`, if the member list is empty and the update
timer is not running then `notification()` returns no aggregate handle; and if the
member list is empty then `notification()` returns no aggregate handle once the timer
has run `updateGroup`. -/
theorem C13_empty_group_no_aggregate_when_no_recompute_pending (env : Env)
    (c : EventCollection) (localUid remoteUid : QString) (w0 : World)
    (calls : List GroupCall) (s : NotificationGroup × World)
    (hs : s = runGroupCalls env calls (NotificationGroup.new c localUid remoteUid, w0))
    (hempty : s.1.mNotifications = []) :
    (s.1.updateTimerActive = false → (s.1.notification env s.2).2.2 = none)
    ∧ ((s.1.updateTimerTimeout env s.2).1.notification env
        (s.1.updateTimerTimeout env s.2).2).2.2 = none := by
  have hinv : StaleOnlyWhileScheduled s.1 := by
    rw [hs]
    apply runGroupCalls_staleOnly
    intro _ _
    rfl
  constructor
  · intro htimer
    rw [notification_of_nil env s.1 s.2 hempty]
    exact hinv hempty htimer
  · have hl : (s.1.updateTimerTimeout env s.2).1.mNotifications = [] := by
      rw [updateTimerTimeout_members]; exact hempty
    rw [notification_of_nil env _ _ hl]
    have h := updateTimerTimeout_mGroup env s.1 s.2
    cases hg : (NotificationGroup.updateTimerTimeout env s.1 s.2).1.mGroup with
    | none => rfl
    | some n =>
      rw [hg] at h
      exact absurd hempty (h.1 rfl)

/-- Witness for the amended C13: the state of the counterexample, in which the timer is
running; once it has fired there is no aggregate. -/
theorem C13_empty_group_no_aggregate_when_no_recompute_pending_witness :
    ((runGroupCalls sampleEnv [GroupCall.add 1, GroupCall.updateGroup, GroupCall.remove 1]
        (NotificationGroup.new EventCollection.Voice "acc" "555",
          sampleWorld [])).1.updateTimerActive = true)
    ∧ (((runGroupCalls sampleEnv [GroupCall.add 1, GroupCall.updateGroup, GroupCall.remove 1]
        (NotificationGroup.new EventCollection.Voice "acc" "555",
          sampleWorld [])).1.updateTimerTimeout sampleEnv
        (runGroupCalls sampleEnv [GroupCall.add 1, GroupCall.updateGroup, GroupCall.remove 1]
        (NotificationGroup.new EventCollection.Voice "acc" "555",
          sampleWorld [])).2).1.notification sampleEnv
        ((runGroupCalls sampleEnv [GroupCall.add 1, GroupCall.updateGroup, GroupCall.remove 1]
        (NotificationGroup.new EventCollection.Voice "acc" "555",
          sampleWorld [])).1.updateTimerTimeout sampleEnv
        (runGroupCalls sampleEnv [GroupCall.add 1, GroupCall.updateGroup, GroupCall.remove 1]
        (NotificationGroup.new EventCollection.Voice "acc" "555",
          sampleWorld [])).2).2).2.2 = none :=
  ⟨by decide,
   (C13_empty_group_no_aggregate_when_no_recompute_pending sampleEnv EventCollection.Voice
      "acc" "555" (sampleWorld [])
      [GroupCall.add 1, GroupCall.updateGroup, GroupCall.remove 1] _ rfl (by decide)).2⟩

/-! ## C14: resolveNotification -/

theorem addNotification_uids (g : NotificationGroup) (w : World) (p : Ptr) :
    (g.addNotification w p).1.m_localUid = g.m_localUid
      ∧ (g.addNotification w p).1.m_remoteUid = g.m_remoteUid
      ∧ (g.addNotification w p).1.mGroup = g.mGroup := by
  unfold NotificationGroup.addNotification
  by_cases hp : p ∈ g.mNotifications
  · simp [hp]
  · simp [hp, NotificationGroup.updateGroupLater]

theorem addToGroups_cases (env : Env) (groupProperties : EventGroupProperties)
    (account remoteUid : QString) (p : Ptr)
    (groups : List (EventGroupProperties × NotificationGroup)) (w : World) :
    (groupsValue env groups groupProperties = none
      ∧ addToGroups env groupProperties account remoteUid p groups w
          = (groups ++ [(groupProperties,
                ((NotificationGroup.new groupProperties.collection account
                  remoteUid).addNotification w p).1)],
              ((NotificationGroup.new groupProperties.collection account
                  remoteUid).addNotification w p).2))
    ∨ (∃ l1 k g l2, groups = l1 ++ (k, g) :: l2
        ∧ (∀ e ∈ l1, e.1.same env groupProperties = false)
        ∧ k.same env groupProperties = true
        ∧ groupsValue env groups groupProperties = some g
        ∧ addToGroups env groupProperties account remoteUid p groups w
            = (l1 ++ (k, (g.addNotification w p).1) :: l2, (g.addNotification w p).2)) := by
  induction groups with
  | nil => left; simp [groupsValue, addToGroups]
  | cons e groups ih =>
    obtain ⟨k, g⟩ := e
    by_cases hk : k.same env groupProperties = true
    · right
      exact ⟨[], k, g, groups, rfl, by simp, hk, by simp [groupsValue, hk],
        by simp [addToGroups, hk]⟩
    · have hk2 : k.same env groupProperties = false := by simpa using hk
      rcases ih with ⟨hnone, heq⟩ | ⟨l1, k2, g2, l2, hl, hfirst, hk2same, hval, heq⟩
      · left
        refine ⟨?_, by simp [addToGroups, hk2, heq]⟩
        simp only [groupsValue, List.find?_cons, hk2] at hnone ⊢
        exact hnone
      · right
        refine ⟨(k, g) :: l1, k2, g2, l2, by simp [hl], ?_, hk2same, ?_,
          by simp [addToGroups, hk2, heq]⟩
        · intro e he
          rcases List.mem_cons.1 he with rfl | he
          · exact hk2
          · exact hfirst e he
        · simp only [groupsValue, List.find?_cons, hk2] at hval ⊢
          exact hval

/-- C14: `resolveNotification` of the member `pn` attaches it at once exactly when its
remote uid is "<hidden>", or its chat name is not empty, or its recipient is contact
resolved. Then the pending list and the resolver are untouched and the member is in the
group stored under its key: a new group with this sole member, appended to the map, when
no group is stored under the key, and otherwise the first group under a matching key,
after its `addNotification`. In the other case the member is appended to the pending
list, the resolution of its recipient is requested, and the groups and the world are
unchanged. -/
theorem C14_resolveNotification_attaches_or_defers (env : Env) (m : NotificationManager)
    (pn : Ptr) :
    (((m.world.heap pn).remoteUid = "<hidden>" ∨ (m.world.heap pn).chatName ≠ ""
        ∨ (m.world.heap pn).recipient.isContactResolved = true) →
      (m.resolveNotification env pn).m_unresolvedNotifications = m.m_unresolvedNotifications
      ∧ (m.resolveNotification env pn).resolverQueue = m.resolverQueue
      ∧ (groupsValue env m.m_Groups
            (eventGroup (m.world.heap pn).collection
              (env.mkRecipient (m.world.heap pn).account (m.world.heap pn).remoteUid)) = none →
          ∃ g, (m.resolveNotification env pn).m_Groups
              = m.m_Groups ++ [(eventGroup (m.world.heap pn).collection
                  (env.mkRecipient (m.world.heap pn).account (m.world.heap pn).remoteUid), g)]
            ∧ g.mNotifications = [pn]
            ∧ g.m_collection = (m.world.heap pn).collection
            ∧ g.m_localUid = (m.world.heap pn).account
            ∧ g.m_remoteUid = (m.world.heap pn).remoteUid
            ∧ g.mGroup = none)
      ∧ (∀ g, groupsValue env m.m_Groups
            (eventGroup (m.world.heap pn).collection
              (env.mkRecipient (m.world.heap pn).account (m.world.heap pn).remoteUid))
              = some g →
          ∃ l1 k l2, m.m_Groups = l1 ++ (k, g) :: l2
            ∧ (∀ e ∈ l1, e.1.same env (eventGroup (m.world.heap pn).collection
                (env.mkRecipient (m.world.heap pn).account (m.world.heap pn).remoteUid))
                = false)
            ∧ k.same env (eventGroup (m.world.heap pn).collection
                (env.mkRecipient (m.world.heap pn).account (m.world.heap pn).remoteUid))
                = true
            ∧ (m.resolveNotification env pn).m_Groups
                = l1 ++ (k, (g.addNotification m.world pn).1) :: l2
            ∧ pn ∈ (g.addNotification m.world pn).1.mNotifications))
    ∧ (¬ ((m.world.heap pn).remoteUid = "<hidden>" ∨ (m.world.heap pn).chatName ≠ ""
        ∨ (m.world.heap pn).recipient.isContactResolved = true) →
      (m.resolveNotification env pn).m_unresolvedNotifications
          = m.m_unresolvedNotifications ++ [pn]
      ∧ (m.resolveNotification env pn).resolverQueue
          = m.resolverQueue ++ [(m.world.heap pn).recipient]
      ∧ (m.resolveNotification env pn).m_Groups = m.m_Groups
      ∧ (m.resolveNotification env pn).world = m.world) := by
  constructor
  · intro hnow
    unfold NotificationManager.resolveNotification
    rw [if_pos hnow]
    have hres : (m.addNotification env pn).m_Groups
        = (addToGroups env
            (eventGroup (m.world.heap pn).collection
              (env.mkRecipient (m.world.heap pn).account (m.world.heap pn).remoteUid))
            (m.world.heap pn).account (m.world.heap pn).remoteUid pn m.m_Groups m.world).1 :=
      rfl
    rw [hres]
    refine ⟨rfl, rfl, ?_, ?_⟩
    · intro hnone
      rcases addToGroups_cases env
          (eventGroup (m.world.heap pn).collection
            (env.mkRecipient (m.world.heap pn).account (m.world.heap pn).remoteUid))
          (m.world.heap pn).account (m.world.heap pn).remoteUid pn m.m_Groups m.world with
        ⟨_, heq⟩ | ⟨l1, k, g, l2, _, _, _, hval, _⟩
      · refine ⟨_, by rw [heq], ?_, ?_, ?_, ?_, ?_⟩
        · rw [addNotification_members]; simp [NotificationGroup.new]
        · rw [addNotification_collection]; rfl
        · rw [(addNotification_uids _ _ _).1]; rfl
        · rw [(addNotification_uids _ _ _).2.1]; rfl
        · rw [(addNotification_uids _ _ _).2.2]; rfl
      · rw [hval] at hnone; exact absurd hnone (by simp)
    · intro g hg
      rcases addToGroups_cases env
          (eventGroup (m.world.heap pn).collection
            (env.mkRecipient (m.world.heap pn).account (m.world.heap pn).remoteUid))
          (m.world.heap pn).account (m.world.heap pn).remoteUid pn m.m_Groups m.world with
        ⟨hnone, _⟩ | ⟨l1, k, g2, l2, hl, hfirst, hk, hval, heq⟩
      · rw [hnone] at hg; exact absurd hg (by simp)
      · have hgg : g2 = g := by
          rw [hval] at hg; exact Option.some.inj hg
        subst hgg
        exact ⟨l1, k, l2, hl, hfirst, hk, by rw [heq], addNotification_mem g2 m.world pn⟩
  · intro hlater
    unfold NotificationManager.resolveNotification
    rw [if_neg hlater]
    exact ⟨rfl, rfl, rfl, rfl⟩

/-- Witness for C14: a member with a resolved contact is attached to a new group, a
member with an unresolved one is deferred. -/
theorem C14_resolveNotification_attaches_or_defers_witness :
    (((NotificationManager.new
          (sampleWorld [sampleMember "acc" "555" "Alice" "hi" "t1" none]) 1).resolveNotification
        sampleEnv 0).m_unresolvedNotifications = [])
    ∧ (((NotificationManager.new
          (sampleWorld [sampleMember "acc" "555" "Alice" "hi" "t1" none]) 1).resolveNotification
        sampleEnv 0).m_Groups.map (fun e => e.2.mNotifications) = [[0]])
    ∧ (((NotificationManager.new
          (sampleWorld [sampleEnv.newPersonalNotification "555" "acc" 2 ""
            ChatType.ChatTypeP2P]) 1).resolveNotification
        sampleEnv 0).m_unresolvedNotifications = [] ++ [0])
    ∧ (((NotificationManager.new
          (sampleWorld [sampleEnv.newPersonalNotification "555" "acc" 2 ""
            ChatType.ChatTypeP2P]) 1).resolveNotification
        sampleEnv 0).m_Groups = []) :=
  ⟨((C14_resolveNotification_attaches_or_defers sampleEnv
      (NotificationManager.new
        (sampleWorld [sampleMember "acc" "555" "Alice" "hi" "t1" none]) 1) 0).1
      (by decide)).1,
   by decide,
   ((C14_resolveNotification_attaches_or_defers sampleEnv
      (NotificationManager.new
        (sampleWorld [sampleEnv.newPersonalNotification "555" "acc" 2 ""
          ChatType.ChatTypeP2P]) 1) 0).2 (by decide)).1,
   ((C14_resolveNotification_attaches_or_defers sampleEnv
      (NotificationManager.new
        (sampleWorld [sampleEnv.newPersonalNotification "555" "acc" 2 ""
          ChatType.ChatTypeP2P]) 1) 0).2 (by decide)).2.2.1⟩

/-! ## Removal of the selected members of the groups -/

theorem HiddenBlind.of_hiddenOnly {selected : PersonalNotification → Bool}
    (hsel : HiddenBlind selected) {h1 h2 : Heap} (hh : HiddenOnly h1 h2) (q : Ptr) :
    selected (h2 q) = selected (h1 q) := by
  rw [← hsel (h2 q) false, ← hsel (h1 q) false, hh q]

theorem filter_erase_of_selected (sel : Ptr → Bool) (x : Ptr) (hx : sel x = true) :
    ∀ acc : List Ptr, (acc.erase x).filter sel = (acc.filter sel).erase x := by
  intro acc
  induction acc with
  | nil => simp
  | cons a acc ih =>
    by_cases hax : a = x
    · subst hax
      simp [hx]
    · have hne : (a == x) = false := by simpa using hax
      rw [List.erase_cons_tail (by simpa using hax)]
      by_cases ha : sel a = true
      · simp only [List.filter_cons, ha, if_true]
        rw [List.erase_cons_tail (by simpa using hax), ih]
      · simp only [List.filter_cons, ha, Bool.false_eq_true, if_false]
        exact ih

theorem filter_erase_of_not_selected (sel : Ptr → Bool) (x : Ptr) (hx : sel x = false) :
    ∀ acc : List Ptr, (acc.erase x).filter sel = acc.filter sel := by
  intro acc
  induction acc with
  | nil => simp
  | cons a acc ih =>
    by_cases hax : a = x
    · subst hax
      simp [hx]
    · rw [List.erase_cons_tail (by simpa using hax)]
      by_cases ha : sel a = true
      · simp only [List.filter_cons, ha, if_true, ih]
      · simp only [List.filter_cons, ha, Bool.false_eq_true, if_false]
        exact ih

theorem foldl_erase_selected (sel : Ptr → Bool) (l : List Ptr) :
    ∀ acc : List Ptr, (acc.filter sel).Subperm (l.filter sel) →
      l.foldl (fun acc x => if sel x = true then acc.erase x else acc) acc
        = acc.filter (fun x => !sel x) := by
  induction l with
  | nil =>
    intro acc hacc
    have hnone : acc.filter sel = [] := by simpa using hacc
    have hall : ∀ x ∈ acc, sel x = false := by
      intro x hx
      cases hs : sel x with
      | false => rfl
      | true =>
        have : x ∈ acc.filter sel := List.mem_filter.2 ⟨hx, hs⟩
        rw [hnone] at this
        exact absurd this (List.not_mem_nil _)
    simp only [List.foldl_nil]
    symm
    rw [List.filter_eq_self]
    intro x hx
    simp [hall x hx]
  | cons x l ih =>
    intro acc hacc
    rw [List.foldl_cons]
    by_cases hx : sel x = true
    · rw [if_pos hx]
      have hsub : ((acc.erase x).filter sel).Subperm (l.filter sel) := by
        rw [filter_erase_of_selected sel x hx]
        have := hacc.erase x
        simpa [List.filter_cons, hx] using this
      rw [ih _ hsub]
      exact filter_erase_of_not_selected (fun y => !sel y) x (by simp [hx]) acc
    · rw [if_neg hx]
      apply ih
      simpa [List.filter_cons, hx] using hacc

theorem removeSelected_members (selected : PersonalNotification → Bool)
    (hsel : HiddenBlind selected) (members : List Ptr) :
    ∀ (g : NotificationGroup) (w : World),
      (removeSelected selected members g w).1.mNotifications
        = members.foldl
            (fun acc x => if selected (w.heap x) = true then acc.erase x else acc)
            g.mNotifications := by
  induction members with
  | nil => intro g w; rfl
  | cons p members ih =>
    intro g w
    rw [removeSelected_cons, List.foldl_cons]
    by_cases hs : selected (w.heap p) = true
    · rw [if_pos hs, if_pos hs, ih, removeNotification_members]
      have hfun : (fun (acc : List Ptr) x =>
            if selected ((g.removeNotification w p).world.heap x) = true then acc.erase x
            else acc)
          = fun acc x => if selected (w.heap x) = true then acc.erase x else acc := by
        funext acc x
        rw [hsel.of_hiddenOnly (removeNotification_hiddenOnly g w p) x]
      rw [hfun]
    · rw [if_neg hs, if_neg hs]
      exact ih g w

theorem removeSelected_filter (selected : PersonalNotification → Bool)
    (hsel : HiddenBlind selected) (g : NotificationGroup) (w : World) :
    (removeSelected selected g.notifications g w).1.mNotifications
      = g.mNotifications.filter (fun p => !selected (w.heap p)) := by
  rw [removeSelected_members selected hsel]
  exact foldl_erase_selected (fun p => selected (w.heap p)) g.mNotifications
    g.mNotifications (List.Subperm.refl _)

theorem removeSelected_noop (selected : PersonalNotification → Bool) (members : List Ptr)
    (g : NotificationGroup) (w : World)
    (hnone : ∀ p ∈ members, selected (w.heap p) = false) :
    removeSelected selected members g w = (g, w) := by
  induction members with
  | nil => rfl
  | cons p members ih =>
    rw [removeSelected_cons]
    have hp := hnone p (List.mem_cons_self _ _)
    rw [if_neg (by simp [hp])]
    exact ih (fun q hq => hnone q (List.mem_cons_of_mem _ hq))

theorem removeFromGroups_filter (visited : NotificationGroup → Bool)
    (selected : PersonalNotification → Bool) (hsel : HiddenBlind selected)
    (groups : List (EventGroupProperties × NotificationGroup)) :
    ∀ w : World,
      (removeFromGroups visited selected groups w).1.map (fun e => (e.1, e.2.mNotifications))
        = groups.map (fun e =>
            (e.1, if visited e.2 = true then
                e.2.mNotifications.filter (fun p => !selected (w.heap p))
              else e.2.mNotifications)) := by
  induction groups with
  | nil => intro w; rfl
  | cons e groups ih =>
    intro w
    obtain ⟨k, group⟩ := e
    by_cases hv : visited group = true
    · simp only [removeFromGroups, hv, if_true, List.map_cons]
      rw [ih, removeSelected_filter selected hsel]
      congr 1
      apply List.map_congr_left
      intro e _
      have hfun : (fun p => !selected
            ((removeSelected selected group.notifications group w).2.heap p))
          = fun p => !selected (w.heap p) := by
        funext p
        rw [hsel.of_hiddenOnly (removeSelected_hiddenOnly selected _ group w) p]
      rw [hfun]
    · simp only [removeFromGroups, hv, Bool.false_eq_true, if_false, List.map_cons]
      rw [ih]

theorem removeFromGroups_noop (visited : NotificationGroup → Bool)
    (selected : PersonalNotification → Bool)
    (groups : List (EventGroupProperties × NotificationGroup)) (w : World)
    (hnone : ∀ e ∈ groups, ∀ p ∈ e.2.mNotifications, selected (w.heap p) = false) :
    removeFromGroups visited selected groups w = (groups, w) := by
  induction groups with
  | nil => rfl
  | cons e groups ih =>
    obtain ⟨k, group⟩ := e
    have hg : removeSelected selected group.notifications group w = (group, w) :=
      removeSelected_noop selected _ group w (hnone (k, group) (List.mem_cons_self _ _))
    have hrest := ih (fun e he => hnone e (List.mem_cons_of_mem _ he))
    by_cases hv : visited group = true
    · simp only [removeFromGroups, hv, if_true, hg, hrest]
    · simp only [removeFromGroups, hv, Bool.false_eq_true, if_false, hrest]

/-! ## C16: removal by event type -/

theorem hiddenBlind_types (types : List Int) :
    HiddenBlind (fun notification => types.contains notification.eventType) := by
  intro pn b
  rfl

/-- C16: after `removeNotificationTypes(types)` the groups are the same groups under the
same keys, the member list of each is the old one without the members whose event type
is in `types`, the others in their order; event types are not changed, so no group
contains a member whose event type is in `types`; and when no member of a group has an
event type in `types`, in particular when `types` is empty, the manager is unchanged. -/
theorem C16_removeNotificationTypes_filters_members (m : NotificationManager)
    (types : List Int) :
    (m.removeNotificationTypes types).m_Groups.map (fun e => (e.1, e.2.mNotifications))
        = m.m_Groups.map (fun e =>
            (e.1, e.2.mNotifications.filter
              (fun p => !types.contains (m.world.heap p).eventType)))
    ∧ (∀ q, ((m.removeNotificationTypes types).world.heap q).eventType
        = (m.world.heap q).eventType)
    ∧ (∀ e ∈ (m.removeNotificationTypes types).m_Groups, ∀ p ∈ e.2.mNotifications,
        ((m.removeNotificationTypes types).world.heap p).eventType ∉ types)
    ∧ ((∀ e ∈ m.m_Groups, ∀ p ∈ e.2.mNotifications, (m.world.heap p).eventType ∉ types) →
        m.removeNotificationTypes types = m)
    ∧ m.removeNotificationTypes [] = m := by
  have hmap := removeFromGroups_filter (fun _ => true)
    (fun notification => types.contains notification.eventType) (hiddenBlind_types types)
    m.m_Groups m.world
  simp only [if_true] at hmap
  have hheap := removeFromGroups_hiddenOnly (fun _ => true)
    (fun notification => types.contains notification.eventType) m.m_Groups m.world
  have hnoop : ∀ ts : List Int,
      (∀ e ∈ m.m_Groups, ∀ p ∈ e.2.mNotifications, (m.world.heap p).eventType ∉ ts) →
      m.removeNotificationTypes ts = m := by
    intro ts hnone
    unfold NotificationManager.removeNotificationTypes
    rw [removeFromGroups_noop (fun _ => true)
      (fun notification => ts.contains notification.eventType) m.m_Groups m.world
      (by
        intro e he p hp
        simpa using hnone e he p hp)]
  refine ⟨hmap, fun q => hheap.eventType q, ?_, hnoop types, hnoop [] (by simp)⟩
  intro e he p hp
  have hmem : (e.1, e.2.mNotifications)
      ∈ (m.removeNotificationTypes types).m_Groups.map (fun e => (e.1, e.2.mNotifications)) :=
    List.mem_map.2 ⟨e, he, rfl⟩
  have hmap2 : (m.removeNotificationTypes types).m_Groups.map
        (fun e => (e.1, e.2.mNotifications))
      = m.m_Groups.map (fun e =>
          (e.1, e.2.mNotifications.filter
            (fun p => !types.contains (m.world.heap p).eventType))) := hmap
  rw [hmap2] at hmem
  obtain ⟨e0, _, he0⟩ := List.mem_map.1 hmem
  have hlist : e0.2.mNotifications.filter
      (fun p => !types.contains (m.world.heap p).eventType) = e.2.mNotifications :=
    congrArg Prod.snd he0
  rw [← hlist] at hp
  have hsel := (List.mem_filter.1 hp).2
  have htype : ((m.removeNotificationTypes types).world.heap p).eventType
      = (m.world.heap p).eventType := hheap.eventType p
  rw [htype]
  simpa using hsel

/-- Witness for C16: the message types are removed from `sampleBusyManager`, whose
members are all messages, and the call type, which no member has. -/
theorem C16_removeNotificationTypes_filters_members_witness :
    ((sampleBusyManager.removeNotificationTypes [1, 2, 6]).m_Groups.map
        (fun e => e.2.mNotifications) = [[], [], []])
    ∧ (sampleBusyManager.removeNotificationTypes [3]).m_Groups = sampleBusyManager.m_Groups :=
  ⟨by decide,
   congrArg NotificationManager.m_Groups
    ((C16_removeNotificationTypes_filters_members sampleBusyManager [3]).2.2.2.1
      (by decide))⟩

/-! ## C17: removal of the notifications of a conversation -/

theorem conversation_selected_eq (env : Env) (recipient : Recipient) (chatType : ChatType) :
    (fun notification : PersonalNotification =>
      if notification.collection ≠ EventCollection.Messaging
          ∨ notification.chatType ≠ chatType then false
      else if chatType = ChatType.ChatTypeP2P then
        env.recipientMatches recipient notification.recipient
      else
        env.recipientMatches recipient
          (env.mkRecipient notification.account notification.targetId))
      = inConversation env recipient chatType := by
  funext pn
  unfold inConversation
  by_cases hc : pn.collection = EventCollection.Messaging
  · by_cases ht : pn.chatType = chatType
    · simp [hc, ht]
    · simp [hc, ht]
  · simp [hc]

theorem hiddenBlind_inConversation (env : Env) (recipient : Recipient) (chatType : ChatType) :
    HiddenBlind (inConversation env recipient chatType) := by
  intro pn b
  rfl

theorem removeConversationNotifications_eq (env : Env) (m : NotificationManager)
    (recipient : Recipient) (chatType : ChatType) :
    m.removeConversationNotifications env recipient chatType
      = { m with
          m_Groups := (removeFromGroups (fun _ => true)
            (inConversation env recipient chatType) m.m_Groups m.world).1,
          world := (removeFromGroups (fun _ => true)
            (inConversation env recipient chatType) m.m_Groups m.world).2 } := by
  unfold NotificationManager.removeConversationNotifications
  rw [conversation_selected_eq]

/-- C17: after `removeConversationNotifications(recipient, chatType)` the groups are the
same groups under the same keys and the member list of each is the old one without the
members of the conversation (Messaging, the given chat type, identity matching the
recipient), the others in their order: a member that is not Messaging, or has another
chat type, or whose identity does not match, stays in its group. The pending list is
not touched. -/
theorem C17_removeConversationNotifications_removes_conversation (env : Env)
    (m : NotificationManager) (recipient : Recipient) (chatType : ChatType) :
    (m.removeConversationNotifications env recipient chatType).m_Groups.map
          (fun e => (e.1, e.2.mNotifications))
        = m.m_Groups.map (fun e =>
            (e.1, e.2.mNotifications.filter
              (fun p => !inConversation env recipient chatType (m.world.heap p))))
    ∧ (∀ pn : PersonalNotification,
        (pn.collection ≠ EventCollection.Messaging ∨ pn.chatType ≠ chatType) →
        inConversation env recipient chatType pn = false)
    ∧ (∀ pn : PersonalNotification, pn.collection = EventCollection.Messaging →
        pn.chatType = chatType →
        inConversation env recipient chatType pn
          = if chatType = ChatType.ChatTypeP2P then
              env.recipientMatches recipient pn.recipient
            else env.recipientMatches recipient (env.mkRecipient pn.account pn.targetId))
    ∧ (m.removeConversationNotifications env recipient chatType).m_unresolvedNotifications
        = m.m_unresolvedNotifications := by
  have hmap := removeFromGroups_filter (fun _ => true)
    (inConversation env recipient chatType)
    (hiddenBlind_inConversation env recipient chatType) m.m_Groups m.world
  simp only [if_true] at hmap
  rw [removeConversationNotifications_eq]
  refine ⟨hmap, ?_, ?_, rfl⟩
  · intro pn hpn
    unfold inConversation
    rcases hpn with h | h
    · simp [h]
    · simp [h]
  · intro pn hc ht
    simp [inConversation, hc, ht]

/-- Witness for C17: the conversation with "555" on "acc" is removed from
`sampleBusyManager`; a missed call from "555" is not in the conversation. -/
theorem C17_removeConversationNotifications_removes_conversation_witness :
    ((sampleBusyManager.removeConversationNotifications sampleEnv
          { localUid := "acc", remoteUid := "555", contactResolved := true }
          ChatType.ChatTypeP2P).m_Groups.map (fun e => e.2.mNotifications) = [[], [1], [2]])
    ∧ (sampleMember "acc" "555" "Alice" "" "" none).collection ≠ EventCollection.Messaging
    ∧ inConversation sampleEnv
        { localUid := "acc", remoteUid := "555", contactResolved := true }
        ChatType.ChatTypeP2P (sampleMember "acc" "555" "Alice" "" "" none) = false :=
  ⟨by decide, by decide,
   (C17_removeConversationNotifications_removes_conversation sampleEnv sampleBusyManager
      { localUid := "acc", remoteUid := "555", contactResolved := true }
      ChatType.ChatTypeP2P).2.1 (sampleMember "acc" "555" "Alice" "" "" none)
      (Or.inl (by decide))⟩

/-! ## C18: removal of the notifications of an account, with a type filter -/

theorem hiddenBlind_filter (removeTypes : List Int) :
    HiddenBlind
      (fun notification => removeTypes.isEmpty || removeTypes.contains notification.eventType) := by
  intro pn b
  rfl

/-- In the groups `removeNotifications` respects the filter: a group of another account
keeps its members, a group of the account keeps exactly the members whose event type is
not selected by the filter, in their order. -/
theorem removeNotifications_groups (m : NotificationManager) (accountPath : QString)
    (removeTypes : List Int) :
    (m.removeNotifications accountPath removeTypes).m_Groups.map
        (fun e => (e.1, e.2.mNotifications))
      = m.m_Groups.map (fun e =>
          (e.1, if decide (e.2.m_localUid = accountPath) = true then
              e.2.mNotifications.filter
                (fun p => !(removeTypes.isEmpty
                  || removeTypes.contains (m.world.heap p).eventType))
            else e.2.mNotifications)) := by
  exact removeFromGroups_filter (fun group => decide (group.m_localUid = accountPath))
    (fun notification => removeTypes.isEmpty || removeTypes.contains notification.eventType)
    (hiddenBlind_filter removeTypes) m.m_Groups m.world

/-- C18 at a failing input: a missed call of account "acc" waits for the resolution of
its contact; `removeNotifications("acc", [IM, SMS, MMS, voicemail SMS])`, the call made by
`slotInboxObservedChanged` for a filtered inbox, deletes this pending member although the
event type of a call is not in the filter. -/
theorem C18_removeNotifications_purges_pending_outside_filter :
    samplePendingCallManager.m_unresolvedNotifications = [0]
    ∧ (samplePendingCallManager.world.heap 0).eventType = EventType.CallEvent.toInt
    ∧ (samplePendingCallManager.world.heap 0).account = "acc"
    ∧ EventType.CallEvent.toInt ∉
        [EventType.IMEvent.toInt, EventType.SMSEvent.toInt, EventType.MMSEvent.toInt,
          sampleEnv.consts.VOICEMAIL_SMS_EVENT_TYPE]
    ∧ (samplePendingCallManager.removeNotifications "acc"
        [EventType.IMEvent.toInt, EventType.SMSEvent.toInt, EventType.MMSEvent.toInt,
          sampleEnv.consts.VOICEMAIL_SMS_EVENT_TYPE]).m_unresolvedNotifications = []
    ∧ (samplePendingCallManager.removeNotifications "acc"
        [EventType.IMEvent.toInt, EventType.SMSEvent.toInt, EventType.MMSEvent.toInt,
          sampleEnv.consts.VOICEMAIL_SMS_EVENT_TYPE]).deleted = [0]
    ∧ (NotificationManager.slotInboxObservedChanged sampleEnv sampleFilteredInboxService
        samplePendingCallManager).m_unresolvedNotifications = [] := by
  decide

/-! ## C15: every member has one owner -/

theorem flatten_map_sublist {α : Type} (groups : List α) (f g : α → List Ptr)
    (h : ∀ e ∈ groups, (f e).Sublist (g e)) :
    (groups.map f).flatten.Sublist (groups.map g).flatten := by
  induction groups with
  | nil => simp
  | cons e groups ih =>
    simp only [List.map_cons, List.flatten_cons]
    exact List.Sublist.append (h e (List.mem_cons_self _ _))
      (ih (fun e2 he2 => h e2 (List.mem_cons_of_mem _ he2)))

theorem removeFromGroups_sublist (visited : NotificationGroup → Bool)
    (selected : PersonalNotification → Bool) (hsel : HiddenBlind selected)
    (groups : List (EventGroupProperties × NotificationGroup)) (w : World) :
    (groupedMembers (removeFromGroups visited selected groups w).1).Sublist
      (groupedMembers groups) := by
  have hmap := congrArg (List.map Prod.snd)
    (removeFromGroups_filter visited selected hsel groups w)
  simp only [List.map_map] at hmap
  have hmap2 : (removeFromGroups visited selected groups w).1.map
        (fun e => e.2.mNotifications)
      = groups.map (fun e => if visited e.2 = true then
            e.2.mNotifications.filter (fun p => !selected (w.heap p))
          else e.2.mNotifications) := hmap
  unfold groupedMembers
  rw [hmap2]
  apply flatten_map_sublist
  intro e _
  by_cases hv : visited e.2 = true
  · rw [if_pos hv]; exact List.filter_sublist _
  · rw [if_neg hv]

theorem ownedOnce_of_sublist (m m2 : NotificationManager)
    (hsub : m2.allMembers.Sublist m.allMembers) (hnext : m2.nextPtr = m.nextPtr)
    (hinv : OwnedOnce m) : OwnedOnce m2 := by
  refine ⟨hinv.1.sublist hsub, ?_⟩
  intro p hp
  rw [hnext]
  exact hinv.2 p (hsub.subset hp)

theorem ownedOnce_of_perm_cons (m m2 : NotificationManager)
    (hperm : List.Perm m2.allMembers (m.nextPtr :: m.allMembers))
    (hnext : m2.nextPtr = m.nextPtr + 1) (hinv : OwnedOnce m) : OwnedOnce m2 := by
  have hfresh : m.nextPtr ∉ m.allMembers := fun h => Nat.lt_irrefl _ (hinv.2 _ h)
  refine ⟨hperm.nodup_iff.2 (List.nodup_cons.2 ⟨hfresh, hinv.1⟩), ?_⟩
  intro p hp
  rw [hnext]
  rcases List.mem_cons.1 (hperm.subset hp) with h | h
  · rw [h]; exact Nat.lt_succ_self _
  · exact Nat.lt_succ_of_lt (hinv.2 p h)

theorem removeNotifications_ownedOnce (m : NotificationManager) (accountPath : QString)
    (removeTypes : List Int) (hinv : OwnedOnce m) :
    OwnedOnce (m.removeNotifications accountPath removeTypes) := by
  refine ownedOnce_of_sublist m (m.removeNotifications accountPath removeTypes) ?_ rfl hinv
  unfold NotificationManager.allMembers NotificationManager.removeNotifications
  exact List.Sublist.append (List.filter_sublist _)
    (removeFromGroups_sublist _ _ (hiddenBlind_filter removeTypes) m.m_Groups m.world)

theorem removeNotificationTypes_ownedOnce (m : NotificationManager) (types : List Int)
    (hinv : OwnedOnce m) : OwnedOnce (m.removeNotificationTypes types) := by
  refine ownedOnce_of_sublist m (m.removeNotificationTypes types) ?_ rfl hinv
  unfold NotificationManager.allMembers NotificationManager.removeNotificationTypes
  exact List.Sublist.append (List.Sublist.refl _)
    (removeFromGroups_sublist _ _ (hiddenBlind_types types) m.m_Groups m.world)

theorem removeConversationNotifications_ownedOnce (env : Env) (m : NotificationManager)
    (recipient : Recipient) (chatType : ChatType) (hinv : OwnedOnce m) :
    OwnedOnce (m.removeConversationNotifications env recipient chatType) := by
  refine ownedOnce_of_sublist m (m.removeConversationNotifications env recipient chatType)
    ?_ (by rw [removeConversationNotifications_eq]) hinv
  rw [removeConversationNotifications_eq]
  unfold NotificationManager.allMembers
  exact List.Sublist.append (List.Sublist.refl _)
    (removeFromGroups_sublist _ _ (hiddenBlind_inConversation env recipient chatType)
      m.m_Groups m.world)

theorem updateEditedEvent_cases (env : Env) (m : NotificationManager) (event : Event)
    (text : QString) :
    (∃ p, m.updateEditedEvent env event text
        = ({ m with world := setTextAt m.world p text }, true))
    ∨ m.updateEditedEvent env event text = (m, false) := by
  by_cases htok : event.messageToken = ""
  · exact Or.inr (updateEditedEvent_of_no_carrier env m event text (Or.inl htok))
  · cases hfind : (editCandidates env m event).find? (carriesToken m event) with
    | some p => exact Or.inl ⟨p, updateEditedEvent_of_carrier env m event text htok p hfind⟩
    | none =>
      right
      apply updateEditedEvent_of_no_carrier env m event text
      right
      intro p hp
      have := List.find?_eq_none.1 hfind p hp
      simpa using this

theorem resolveNew_members (env : Env) (m : NotificationManager)
    (data : PersonalNotification) (hfresh : m.nextPtr ∉ m.allMembers) :
    List.Perm (m.resolveNew env data).allMembers (m.nextPtr :: m.allMembers)
      ∧ (m.resolveNew env data).nextPtr = m.nextPtr + 1 := by
  have h := resolveNotification_spec env
    { m with
      world := { m.world with heap := m.world.heap.set m.nextPtr data },
      nextPtr := m.nextPtr + 1 } m.nextPtr hfresh
  exact ⟨h.1, h.2.2⟩

theorem showNotification_members (env : Env) (svc : CommHistoryService)
    (m : NotificationManager) (event : Event) (channelTargetId : QString)
    (chatType : ChatType) (details : QString) (hfresh : m.nextPtr ∉ m.allMembers) :
    ((m.showNotification env svc event channelTargetId chatType details).allMembers
          = m.allMembers
        ∧ (m.showNotification env svc event channelTargetId chatType details).nextPtr
          = m.nextPtr)
    ∨ (List.Perm (m.showNotification env svc event channelTargetId chatType details).allMembers
          (m.nextPtr :: m.allMembers)
        ∧ (m.showNotification env svc event channelTargetId chatType details).nextPtr
          = m.nextPtr + 1) := by
  unfold NotificationManager.showNotification
  by_cases hcond : (event.type = EventType.SMSEvent ∨ event.type = EventType.MMSEvent
        ∨ event.type = EventType.IMEvent)
      ∧ (svc.inboxObserved = true
        ∨ NotificationManager.isCurrentlyObservedByUI env svc event channelTargetId chatType
            = true)
  · rw [if_pos hcond]
    left
    by_cases hconn : m.ngfConnected = false <;> by_cases hev : m.m_ngfEvent = 0 <;>
      simp [hconn, hev, NotificationManager.allMembers]
  · rw [if_neg hcond]
    have hed : ∀ text : QString,
        (if event.isValid = true then m.updateEditedEvent env event text else (m, false))
          = (m, false)
        ∨ ∃ p, (if event.isValid = true then m.updateEditedEvent env event text
            else (m, false)) = ({ m with world := setTextAt m.world p text }, true) := by
      intro text
      by_cases hvalid : event.isValid = true
      · rw [if_pos hvalid]
        rcases updateEditedEvent_cases env m event text with ⟨p, hp⟩ | hno
        · exact Or.inr ⟨p, hp⟩
        · exact Or.inl hno
      · rw [if_neg hvalid]
        exact Or.inl rfl
    rcases hed (NotificationManager.notificationText env event details) with hno | ⟨p, hp⟩
    · right
      simp only [hno, Bool.false_eq_true, if_false]
      exact resolveNew_members env m _ hfresh
    · left
      simp [hp, NotificationManager.allMembers]

theorem showNotification_ownedOnce (env : Env) (svc : CommHistoryService)
    (m : NotificationManager) (event : Event) (channelTargetId : QString)
    (chatType : ChatType) (details : QString) (hinv : OwnedOnce m) :
    OwnedOnce (m.showNotification env svc event channelTargetId chatType details) := by
  have hfresh : m.nextPtr ∉ m.allMembers := fun h => Nat.lt_irrefl _ (hinv.2 _ h)
  rcases showNotification_members env svc m event channelTargetId chatType details hfresh with
    ⟨h1, h2⟩ | ⟨h1, h2⟩
  · exact ownedOnce_of_sublist m _ (by rw [h1]) h2 hinv
  · exact ownedOnce_of_perm_cons m _ h1 h2 hinv

theorem resolveNew_ownedOnce (env : Env) (m : NotificationManager)
    (data : PersonalNotification) (hinv : OwnedOnce m) : OwnedOnce (m.resolveNew env data) := by
  have hfresh : m.nextPtr ∉ m.allMembers := fun h => Nat.lt_irrefl _ (hinv.2 _ h)
  have h := resolveNew_members env m data hfresh
  exact ownedOnce_of_perm_cons m (m.resolveNew env data) h.1 h.2 hinv

theorem syncNotifications_members (env : Env) (m : NotificationManager)
    (notifications : List Notification) (hfresh : ∀ p ∈ m.allMembers, p < m.nextPtr) :
    List.Perm (m.syncNotifications env notifications).allMembers
        (m.allMembers ++ List.range' m.nextPtr (notifications.filter (restorable env)).length)
      ∧ (m.syncNotifications env notifications).nextPtr
        = m.nextPtr + (notifications.filter (restorable env)).length := by
  obtain ⟨h1, h2, _, h4, h5, _, _⟩ := syncRecord_fold_spec env notifications m []
  have hsync : m.syncNotifications env notifications
      = (List.range' m.nextPtr (notifications.filter (restorable env)).length).foldl
          (fun a p => a.resolveNotification env p)
          (notifications.foldl (syncRecord env) (m, [])).1 := by
    unfold NotificationManager.syncNotifications
    simp only [h1, List.nil_append]
  have hall : (notifications.foldl (syncRecord env) (m, [])).1.allMembers = m.allMembers := by
    simp only [NotificationManager.allMembers, h4, h5]
  have hnew : ∀ p ∈ List.range' m.nextPtr (notifications.filter (restorable env)).length,
      p ∉ (notifications.foldl (syncRecord env) (m, [])).1.allMembers := by
    intro p hp hmem
    rw [hall] at hmem
    exact absurd (hfresh p hmem) (Nat.not_lt.2 (List.mem_range'_1.1 hp).1)
  obtain ⟨r1, _, r3⟩ := resolveNotification_fold_spec env
    (List.range' m.nextPtr (notifications.filter (restorable env)).length)
    (notifications.foldl (syncRecord env) (m, [])).1 (List.nodup_range' _ _) hnew
  rw [hall] at r1
  rw [← hsync] at r1 r3
  exact ⟨r1, r3.trans h2⟩

theorem syncNotifications_ownedOnce (env : Env) (m : NotificationManager)
    (notifications : List Notification) (hinv : OwnedOnce m) :
    OwnedOnce (m.syncNotifications env notifications) := by
  obtain ⟨hperm, hnext⟩ := syncNotifications_members env m notifications hinv.2
  refine ⟨hperm.nodup_iff.2 ?_, ?_⟩
  · refine List.Nodup.append hinv.1 (List.nodup_range' _ _) ?_
    intro p hp hr
    exact absurd (hinv.2 p hp) (Nat.not_lt.2 (List.mem_range'_1.1 hr).1)
  · intro p hp
    rw [hnext]
    rcases List.mem_append.1 (hperm.subset hp) with h | h
    · exact Nat.lt_of_lt_of_le (hinv.2 p h) (Nat.le_add_right _ _)
    · have := (List.mem_range'_1.1 h).2
      exact this

theorem resolveFinished_fold_spec (env : Env) (ps : List Ptr) :
    ∀ st : NotificationManager, ps.Nodup → (∀ p ∈ ps, p ∉ groupedMembers st.m_Groups) →
      List.Perm
        (groupedMembers (ps.foldl
          (fun (st : NotificationManager) notification =>
            NotificationManager.addNotification env
              { st with
                world := { st.world with
                  heap := st.world.heap.set notification
                    (env.updateRecipientData (st.world.heap notification)) } }
              notification) st).m_Groups)
        (groupedMembers st.m_Groups ++ ps)
      ∧ (ps.foldl
          (fun (st : NotificationManager) notification =>
            NotificationManager.addNotification env
              { st with
                world := { st.world with
                  heap := st.world.heap.set notification
                    (env.updateRecipientData (st.world.heap notification)) } }
              notification) st).nextPtr = st.nextPtr := by
  induction ps with
  | nil => intro st _ _; simp
  | cons p ps ih =>
    intro st hnd hfresh
    rw [List.foldl_cons]
    have hnd2 := List.nodup_cons.1 hnd
    have hstep : List.Perm
        (groupedMembers (NotificationManager.addNotification env
          { st with
            world := { st.world with
              heap := st.world.heap.set p (env.updateRecipientData (st.world.heap p)) } }
          p).m_Groups)
        (p :: groupedMembers st.m_Groups) := by
      unfold NotificationManager.addNotification groupedMembers
      exact (addToGroups_spec env _ _ _ p st.m_Groups _
        (hfresh p (List.mem_cons_self _ _))).1
    have hfresh2 : ∀ q ∈ ps, q ∉ groupedMembers (NotificationManager.addNotification env
          { st with
            world := { st.world with
              heap := st.world.heap.set p (env.updateRecipientData (st.world.heap p)) } }
          p).m_Groups := by
      intro q hq hmem
      rcases List.mem_cons.1 (hstep.subset hmem) with hqp | hqm
      · exact hnd2.1 (hqp ▸ hq)
      · exact hfresh q (List.mem_cons_of_mem _ hq) hqm
    obtain ⟨i1, i2⟩ := ih _ hnd2.2 hfresh2
    refine ⟨?_, i2⟩
    exact i1.trans ((List.Perm.append_right _ hstep).trans List.perm_middle.symm)

theorem slotContactResolveFinished_spec (env : Env) (m : NotificationManager)
    (hinv : OwnedOnce m) :
    (m.slotContactResolveFinished env).m_unresolvedNotifications = []
      ∧ List.Perm (m.slotContactResolveFinished env).allMembers m.allMembers
      ∧ (m.slotContactResolveFinished env).nextPtr = m.nextPtr := by
  have hnd : (m.m_unresolvedNotifications ++ groupedMembers m.m_Groups).Nodup := hinv.1
  obtain ⟨hnd1, _, hdisj⟩ := List.nodup_append.1 hnd
  obtain ⟨h1, h2⟩ := resolveFinished_fold_spec env m.m_unresolvedNotifications m hnd1
    (fun p hp hg => hdisj hp hg)
  refine ⟨rfl, ?_, h2⟩
  unfold NotificationManager.slotContactResolveFinished
  simp only [NotificationManager.allMembers, List.nil_append]
  exact h1.trans List.perm_append_comm

theorem slotContactResolveFinished_ownedOnce (env : Env) (m : NotificationManager)
    (hinv : OwnedOnce m) : OwnedOnce (m.slotContactResolveFinished env) := by
  obtain ⟨_, hperm, hnext⟩ := slotContactResolveFinished_spec env m hinv
  refine ⟨hperm.nodup_iff.2 hinv.1, ?_⟩
  intro p hp
  rw [hnext]
  exact hinv.2 p (hperm.subset hp)

theorem runManagerOps_ownedOnce (env : Env) (ops : List ManagerOp) :
    ∀ m : NotificationManager, OwnedOnce m → OwnedOnce (runManagerOps env ops m) := by
  induction ops with
  | nil => intro m hm; exact hm
  | cons op ops ih =>
    intro m hm
    apply ih
    cases op with
    | showEvent svc event channelTargetId chatType details =>
      exact showNotification_ownedOnce env svc m event channelTargetId chatType details hm
    | sync notifications => exact syncNotifications_ownedOnce env m notifications hm
    | resolveNew data => exact resolveNew_ownedOnce env m data hm
    | resolveFinished => exact slotContactResolveFinished_ownedOnce env m hm
    | removeAccount accountPath typeFilter =>
      exact removeNotifications_ownedOnce m accountPath typeFilter hm
    | removeConversation recipient chatType =>
      exact removeConversationNotifications_ownedOnce env m recipient chatType hm
    | removeTypes types => exact removeNotificationTypes_ownedOnce m types hm

/-- C15: in every state of the manager reached from the new manager by the operations
`showNotification`, `syncNotifications`, `resolveNotification` of a new member,
`slotContactResolveFinished` and the three removal operations, no member occurs twice
among the pending list and the member lists of the groups: not twice in the pending
list, not in the pending list and in a group, not in two groups and not twice in a group.
`slotContactResolveFinished` leaves the pending list empty, every member that was pending
is then in a group, and the members owned by the manager are the same as before. -/
theorem C15_member_has_one_owner (env : Env) (w0 : World) (n0 : Nat)
    (ops : List ManagerOp) :
    (runManagerOps env ops (NotificationManager.new w0 n0)).allMembers.Nodup
    ∧ (runManagerOps env ops (NotificationManager.new w0 n0)).m_unresolvedNotifications.Nodup
    ∧ (∀ p ∈ (runManagerOps env ops (NotificationManager.new w0 n0)).m_unresolvedNotifications,
        ∀ e ∈ (runManagerOps env ops (NotificationManager.new w0 n0)).m_Groups,
          p ∉ e.2.mNotifications)
    ∧ ((runManagerOps env ops (NotificationManager.new w0 n0)).m_Groups.map
        (fun e => e.2.mNotifications)).Pairwise List.Disjoint
    ∧ (∀ e ∈ (runManagerOps env ops (NotificationManager.new w0 n0)).m_Groups,
        e.2.mNotifications.Nodup)
    ∧ ((runManagerOps env ops (NotificationManager.new w0 n0)).slotContactResolveFinished
        env).m_unresolvedNotifications = []
    ∧ (∀ p ∈ (runManagerOps env ops (NotificationManager.new w0 n0)).m_unresolvedNotifications,
        ∃ e ∈ ((runManagerOps env ops
            (NotificationManager.new w0 n0)).slotContactResolveFinished env).m_Groups,
          p ∈ e.2.mNotifications)
    ∧ List.Perm
        ((runManagerOps env ops (NotificationManager.new w0 n0)).slotContactResolveFinished
          env).allMembers
        (runManagerOps env ops (NotificationManager.new w0 n0)).allMembers := by
  have hinit : OwnedOnce (NotificationManager.new w0 n0) := by
    refine ⟨by simp [NotificationManager.allMembers, NotificationManager.new], ?_⟩
    intro p hp
    simp [NotificationManager.allMembers, NotificationManager.new] at hp
  have hinv := runManagerOps_ownedOnce env ops _ hinit
  generalize runManagerOps env ops (NotificationManager.new w0 n0) = m at hinv ⊢
  have hnd : (m.m_unresolvedNotifications
      ++ (m.m_Groups.map (fun e => e.2.mNotifications)).flatten).Nodup := hinv.1
  obtain ⟨hnd1, hnd2, hdisj⟩ := List.nodup_append.1 hnd
  obtain ⟨hgroups, hpair⟩ := List.nodup_flatten.1 hnd2
  obtain ⟨hempty, hperm, _⟩ := slotContactResolveFinished_spec env m hinv
  refine ⟨hinv.1, hnd1, ?_, hpair, ?_, hempty, ?_, hperm⟩
  · intro p hp e he hpe
    exact hdisj hp (List.mem_flatten.2 ⟨_, List.mem_map.2 ⟨e, he, rfl⟩, hpe⟩)
  · intro e he
    exact hgroups _ (List.mem_map.2 ⟨e, he, rfl⟩)
  · intro p hp
    have hmem : p ∈ (m.slotContactResolveFinished env).allMembers :=
      hperm.symm.subset (List.mem_append_left _ hp)
    unfold NotificationManager.allMembers at hmem
    rw [hempty, List.nil_append] at hmem
    obtain ⟨l, hl, hpl⟩ := List.mem_flatten.1 hmem
    obtain ⟨e, he, hel⟩ := List.mem_map.1 hl
    exact ⟨e, he, by rw [hel]; exact hpl⟩

/-- Witness for C15: three messages are shown, the contacts are resolved, and a fourth
message is shown. -/
theorem C15_member_has_one_owner_witness :
    ((runManagerOps sampleEnv
        [ManagerOp.showEvent sampleService (sampleSms "acc" "555" "t1" "one") ""
            ChatType.ChatTypeP2P "",
          ManagerOp.showEvent sampleService (sampleSms "acc" "555" "t2" "two") ""
            ChatType.ChatTypeP2P "",
          ManagerOp.showEvent sampleService (sampleSms "other" "777" "t3" "three") ""
            ChatType.ChatTypeP2P "",
          ManagerOp.resolveFinished,
          ManagerOp.showEvent sampleService (sampleSms "acc" "888" "t4" "four") ""
            ChatType.ChatTypeP2P ""]
        (NotificationManager.new (sampleWorld []) 0)).m_Groups.map
          (fun e => e.2.mNotifications) = [[0, 1], [2]])
    ∧ ((runManagerOps sampleEnv
        [ManagerOp.showEvent sampleService (sampleSms "acc" "555" "t1" "one") ""
            ChatType.ChatTypeP2P "",
          ManagerOp.showEvent sampleService (sampleSms "acc" "555" "t2" "two") ""
            ChatType.ChatTypeP2P "",
          ManagerOp.showEvent sampleService (sampleSms "other" "777" "t3" "three") ""
            ChatType.ChatTypeP2P "",
          ManagerOp.resolveFinished,
          ManagerOp.showEvent sampleService (sampleSms "acc" "888" "t4" "four") ""
            ChatType.ChatTypeP2P ""]
        (NotificationManager.new (sampleWorld []) 0)).m_unresolvedNotifications = [3])
    ∧ ((runManagerOps sampleEnv
        [ManagerOp.showEvent sampleService (sampleSms "acc" "555" "t1" "one") ""
            ChatType.ChatTypeP2P "",
          ManagerOp.showEvent sampleService (sampleSms "acc" "555" "t2" "two") ""
            ChatType.ChatTypeP2P "",
          ManagerOp.showEvent sampleService (sampleSms "other" "777" "t3" "three") ""
            ChatType.ChatTypeP2P "",
          ManagerOp.resolveFinished,
          ManagerOp.showEvent sampleService (sampleSms "acc" "888" "t4" "four") ""
            ChatType.ChatTypeP2P ""]
        (NotificationManager.new (sampleWorld []) 0)).allMembers.Nodup) :=
  ⟨by decide, by decide,
   (C15_member_has_one_owner sampleEnv (sampleWorld []) 0
      [ManagerOp.showEvent sampleService (sampleSms "acc" "555" "t1" "one") ""
          ChatType.ChatTypeP2P "",
        ManagerOp.showEvent sampleService (sampleSms "acc" "555" "t2" "two") ""
          ChatType.ChatTypeP2P "",
        ManagerOp.showEvent sampleService (sampleSms "other" "777" "t3" "three") ""
          ChatType.ChatTypeP2P "",
        ManagerOp.resolveFinished,
        ManagerOp.showEvent sampleService (sampleSms "acc" "888" "t4" "four") ""
          ChatType.ChatTypeP2P ""]).1⟩

/-! ## C19: events of an observed inbox or conversation -/

theorem isCurrentlyObservedByUI_iff (env : Env) (svc : CommHistoryService) (event : Event)
    (channelTargetId : QString) (chatType : ChatType)
    (hmsg : event.type = EventType.SMSEvent ∨ event.type = EventType.MMSEvent
      ∨ event.type = EventType.IMEvent) :
    NotificationManager.isCurrentlyObservedByUI env svc event channelTargetId chatType = true
      ↔ ∃ conversation ∈ svc.observedConversations,
          env.recipientMatches conversation.1
              (env.mkRecipient event.localUid
                (if chatType = ChatType.ChatTypeP2P then event.firstRecipient.remoteUid
                  else channelTargetId)) = true
            ∧ conversation.2 = chatType.toUInt := by
  have hnot : ¬ (event.type ≠ EventType.IMEvent ∧ event.type ≠ EventType.SMSEvent
      ∧ event.type ≠ EventType.MMSEvent) := by
    rintro ⟨h1, h2, h3⟩
    rcases hmsg with h | h | h
    · exact h2 h
    · exact h3 h
    · exact h1 h
  unfold NotificationManager.isCurrentlyObservedByUI
  rw [if_neg hnot]
  simp only [List.any_eq_true, Bool.and_eq_true, decide_eq_true_eq]

theorem isCurrentlyObservedByUI_other (env : Env) (svc : CommHistoryService) (event : Event)
    (channelTargetId : QString) (chatType : ChatType)
    (hother : event.type ≠ EventType.SMSEvent ∧ event.type ≠ EventType.MMSEvent
      ∧ event.type ≠ EventType.IMEvent) :
    NotificationManager.isCurrentlyObservedByUI env svc event channelTargetId chatType
      = false := by
  unfold NotificationManager.isCurrentlyObservedByUI
  rw [if_pos ⟨hother.2.2, hother.1, hother.2.1⟩]

theorem showNotification_suppressed (env : Env) (svc : CommHistoryService)
    (m : NotificationManager) (event : Event) (channelTargetId : QString)
    (chatType : ChatType) (details : QString)
    (hcond : (event.type = EventType.SMSEvent ∨ event.type = EventType.MMSEvent
        ∨ event.type = EventType.IMEvent)
      ∧ (svc.inboxObserved = true
        ∨ NotificationManager.isCurrentlyObservedByUI env svc event channelTargetId chatType
            = true)) :
    m.showNotification env svc event channelTargetId chatType details
      = if m.m_ngfEvent = 0 then
          { m with
            ngfConnected := true,
            m_ngfEvent := env.ngfPlay
              (if event.type = EventType.SMSEvent ∨ event.type = EventType.MMSEvent then "sms"
                else "chat"),
            ngfRequests := m.ngfRequests
              ++ [if event.type = EventType.SMSEvent ∨ event.type = EventType.MMSEvent then "sms"
                  else "chat"] }
        else { m with ngfConnected := true } := by
  unfold NotificationManager.showNotification
  rw [if_pos hcond]
  rcases m with ⟨groups, pending, model, ngfEvent, connected, requests, queue, deleted, w, n⟩
  cases connected <;> by_cases hev : ngfEvent = 0 <;>
    simp [hev, NgfdEventSms, NgfdEventChat]

theorem showNotification_unsuppressed (env : Env) (svc : CommHistoryService)
    (m : NotificationManager) (event : Event) (channelTargetId : QString)
    (chatType : ChatType) (details : QString)
    (hcond : ¬ ((event.type = EventType.SMSEvent ∨ event.type = EventType.MMSEvent
        ∨ event.type = EventType.IMEvent)
      ∧ (svc.inboxObserved = true
        ∨ NotificationManager.isCurrentlyObservedByUI env svc event channelTargetId chatType
            = true))) :
    (∃ p, m.showNotification env svc event channelTargetId chatType details
        = { m with
            world := setTextAt m.world p (NotificationManager.notificationText env event details) })
    ∨ (∃ data, m.showNotification env svc event channelTargetId chatType details
        = m.resolveNew env data) := by
  unfold NotificationManager.showNotification
  rw [if_neg hcond]
  have hed : ∀ text : QString,
      (if event.isValid = true then m.updateEditedEvent env event text else (m, false))
        = (m, false)
      ∨ ∃ p, (if event.isValid = true then m.updateEditedEvent env event text
          else (m, false)) = ({ m with world := setTextAt m.world p text }, true) := by
    intro text
    by_cases hvalid : event.isValid = true
    · rw [if_pos hvalid]
      rcases updateEditedEvent_cases env m event text with ⟨p, hp⟩ | hno
      · exact Or.inr ⟨p, hp⟩
      · exact Or.inl hno
    · rw [if_neg hvalid]
      exact Or.inl rfl
  rcases hed (NotificationManager.notificationText env event details) with hno | ⟨p, hp⟩
  · right
    simp only [hno, Bool.false_eq_true, if_false]
    exact ⟨_, rfl⟩
  · left
    refine ⟨p, ?_⟩
    simp [hp]

theorem resolveNew_ngf (env : Env) (m : NotificationManager) (data : PersonalNotification) :
    (m.resolveNew env data).ngfRequests = m.ngfRequests
      ∧ (m.resolveNew env data).m_ngfEvent = m.m_ngfEvent := by
  unfold NotificationManager.resolveNew NotificationManager.resolveNotification
  split <;> exact ⟨rfl, rfl⟩

/-- C19: for an SMS, MMS or IM event, when the inbox is observed or an observed
conversation has the chat type of the event and a recipient that matches the recipient
made of the event's account and its remote party (peer-to-peer) or the channel target id
(otherwise), `showNotification` changes neither the group map nor the pending list nor
the world nor the allocation address: it connects the audio client and, only when no cue
is in flight, requests the cue "sms" (SMS, MMS) or "chat" (IM). For an event of another
type `isCurrentlyObservedByUI` is false and `showNotification` does not depend on what is
observed: it edits a member in place or passes a new member to `resolveNotification`,
and requests no cue. -/
theorem C19_observed_message_only_plays_cue (env : Env) (svc : CommHistoryService)
    (m : NotificationManager) (event : Event) (channelTargetId : QString)
    (chatType : ChatType) (details : QString) :
    ((event.type = EventType.SMSEvent ∨ event.type = EventType.MMSEvent
        ∨ event.type = EventType.IMEvent) →
      (svc.inboxObserved = true
        ∨ ∃ conversation ∈ svc.observedConversations,
            env.recipientMatches conversation.1
                (env.mkRecipient event.localUid
                  (if chatType = ChatType.ChatTypeP2P then event.firstRecipient.remoteUid
                    else channelTargetId)) = true
              ∧ conversation.2 = chatType.toUInt) →
      (m.showNotification env svc event channelTargetId chatType details).m_Groups = m.m_Groups
      ∧ (m.showNotification env svc event channelTargetId chatType
            details).m_unresolvedNotifications = m.m_unresolvedNotifications
      ∧ (m.showNotification env svc event channelTargetId chatType details).world = m.world
      ∧ (m.showNotification env svc event channelTargetId chatType details).nextPtr = m.nextPtr
      ∧ (m.showNotification env svc event channelTargetId chatType details).resolverQueue
          = m.resolverQueue
      ∧ (m.showNotification env svc event channelTargetId chatType details).deleted = m.deleted
      ∧ (m.m_ngfEvent = 0 →
          (m.showNotification env svc event channelTargetId chatType details).ngfRequests
            = m.ngfRequests
              ++ [if event.type = EventType.SMSEvent ∨ event.type = EventType.MMSEvent
                  then "sms" else "chat"])
      ∧ (m.m_ngfEvent ≠ 0 →
          (m.showNotification env svc event channelTargetId chatType details).ngfRequests
              = m.ngfRequests
            ∧ (m.showNotification env svc event channelTargetId chatType details).m_ngfEvent
              = m.m_ngfEvent))
    ∧ ((event.type ≠ EventType.SMSEvent ∧ event.type ≠ EventType.MMSEvent
        ∧ event.type ≠ EventType.IMEvent) →
      NotificationManager.isCurrentlyObservedByUI env svc event channelTargetId chatType = false
      ∧ (∀ svc2 : CommHistoryService,
          m.showNotification env svc event channelTargetId chatType details
            = m.showNotification env svc2 event channelTargetId chatType details)
      ∧ ((∃ p, m.showNotification env svc event channelTargetId chatType details
            = { m with
                world := setTextAt m.world p
                  (NotificationManager.notificationText env event details) })
          ∨ (∃ data, m.showNotification env svc event channelTargetId chatType details
            = m.resolveNew env data))
      ∧ (m.showNotification env svc event channelTargetId chatType details).ngfRequests
          = m.ngfRequests) := by
  constructor
  · intro hmsg hobs
    have hcond : (event.type = EventType.SMSEvent ∨ event.type = EventType.MMSEvent
          ∨ event.type = EventType.IMEvent)
        ∧ (svc.inboxObserved = true
          ∨ NotificationManager.isCurrentlyObservedByUI env svc event channelTargetId chatType
              = true) := by
      refine ⟨hmsg, ?_⟩
      rcases hobs with h | h
      · exact Or.inl h
      · exact Or.inr ((isCurrentlyObservedByUI_iff env svc event channelTargetId chatType
          hmsg).2 h)
    rw [showNotification_suppressed env svc m event channelTargetId chatType details hcond]
    by_cases hev : m.m_ngfEvent = 0
    · rw [if_pos hev]
      exact ⟨rfl, rfl, rfl, rfl, rfl, rfl, fun _ => rfl, fun h => absurd hev h⟩
    · rw [if_neg hev]
      exact ⟨rfl, rfl, rfl, rfl, rfl, rfl, fun h => absurd h hev, fun _ => ⟨rfl, rfl⟩⟩
  · intro hother
    have hnot : ∀ s : CommHistoryService,
        ¬ ((event.type = EventType.SMSEvent ∨ event.type = EventType.MMSEvent
          ∨ event.type = EventType.IMEvent)
        ∧ (s.inboxObserved = true
          ∨ NotificationManager.isCurrentlyObservedByUI env s event channelTargetId chatType
              = true)) := by
      rintro s ⟨h | h | h, _⟩
      · exact hother.1 h
      · exact hother.2.1 h
      · exact hother.2.2 h
    have hcases := showNotification_unsuppressed env svc m event channelTargetId chatType
      details (hnot svc)
    refine ⟨isCurrentlyObservedByUI_other env svc event channelTargetId chatType hother,
      ?_, hcases, ?_⟩
    · intro svc2
      unfold NotificationManager.showNotification
      rw [if_neg (hnot svc), if_neg (hnot svc2)]
    · rcases hcases with ⟨p, hp⟩ | ⟨data, hd⟩
      · rw [hp]
      · rw [hd]; exact (resolveNew_ngf env m data).1

/-- Witness for C19: a message from "555" on "acc" arrives while that conversation is
observed, and a missed call arrives while the inbox is observed. -/
theorem C19_observed_message_only_plays_cue_witness :
    ((sampleBusyManager.showNotification sampleEnv
          { inboxObserved := false,
            observedConversations :=
              [({ localUid := "acc", remoteUid := "555", contactResolved := true }, 0)],
            inboxFilterAccount := "" }
          (sampleSms "acc" "555" "t9" "nine") "" ChatType.ChatTypeP2P "").ngfRequests
        = sampleBusyManager.ngfRequests ++ ["sms"])
    ∧ ((sampleBusyManager.showNotification sampleEnv
          { inboxObserved := false,
            observedConversations :=
              [({ localUid := "acc", remoteUid := "555", contactResolved := true }, 0)],
            inboxFilterAccount := "" }
          (sampleSms "acc" "555" "t9" "nine") "" ChatType.ChatTypeP2P "").m_Groups
        = sampleBusyManager.m_Groups)
    ∧ ((sampleBusyManager.showNotification sampleEnv sampleFilteredInboxService
          (sampleCall "acc" "555") "" ChatType.ChatTypeP2P "").m_unresolvedNotifications
        = [3, 4, 5]) :=
  ⟨(((C19_observed_message_only_plays_cue sampleEnv
        { inboxObserved := false,
          observedConversations :=
            [({ localUid := "acc", remoteUid := "555", contactResolved := true }, 0)],
          inboxFilterAccount := "" }
        sampleBusyManager (sampleSms "acc" "555" "t9" "nine") "" ChatType.ChatTypeP2P "").1
        (by decide) (Or.inr (by decide))).2.2.2.2.2.2.1 (by decide)),
   (((C19_observed_message_only_plays_cue sampleEnv
        { inboxObserved := false,
          observedConversations :=
            [({ localUid := "acc", remoteUid := "555", contactResolved := true }, 0)],
          inboxFilterAccount := "" }
        sampleBusyManager (sampleSms "acc" "555" "t9" "nine") "" ChatType.ChatTypeP2P "").1
        (by decide) (Or.inr (by decide))).1),
   by decide⟩

/-! ## C20: the hidden hint of the aggregate -/

theorem hintValue_setHintValue (n : Notification) (key : QString) (v : QVariant) :
    (n.setHintValue key v).hintValue key = v := by
  unfold Notification.hintValue Notification.setHintValue
  have hnone : (n.hints.filter (fun kv => !(kv.1 == key))).find? (fun kv => kv.1 == key)
      = none := by
    rw [List.find?_eq_none]
    intro kv hkv
    have := (List.mem_filter.1 hkv).2
    simpa using this
  simp only [List.find?_append, hnone, Option.none_or, List.find?_cons, beq_self_eq_true]

theorem hintValue_setNotificationProperties (env : Env) (n : Notification)
    (pn : PersonalNotification) (grouped : Bool) (key : QString) :
    (setNotificationProperties env n pn grouped).hintValue key = n.hintValue key := by
  unfold setNotificationProperties Notification.hintValue
  rfl

theorem scanMember_hidden (env : Env)
    (hpub : ∀ pn : PersonalNotification, (env.publishNotification pn).hidden = pn.hidden)
    (st : TimestampScan) (p q : Ptr) :
    ((scanMember env st p).heap q).hidden = (st.heap q).hidden := by
  unfold scanMember
  by_cases hpend : (st.heap p).hasPendingEvents = true
  · by_cases hq : q = p
    · subst hq; simp [hpend, Heap.set, hpub]
    · simp [hpend, Heap.set, hq]
  · simp [hpend]

theorem scanMembers_hidden (env : Env)
    (hpub : ∀ pn : PersonalNotification, (env.publishNotification pn).hidden = pn.hidden)
    (members : List Ptr) (h : Heap) (q : Ptr) :
    ((scanMembers env h members).heap q).hidden = (h q).hidden := by
  unfold scanMembers
  have hgen : ∀ (l : List Ptr) (st : TimestampScan),
      ((l.foldl (scanMember env) st).heap q).hidden = (st.heap q).hidden := by
    intro l
    induction l with
    | nil => intro st; rfl
    | cons p l ih =>
      intro st
      rw [List.foldl_cons, ih, scanMember_hidden env hpub]
  exact hgen members _

theorem updateGroup_hint (env : Env) (g : NotificationGroup) (w : World) (first : Ptr)
    (rest : List Ptr) (hl : g.mNotifications = first :: rest) :
    ∃ n : Notification, (g.updateGroup env w).1.mGroup = some n
      ∧ (g.updateGroup env w).2.published.getLast? = some n
      ∧ (g.updateGroup env w).2.heap = (scanMembers env w.heap g.mNotifications).heap
      ∧ n.hintValue "x-nemo-hidden" = QVariant.bool (!(w.heap first).hidden) := by
  unfold NotificationGroup.updateGroup
  rw [hl]
  refine ⟨_, rfl, by simp, rfl, ?_⟩
  have hts : ∀ (n : Notification) (t : QDateTime) (key : QString),
      Notification.hintValue { n with timestamp := t } key = n.hintValue key :=
    fun _ _ _ => rfl
  rw [hts, hintValue_setNotificationProperties, hintValue_setHintValue]

/-- C20: `updateGroup` on a group with members gives (and publishes) an aggregate whose
hint `x-nemo-hidden` is the negation of the hidden flag that the first member has when
`updateGroup` reads it: the hint is true exactly when the first member is shown. When
publishing a member does not change its hidden flag, this is also the flag of the first
member after `updateGroup`. -/
theorem C20_aggregate_hidden_iff_first_member_shown (env : Env) (g : NotificationGroup)
    (w : World) (first : Ptr) (rest : List Ptr) (hl : g.mNotifications = first :: rest) :
    ∃ n : Notification, (g.updateGroup env w).1.mGroup = some n
      ∧ (g.updateGroup env w).2.published.getLast? = some n
      ∧ n.hintValue "x-nemo-hidden" = QVariant.bool (!(w.heap first).hidden)
      ∧ (n.hintValue "x-nemo-hidden" = QVariant.bool true ↔ (w.heap first).hidden = false)
      ∧ ((∀ pn : PersonalNotification, (env.publishNotification pn).hidden = pn.hidden) →
          (n.hintValue "x-nemo-hidden" = QVariant.bool true
            ↔ ((g.updateGroup env w).2.heap first).hidden = false)) := by
  obtain ⟨n, hn, hpub, hheap, hhint⟩ := updateGroup_hint env g w first rest hl
  refine ⟨n, hn, hpub, hhint, ?_, ?_⟩
  · rw [hhint]
    cases (w.heap first).hidden <;> simp
  · intro hpublish
    rw [hheap, scanMembers_hidden env hpublish, hhint]
    cases (w.heap first).hidden <;> simp

/-- Witness for C20: one missed call, shown, then two missed calls, hidden. -/
theorem C20_aggregate_hidden_iff_first_member_shown_witness :
    (∃ n : Notification,
      ((runGroupOps sampleEnv [GroupOp.add 0]
          (NotificationGroup.new EventCollection.Voice "acc" "555",
            sampleWorld [])).1.updateGroup sampleEnv
        (runGroupOps sampleEnv [GroupOp.add 0]
          (NotificationGroup.new EventCollection.Voice "acc" "555",
            sampleWorld [])).2).1.mGroup = some n
      ∧ n.hintValue "x-nemo-hidden" = QVariant.bool true)
    ∧ (∃ n : Notification,
      ((runGroupOps sampleEnv [GroupOp.add 0, GroupOp.add 1]
          (NotificationGroup.new EventCollection.Voice "acc" "555",
            sampleWorld [])).1.updateGroup sampleEnv
        (runGroupOps sampleEnv [GroupOp.add 0, GroupOp.add 1]
          (NotificationGroup.new EventCollection.Voice "acc" "555",
            sampleWorld [])).2).1.mGroup = some n
      ∧ n.hintValue "x-nemo-hidden" = QVariant.bool false) :=
  ⟨(C20_aggregate_hidden_iff_first_member_shown sampleEnv
      (runGroupOps sampleEnv [GroupOp.add 0]
        (NotificationGroup.new EventCollection.Voice "acc" "555", sampleWorld [])).1
      (runGroupOps sampleEnv [GroupOp.add 0]
        (NotificationGroup.new EventCollection.Voice "acc" "555", sampleWorld [])).2
      0 [] (by decide)).imp (fun _ hn => ⟨hn.1, hn.2.2.1⟩),
   (C20_aggregate_hidden_iff_first_member_shown sampleEnv
      (runGroupOps sampleEnv [GroupOp.add 0, GroupOp.add 1]
        (NotificationGroup.new EventCollection.Voice "acc" "555", sampleWorld [])).1
      (runGroupOps sampleEnv [GroupOp.add 0, GroupOp.add 1]
        (NotificationGroup.new EventCollection.Voice "acc" "555", sampleWorld [])).2
      0 [1] (by decide)).imp (fun _ hn => ⟨hn.1, hn.2.2.1⟩)⟩

/-! ## C21: body and item count of the aggregate -/

theorem updateGroup_aggregate (env : Env) (g : NotificationGroup) (w : World) (first : Ptr)
    (rest : List Ptr) (hl : g.mNotifications = first :: rest) :
    ∃ n : Notification, (g.updateGroup env w).1.mGroup = some n
      ∧ (g.updateGroup env w).2.published
          = w.published
            ++ (if g.m_collection ≠ EventCollection.Voice ∧ (w.heap first).hidden = true
                  ∧ (scanMembers env w.heap g.mNotifications).allRestored = false then
                [setNotificationProperties env
                  { Notification.new with
                    appName := n.appName,
                    category := n.category ++ ".preview",
                    previewSummary := n.summary,
                    previewBody := g.notificationGroupText env w.heap }
                  ((scanMembers env w.heap g.mNotifications).heap first)
                  (decide (g.countConversations w.heap > 1))]
              else [])
            ++ [n]
      ∧ n.appName = NotificationGroup.groupName env.loc g.m_collection
      ∧ n.category = NotificationGroup.groupCategory g.m_collection
      ∧ n.summary = env.joinStringList (g.contactNames env w.heap)
      ∧ n.itemCount = g.mNotifications.length
      ∧ n.body
          = if g.m_collection ≠ EventCollection.Voice
                ∧ g.m_collection ≠ EventCollection.Voicemail then
              g.notificationGroupText env w.heap
            else (match g.mGroup with
              | some old => old.body
              | none => "") := by
  obtain ⟨coll, uid, rem, mg, members, timer⟩ := g
  simp only at hl
  subst hl
  cases coll <;> cases mg <;>
    exact ⟨_, rfl, rfl, rfl, rfl, rfl, rfl, rfl⟩

theorem removeNotification_mGroup (g : NotificationGroup) (w : World) (p : Ptr) :
    (g.removeNotification w p).group.mGroup = g.mGroup := by
  unfold NotificationGroup.removeNotification
  by_cases hp : p ∈ g.mNotifications
  · simp [hp, NotificationGroup.updateGroupLater]
  · simp [hp]

theorem removeGroupLoop_collection (fuel : Nat) :
    ∀ (g : NotificationGroup) (w : World),
      (NotificationGroup.removeGroupLoop fuel g w).1.m_collection = g.m_collection := by
  induction fuel with
  | zero => intro g w; rfl
  | succ fuel ih =>
    intro g w
    unfold NotificationGroup.removeGroupLoop
    cases hl : g.mNotifications with
    | nil => rfl
    | cons first rest =>
      simp only
      rw [ih, removeNotification_collection]

theorem removeGroup_collection (g : NotificationGroup) (w : World) :
    (g.removeGroup w).1.m_collection = g.m_collection := by
  unfold NotificationGroup.removeGroup
  rw [removeGroupLoop_collection]
  cases g.mGroup <;> rfl

theorem updateGroup_collection (env : Env) (g : NotificationGroup) (w : World) :
    (g.updateGroup env w).1.m_collection = g.m_collection := by
  unfold NotificationGroup.updateGroup
  cases hl : g.mNotifications with
  | nil => exact removeGroup_collection g w
  | cons first rest => rfl

/-- The aggregate of a Voice or Voicemail group, when there is one, has the empty body
of a newly created platform notification. -/
theorem updateGroup_plainBody (env : Env) (g : NotificationGroup) (w : World)
    (hc : g.m_collection ≠ EventCollection.Messaging)
    (hinv : ∀ n, g.mGroup = some n → n.body = "") :
    ∀ n, (g.updateGroup env w).1.mGroup = some n → n.body = "" := by
  intro n hn
  cases hl : g.mNotifications with
  | nil =>
    have h := (updateGroup_mGroup env g w).1 (by rw [hn]; rfl)
    exact absurd hl h
  | cons first rest =>
    obtain ⟨a, ha, -, -, -, -, -, hbody⟩ := updateGroup_aggregate env g w first rest hl
    rw [ha] at hn
    cases hn
    rw [hbody]
    have hcond : ¬ (g.m_collection ≠ EventCollection.Voice
        ∧ g.m_collection ≠ EventCollection.Voicemail) := by
      intro hh
      cases hcol : g.m_collection with
      | Messaging => exact hc hcol
      | Voice => exact hh.1 hcol
      | Voicemail => exact hh.2 hcol
    rw [if_neg hcond]
    cases hg : g.mGroup with
    | none => rfl
    | some old => exact hinv old hg

theorem groupCall_plainBody (env : Env) (c : EventCollection) (call : GroupCall)
    (s : NotificationGroup × World) (hcol : s.1.m_collection = c)
    (hinv : c ≠ EventCollection.Messaging → ∀ n, s.1.mGroup = some n → n.body = "") :
    (call.apply env s).1.m_collection = c
      ∧ (c ≠ EventCollection.Messaging →
          ∀ n, (call.apply env s).1.mGroup = some n → n.body = "") := by
  cases call with
  | add p =>
    refine ⟨(addNotification_collection s.1 s.2 p).trans hcol, ?_⟩
    intro hc n hn
    have hn2 : (s.1.addNotification s.2 p).1.mGroup = some n := hn
    rw [(addNotification_uids s.1 s.2 p).2.2] at hn2
    exact hinv hc n hn2
  | remove p =>
    refine ⟨(removeNotification_collection s.1 s.2 p).trans hcol, ?_⟩
    intro hc n hn
    have hn2 : (s.1.removeNotification s.2 p).group.mGroup = some n := hn
    rw [removeNotification_mGroup] at hn2
    exact hinv hc n hn2
  | updateGroup =>
    refine ⟨(updateGroup_collection env s.1 s.2).trans hcol, ?_⟩
    intro hc
    exact updateGroup_plainBody env s.1 s.2 (by rw [hcol]; exact hc) (hinv hc)
  | timeout =>
    refine ⟨(updateGroup_collection env _ s.2).trans hcol, ?_⟩
    intro hc
    exact updateGroup_plainBody env _ s.2 (by show s.1.m_collection ≠ _; rw [hcol]; exact hc)
      (hinv hc)
  | readout =>
    show (s.1.notification env s.2).1.m_collection = c
      ∧ (c ≠ EventCollection.Messaging →
          ∀ n, (s.1.notification env s.2).1.mGroup = some n → n.body = "")
    unfold NotificationGroup.notification
    by_cases hcond : s.1.mGroup.isNone = true ∧ s.1.mNotifications.isEmpty = false
    · rw [if_pos hcond]
      refine ⟨(updateGroup_collection env s.1 s.2).trans hcol, ?_⟩
      intro hc
      exact updateGroup_plainBody env s.1 s.2 (by rw [hcol]; exact hc) (hinv hc)
    · rw [if_neg hcond]
      exact ⟨hcol, hinv⟩
  | closed reason =>
    refine ⟨(removeGroup_collection s.1 s.2).trans hcol, ?_⟩
    intro _ n hn
    have hn2 : (s.1.removeGroup s.2).1.mGroup = some n := hn
    rw [(removeGroup_spec s.1 s.2).2.1] at hn2
    cases hn2

theorem runGroupCalls_plainBody (env : Env) (c : EventCollection) (calls : List GroupCall) :
    ∀ s : NotificationGroup × World, s.1.m_collection = c →
      (c ≠ EventCollection.Messaging → ∀ n, s.1.mGroup = some n → n.body = "") →
      (runGroupCalls env calls s).1.m_collection = c
        ∧ (c ≠ EventCollection.Messaging →
            ∀ n, (runGroupCalls env calls s).1.mGroup = some n → n.body = "") := by
  induction calls with
  | nil => intro s h1 h2; exact ⟨h1, h2⟩
  | cons call calls ih =>
    intro s h1 h2
    obtain ⟨k1, k2⟩ := groupCall_plainBody env c call s h1 h2
    exact ih _ k1 k2

/-- C21, as stated, fails for a Voice group: after `updateGroup` on the group with one
member the published aggregate has an empty body, while the group-text algorithm
gives the missed-calls phrase; the item count is the number of members. -/
theorem C21_voice_aggregate_body_counterexample :
    (runGroupCalls sampleEnv [GroupCall.add 0]
        (NotificationGroup.new EventCollection.Voice "acc" "555",
          sampleWorld [sampleMember "acc" "555" "Alice" "" "t1" (some 5)])).1.mNotifications
      = [0]
    ∧ (((runGroupCalls sampleEnv [GroupCall.add 0]
        (NotificationGroup.new EventCollection.Voice "acc" "555",
          sampleWorld [sampleMember "acc" "555" "Alice" "" "t1" (some 5)])).1.updateGroup
        sampleEnv
        (runGroupCalls sampleEnv [GroupCall.add 0]
        (NotificationGroup.new EventCollection.Voice "acc" "555",
          sampleWorld [sampleMember "acc" "555" "Alice" "" "t1" (some 5)])).2).2.published.map
          (fun n => (n.body, n.itemCount))) = [("", 1)]
    ∧ (runGroupCalls sampleEnv [GroupCall.add 0]
        (NotificationGroup.new EventCollection.Voice "acc" "555",
          sampleWorld [sampleMember "acc" "555" "Alice" "" "t1"
            (some 5)])).1.notificationGroupText sampleEnv
        (runGroupCalls sampleEnv [GroupCall.add 0]
        (NotificationGroup.new EventCollection.Voice "acc" "555",
          sampleWorld [sampleMember "acc" "555" "Alice" "" "t1" (some 5)])).2.heap
      = "1 missed calls" := by
  decide

/-- C21, amended: in every state reached from a new group by any interleaving of
`addNotification`, `removeNotification`, `updateGroup` (called directly or by the update
timer), `notification()` and `onClosed`, `updateGroup` on a non-empty group publishes,
last, the aggregate of the group; its item count is the number of members; its body is
the text of `notificationGroupText` when the collection is Messaging, and is empty
(never set) when the collection is Voice or Voicemail. -/
theorem C21_aggregate_item_count_and_messaging_body (env : Env) (c : EventCollection)
    (localUid remoteUid : QString) (w0 : World) (calls : List GroupCall)
    (s : NotificationGroup × World)
    (hs : s = runGroupCalls env calls (NotificationGroup.new c localUid remoteUid, w0))
    (hl : s.1.mNotifications ≠ []) :
    ∃ n : Notification, (s.1.updateGroup env s.2).1.mGroup = some n
      ∧ (s.1.updateGroup env s.2).2.published.getLast? = some n
      ∧ n.itemCount = s.1.mNotifications.length
      ∧ (c = EventCollection.Messaging → n.body = s.1.notificationGroupText env s.2.heap)
      ∧ (c ≠ EventCollection.Messaging → n.body = "") := by
  obtain ⟨hcol, hinv⟩ := runGroupCalls_plainBody env c calls
    (NotificationGroup.new c localUid remoteUid, w0) rfl (fun _ n hn => by cases hn)
  rw [← hs] at hcol hinv
  cases hm : s.1.mNotifications with
  | nil => exact absurd hm hl
  | cons first rest =>
    obtain ⟨n, hn, hpub, -, -, -, hcount, hbody⟩ :=
      updateGroup_aggregate env s.1 s.2 first rest hm
    refine ⟨n, hn, ?_, ?_, ?_, ?_⟩
    · rw [hpub]; simp
    · rw [hcount, hm]
    · intro hc
      rw [hbody, if_pos]
      rw [hcol, hc]
      exact ⟨by decide, by decide⟩
    · intro hc
      exact updateGroup_plainBody env s.1 s.2 (by rw [hcol]; exact hc) (hinv hc) n hn

/-- Witness for C21: a Messaging group with two members. -/
theorem C21_aggregate_item_count_and_messaging_body_witness :
    (runGroupCalls sampleEnv [GroupCall.add 0, GroupCall.add 1]
        (NotificationGroup.new EventCollection.Messaging "acc" "555",
          sampleWorld [sampleMember "acc" "555" "Alice" "hello" "t1" (some 5),
            sampleMember "acc" "555" "Alice" "again" "t2" (some 6)])).1.mNotifications ≠ []
    ∧ ∃ n : Notification,
      ((runGroupCalls sampleEnv [GroupCall.add 0, GroupCall.add 1]
        (NotificationGroup.new EventCollection.Messaging "acc" "555",
          sampleWorld [sampleMember "acc" "555" "Alice" "hello" "t1" (some 5),
            sampleMember "acc" "555" "Alice" "again" "t2" (some 6)])).1.updateGroup sampleEnv
        (runGroupCalls sampleEnv [GroupCall.add 0, GroupCall.add 1]
        (NotificationGroup.new EventCollection.Messaging "acc" "555",
          sampleWorld [sampleMember "acc" "555" "Alice" "hello" "t1" (some 5),
            sampleMember "acc" "555" "Alice" "again" "t2" (some 6)])).2).1.mGroup = some n
      ∧ n.itemCount = 2 ∧ n.body = "2 new messages" := by
  refine ⟨by decide, ?_⟩
  obtain ⟨n, h1, -, h3, h4, -⟩ := C21_aggregate_item_count_and_messaging_body sampleEnv
    EventCollection.Messaging "acc" "555"
    (sampleWorld [sampleMember "acc" "555" "Alice" "hello" "t1" (some 5),
      sampleMember "acc" "555" "Alice" "again" "t2" (some 6)])
    [GroupCall.add 0, GroupCall.add 1] _ rfl (by decide)
  refine ⟨n, h1, ?_, ?_⟩
  · rw [h3]; decide
  · rw [h4 rfl]; decide

/-! ## C22: the order of the names of the summary -/

theorem scanMember_allRestored (env : Env) (st : TimestampScan) (p : Ptr) :
    (scanMember env st p).allRestored = (st.allRestored && (st.heap p).restored) := by
  rfl

theorem scanMembers_allRestored_foldl (env : Env) (l : List Ptr) :
    ∀ st : TimestampScan, l.Nodup →
      (l.foldl (scanMember env) st).allRestored
        = (st.allRestored && l.all (fun p => (st.heap p).restored)) := by
  induction l with
  | nil => intro st _; simp
  | cons p l ih =>
    intro st hnd
    have hp : p ∉ l := (List.nodup_cons.1 hnd).1
    rw [List.foldl_cons, ih _ (List.nodup_cons.1 hnd).2, scanMember_allRestored]
    have hall : l.all (fun q => ((scanMember env st p).heap q).restored)
        = l.all (fun q => (st.heap q).restored) := by
      rw [Bool.eq_iff_iff, List.all_eq_true, List.all_eq_true]
      constructor
      · intro hh q hq
        rw [← scanMember_heap_other env st p q (fun hqp => hp (hqp ▸ hq))]
        exact hh q hq
      · intro hh q hq
        rw [scanMember_heap_other env st p q (fun hqp => hp (hqp ▸ hq))]
        exact hh q hq
    rw [hall, List.all_cons, Bool.and_assoc]

theorem scanMembers_allRestored (env : Env) (h : Heap) (l : List Ptr) (hnd : l.Nodup) :
    (scanMembers env h l).allRestored = l.all (fun p => (h p).restored) := by
  unfold scanMembers
  rw [scanMembers_allRestored_foldl env l _ hnd]
  simp

theorem runGroupCalls_nodup (env : Env) (calls : List GroupCall) :
    ∀ s : NotificationGroup × World, s.1.mNotifications.Nodup →
      (runGroupCalls env calls s).1.mNotifications.Nodup := by
  induction calls with
  | nil => intro s hs; exact hs
  | cons call calls ih =>
    intro s hs
    show (runGroupCalls env calls (call.apply env s)).1.mNotifications.Nodup
    apply ih
    cases call with
    | add p =>
      show (s.1.addNotification s.2 p).1.mNotifications.Nodup
      rw [addNotification_members]
      by_cases hp : p ∈ s.1.mNotifications
      · rw [if_pos hp]; exact hs
      · rw [if_neg hp]
        exact List.Nodup.append hs (List.nodup_singleton p) (by simpa using hp)
    | remove p =>
      show (s.1.removeNotification s.2 p).group.mNotifications.Nodup
      rw [removeNotification_members]
      exact hs.erase p
    | updateGroup =>
      show (s.1.updateGroup env s.2).1.mNotifications.Nodup
      rw [updateGroup_members]
      exact hs
    | timeout =>
      show (NotificationGroup.updateTimerTimeout env s.1 s.2).1.mNotifications.Nodup
      rw [updateTimerTimeout_members]
      exact hs
    | readout =>
      show (s.1.notification env s.2).1.mNotifications.Nodup
      unfold NotificationGroup.notification
      by_cases hc : s.1.mGroup.isNone = true ∧ s.1.mNotifications.isEmpty = false
      · rw [if_pos hc]
        show (s.1.updateGroup env s.2).1.mNotifications.Nodup
        rw [updateGroup_members]
        exact hs
      · rw [if_neg hc]; exact hs
    | closed reason =>
      show (s.1.removeGroup s.2).1.mNotifications.Nodup
      rw [(removeGroup_spec s.1 s.2).1]
      exact List.nodup_nil

/-- C23, as stated, fails for a Voicemail group: with two members that were not restored
the first member is hidden and `updateGroup` raises a preview whose body is the text of
the first member, while the body of the aggregate is empty. -/
theorem C23_voicemail_preview_body_counterexample :
    ((runGroupCalls sampleEnv [GroupCall.add 0, GroupCall.add 1]
        (NotificationGroup.new EventCollection.Voicemail "acc" "555",
          sampleWorld [
            { sampleMember "acc" "555" "Alice" "Voicemail from Alice" "t1" (some 5) with
              eventType := 4, collection := EventCollection.Voicemail },
            { sampleMember "acc" "555" "Alice" "Second voicemail" "t2" (some 6) with
              eventType := 4, collection := EventCollection.Voicemail }])).1.mNotifications.map
        (fun p => (p, ((runGroupCalls sampleEnv [GroupCall.add 0, GroupCall.add 1]
        (NotificationGroup.new EventCollection.Voicemail "acc" "555",
          sampleWorld [
            { sampleMember "acc" "555" "Alice" "Voicemail from Alice" "t1" (some 5) with
              eventType := 4, collection := EventCollection.Voicemail },
            { sampleMember "acc" "555" "Alice" "Second voicemail" "t2" (some 6) with
              eventType := 4, collection := EventCollection.Voicemail }])).2.heap p).hidden,
          ((runGroupCalls sampleEnv [GroupCall.add 0, GroupCall.add 1]
        (NotificationGroup.new EventCollection.Voicemail "acc" "555",
          sampleWorld [
            { sampleMember "acc" "555" "Alice" "Voicemail from Alice" "t1" (some 5) with
              eventType := 4, collection := EventCollection.Voicemail },
            { sampleMember "acc" "555" "Alice" "Second voicemail" "t2" (some 6) with
              eventType := 4, collection := EventCollection.Voicemail }])).2.heap p).restored))
      = [(0, true, false), (1, true, false)])
    ∧ ((runGroupCalls sampleEnv [GroupCall.add 0, GroupCall.add 1, GroupCall.updateGroup]
        (NotificationGroup.new EventCollection.Voicemail "acc" "555",
          sampleWorld [
            { sampleMember "acc" "555" "Alice" "Voicemail from Alice" "t1" (some 5) with
              eventType := 4, collection := EventCollection.Voicemail },
            { sampleMember "acc" "555" "Alice" "Second voicemail" "t2" (some 6) with
              eventType := 4, collection := EventCollection.Voicemail }])).2.published.map
        (fun n => (n.category, n.summary, n.body, n.previewSummary, n.previewBody)))
      = [("x-nemo.messaging.voicemail.group.preview", "", "", "Alice", "Voicemail from Alice"),
         ("x-nemo.messaging.voicemail.group", "Alice", "", "", "")] := by
  decide

/-- C23, amended: in every state reached from a new group by any interleaving of
`addNotification`, `removeNotification`, `updateGroup` (called directly or by the update
timer), `notification()` and `onClosed`, `updateGroup` on a non-empty group publishes
the aggregate last and, just before it, one preview exactly when the collection is not
Voice, the first member is hidden and some member was not restored from storage;
otherwise it publishes the aggregate only, so a Voice group and a group whose members
were all restored raise no preview. The preview has the application name and the
summary of the aggregate (as preview summary), the aggregate's category with the suffix
".preview", and as preview body the text of `notificationGroupText`; this text is the
body of the aggregate for a Messaging group, whereas the aggregate of a Voicemail group
has an empty body. -/
theorem C23_preview_raised_iff_eligible (env : Env) (c : EventCollection)
    (localUid remoteUid : QString) (w0 : World) (calls : List GroupCall)
    (s : NotificationGroup × World)
    (hs : s = runGroupCalls env calls (NotificationGroup.new c localUid remoteUid, w0))
    (first : Ptr) (rest : List Ptr) (hl : s.1.mNotifications = first :: rest) :
    ∃ n : Notification, (s.1.updateGroup env s.2).1.mGroup = some n
      ∧ ((c ≠ EventCollection.Voice ∧ (s.2.heap first).hidden = true
            ∧ (∃ p ∈ s.1.mNotifications, (s.2.heap p).restored = false)) →
          ∃ preview : Notification,
            (s.1.updateGroup env s.2).2.published = s.2.published ++ [preview, n]
            ∧ preview.appName = n.appName
            ∧ preview.category = n.category ++ ".preview"
            ∧ preview.previewSummary = n.summary
            ∧ preview.previewBody = s.1.notificationGroupText env s.2.heap
            ∧ (c = EventCollection.Messaging → preview.previewBody = n.body)
            ∧ (c = EventCollection.Voicemail → n.body = ""))
      ∧ (¬ (c ≠ EventCollection.Voice ∧ (s.2.heap first).hidden = true
            ∧ (∃ p ∈ s.1.mNotifications, (s.2.heap p).restored = false)) →
          (s.1.updateGroup env s.2).2.published = s.2.published ++ [n])
      ∧ (c = EventCollection.Voice →
          (s.1.updateGroup env s.2).2.published = s.2.published ++ [n])
      ∧ ((∀ p ∈ s.1.mNotifications, (s.2.heap p).restored = true) →
          (s.1.updateGroup env s.2).2.published = s.2.published ++ [n]) := by
  obtain ⟨hcol, hinv⟩ := runGroupCalls_plainBody env c calls
    (NotificationGroup.new c localUid remoteUid, w0) rfl (fun _ n hn => by cases hn)
  have hnd := runGroupCalls_nodup env calls
    (NotificationGroup.new c localUid remoteUid, w0) List.nodup_nil
  rw [← hs] at hcol hinv hnd
  obtain ⟨n, hn, hpub, happ, hcat, hsum, -, hbody⟩ :=
    updateGroup_aggregate env s.1 s.2 first rest hl
  have hall : ((scanMembers env s.2.heap s.1.mNotifications).allRestored = false)
      ↔ ∃ p ∈ s.1.mNotifications, (s.2.heap p).restored = false := by
    rw [scanMembers_allRestored env s.2.heap s.1.mNotifications hnd]
    simp
  have hno : ¬ (c ≠ EventCollection.Voice ∧ (s.2.heap first).hidden = true
      ∧ (∃ p ∈ s.1.mNotifications, (s.2.heap p).restored = false)) →
      (s.1.updateGroup env s.2).2.published = s.2.published ++ [n] := by
    intro hcond
    rw [hpub, if_neg (fun hh => hcond ⟨hcol ▸ hh.1, hh.2.1, hall.1 hh.2.2⟩)]
    simp
  refine ⟨n, hn, ?_, hno, ?_, ?_⟩
  · intro hcond
    rw [if_pos ⟨hcol.symm ▸ hcond.1, hcond.2.1, hall.2 hcond.2.2⟩] at hpub
    refine ⟨setNotificationProperties env
        { Notification.new with
          appName := n.appName,
          category := n.category ++ ".preview",
          previewSummary := n.summary,
          previewBody := s.1.notificationGroupText env s.2.heap }
        ((scanMembers env s.2.heap s.1.mNotifications).heap first)
        (decide (s.1.countConversations s.2.heap > 1)),
      by rw [hpub]; simp, rfl, rfl, rfl, rfl, ?_, ?_⟩
    · intro hc
      rw [hbody, if_pos]
      · rfl
      · rw [hcol, hc]
        exact ⟨by decide, by decide⟩
    · intro hc
      exact updateGroup_plainBody env s.1 s.2 (by rw [hcol, hc]; decide)
        (hinv (by rw [hc]; decide)) n hn
  · intro hc
    exact hno (fun hcond => hcond.1 hc)
  · intro hrest
    apply hno
    rintro ⟨-, -, p, hp, hpr⟩
    rw [hrest p hp] at hpr
    exact absurd hpr (by simp)

/-- Witness for C23: a Messaging group whose only member is hidden and was not
restored. -/
theorem C23_preview_raised_iff_eligible_witness :
    ∃ n preview : Notification,
      ((runGroupCalls sampleEnv [GroupCall.add 0]
        (NotificationGroup.new EventCollection.Messaging "acc" "555",
          sampleWorld [{ sampleMember "acc" "555" "Alice" "hello" "t1" (some 5) with
            hidden := true }])).1.updateGroup sampleEnv
        (runGroupCalls sampleEnv [GroupCall.add 0]
        (NotificationGroup.new EventCollection.Messaging "acc" "555",
          sampleWorld [{ sampleMember "acc" "555" "Alice" "hello" "t1" (some 5) with
            hidden := true }])).2).2.published
        = (runGroupCalls sampleEnv [GroupCall.add 0]
        (NotificationGroup.new EventCollection.Messaging "acc" "555",
          sampleWorld [{ sampleMember "acc" "555" "Alice" "hello" "t1" (some 5) with
            hidden := true }])).2.published ++ [preview, n]
      ∧ preview.category = n.category ++ ".preview"
      ∧ preview.previewSummary = n.summary
      ∧ preview.previewBody = n.body := by
  obtain ⟨n, -, hraise, -⟩ := C23_preview_raised_iff_eligible sampleEnv
    EventCollection.Messaging "acc" "555"
    (sampleWorld [{ sampleMember "acc" "555" "Alice" "hello" "t1" (some 5) with
      hidden := true }])
    [GroupCall.add 0] _ rfl 0 [] (by decide)
  obtain ⟨preview, h1, -, h3, h4, -, h6, -⟩ :=
    hraise ⟨by decide, by decide, 0, by decide, by decide⟩
  exact ⟨n, preview, h1, h3, h4, h6 rfl⟩

/-! ## C24: the text of an MMS notification -/

theorem attachmentCount_foldl (parts : List MessagePart) :
    ∀ init : Nat,
      parts.foldl
        (fun count part =>
          if !qStartsWith part.contentType "text/plain"
              && !qStartsWith part.contentType "application/smil" then count + 1
          else count) init
        = init + (parts.filter (fun part => !qStartsWith part.contentType "text/plain"
            && !qStartsWith part.contentType "application/smil")).length := by
  induction parts with
  | nil => intro init; simp
  | cons part parts ih =>
    intro init
    rw [List.foldl_cons, ih]
    by_cases hp : (!qStartsWith part.contentType "text/plain"
        && !qStartsWith part.contentType "application/smil") = true
    · rw [if_pos hp]
      simp only [List.filter_cons, hp, if_true, List.length_cons]
      omega
    · rw [if_neg hp]
      simp only [List.filter_cons, hp, if_false, Bool.false_eq_true]

theorem attachmentCount_eq_filter (parts : List MessagePart) :
    attachmentCount parts
      = (parts.filter (fun part => !qStartsWith part.contentType "text/plain"
          && !qStartsWith part.contentType "application/smil")).length := by
  unfold attachmentCount
  rw [attachmentCount_foldl]
  simp

/-- C24: `notificationText` for an MMS event is the manual-download phrase when the
status is the manual-notification status; otherwise, when the status is at or above the
temporarily-failed status, it is the trimmed details (`QString::trimmed()`: the
characters of `QChar::isSpace` removed from both ends) if they are non-empty, else the
download-failed phrase for an inbound event and the send-failed phrase for any other
direction; otherwise, with `base` the subject if non-empty, else the free text, and `k`
the number of message parts whose content type starts with neither "text/plain" nor
"application/smil", it is `base` when `k = 0`, the with-text phrase of `k` and `base`
when `k > 0` and `base` is non-empty, and the attachment-count phrase of `k` when
`k > 0` and `base` is empty. For an event type other than IM, SMS, MMS, call and
voicemail the text is empty. -/
theorem C24_notificationText_mms_cases (env : Env) (event : Event) (details : QString) :
    (event.type = EventType.MMSEvent →
      (event.status = env.consts.ManualNotificationStatus →
        NotificationManager.notificationText env event details
          = env.loc.txt_qtn_mms_notification_manual_download)
      ∧ (event.status ≠ env.consts.ManualNotificationStatus →
          event.status ≥ env.consts.TemporarilyFailedStatus →
          (qTrimmed env.isSpace details ≠ "" →
            NotificationManager.notificationText env event details
              = qTrimmed env.isSpace details)
          ∧ (qTrimmed env.isSpace details = "" → event.direction = EventDirection.Inbound →
            NotificationManager.notificationText env event details
              = env.loc.txt_qtn_mms_notification_download_failed)
          ∧ (qTrimmed env.isSpace details = "" → event.direction ≠ EventDirection.Inbound →
            NotificationManager.notificationText env event details
              = env.loc.txt_qtn_mms_notification_send_failed))
      ∧ (event.status ≠ env.consts.ManualNotificationStatus →
          event.status < env.consts.TemporarilyFailedStatus →
          ∀ (base : QString) (k : Nat),
            base = (if event.subject ≠ "" then event.subject else event.freeText) →
            k = (event.messageParts.filter (fun part =>
                  !qStartsWith part.contentType "text/plain"
                  && !qStartsWith part.contentType "application/smil")).length →
            (k = 0 → NotificationManager.notificationText env event details = base)
            ∧ (k > 0 → base ≠ "" →
                NotificationManager.notificationText env event details
                  = env.loc.txt_qtn_mms_notification_with_text k base)
            ∧ (k > 0 → base = "" →
                NotificationManager.notificationText env event details
                  = env.loc.txt_qtn_mms_notification_attachment k)))
    ∧ (event.type ≠ EventType.IMEvent → event.type ≠ EventType.SMSEvent →
        event.type ≠ EventType.MMSEvent → event.type ≠ EventType.CallEvent →
        event.type ≠ EventType.VoicemailEvent →
        NotificationManager.notificationText env event details = "") := by
  refine ⟨?_, ?_⟩
  · intro ht
    refine ⟨?_, ?_, ?_⟩
    · intro hst
      simp [NotificationManager.notificationText, ht, hst]
    · intro hst hge
      refine ⟨?_, ?_, ?_⟩
      · intro htr
        simp [NotificationManager.notificationText, ht, hst, hge, htr]
      · intro htr hdir
        simp [NotificationManager.notificationText, ht, hst, hge, htr, hdir]
      · intro htr hdir
        simp [NotificationManager.notificationText, ht, hst, hge, htr, hdir]
    · intro hst hlt base k hbase hk
      have hge : ¬ event.status ≥ env.consts.TemporarilyFailedStatus := not_le.2 hlt
      rw [← attachmentCount_eq_filter] at hk
      refine ⟨?_, ?_, ?_⟩
      · intro hk0
        have hk1 : ¬ attachmentCount event.messageParts > 0 := by omega
        simp only [NotificationManager.notificationText, ht, hst, hge, if_false, hk1]
        exact hbase.symm
      · intro hk0 hb
        have hk1 : attachmentCount event.messageParts > 0 := by omega
        have hb1 : (if event.subject ≠ "" then event.subject else event.freeText) ≠ "" := by
          rw [← hbase]; exact hb
        simp only [NotificationManager.notificationText, ht, hst, hge, if_false, hk1, if_true,
          hb1, ne_eq, not_false_eq_true]
        rw [← hbase, ← hk]
      · intro hk0 hb
        have hk1 : attachmentCount event.messageParts > 0 := by omega
        have hb1 : ¬ (if event.subject ≠ "" then event.subject else event.freeText) ≠ "" := by
          rw [← hbase]; exact not_not.2 hb
        simp only [NotificationManager.notificationText, ht, hst, hge, if_false, hk1, if_true,
          hb1]
        rw [← hk]
  · intro h1 h2 h3 h4 h5
    unfold NotificationManager.notificationText
    cases ht : event.type <;> simp_all

/-- Witness for C24: an MMS with a picture and a text, a failed MMS with details, a
failed inbound MMS whose details are a form feed, a no-break space, a space and a tab,
and a status message. -/
theorem C24_notificationText_mms_cases_witness :
    NotificationManager.notificationText sampleEnv
        { sampleSms "acc" "555" "t1" "Look" with
          type := EventType.MMSEvent,
          messageParts := [{ contentType := "application/smil" },
            { contentType := "image/jpeg" }, { contentType := "text/plain; charset=utf-8" }] }
        ""
      = "1 attachments, Look"
    ∧ NotificationManager.notificationText sampleEnv
        { sampleSms "acc" "555" "t1" "Look" with type := EventType.MMSEvent, status := 6 }
        "  network error "
      = "network error"
    ∧ NotificationManager.notificationText sampleEnv
        { sampleSms "acc" "555" "t1" "Look" with type := EventType.MMSEvent, status := 6 }
        "\x0c\u00a0 \t"
      = "Download failed"
    ∧ NotificationManager.notificationText sampleEnv
        { sampleSms "acc" "555" "t1" "Look" with type := EventType.StatusMessageEvent } ""
      = "" := by
  refine ⟨?_, ?_, ?_, ?_⟩
  · have h := (((C24_notificationText_mms_cases sampleEnv
        { sampleSms "acc" "555" "t1" "Look" with
          type := EventType.MMSEvent,
          messageParts := [{ contentType := "application/smil" },
            { contentType := "image/jpeg" }, { contentType := "text/plain; charset=utf-8" }] }
        "").1 rfl).2.2 (by decide) (by decide) "Look" 1 (by decide) (by decide)).2.1
      (by decide) (by decide)
    rw [h]
    decide
  · have h := (((C24_notificationText_mms_cases sampleEnv
        { sampleSms "acc" "555" "t1" "Look" with type := EventType.MMSEvent, status := 6 }
        "  network error ").1 rfl).2.1 (by decide) (by decide)).1 (by decide)
    rw [h]
    decide
  · exact ((((C24_notificationText_mms_cases sampleEnv
        { sampleSms "acc" "555" "t1" "Look" with type := EventType.MMSEvent, status := 6 }
        "\x0c\u00a0 \t").1 rfl).2.1 (by decide) (by decide)).2.1 (by decide) (by decide))
  · exact (C24_notificationText_mms_cases sampleEnv
        { sampleSms "acc" "555" "t1" "Look" with type := EventType.StatusMessageEvent }
        "").2 (by decide) (by decide) (by decide) (by decide) (by decide)

end RTComLogger
